import Mathlib

/-! # librepods: BLE identity resolution and the AACP transport life cycle

A shallow embedding of

* `src/bluetooth/BleCryptoUtils.cpp` (`e`, `ah`, `verifyRPA`, `decryptLastBytes`),
* `src/linux/ble/qt_aacptransport.cpp` (the `QtAACPTransport` state machine), and
* `src/windows/transport/aacp_transport_win.cpp` (`AACPTransport::Write`),

followed by theorems about the embedded functions.

Conventions.  A `QByteArray` is a `List Nat` whose elements are the byte values
(`0 .. 255`); a `QString` is a `List Char`.  Library code the program links
against (OpenSSL's AES, Qt's `QString`, `QByteArray` and `QBluetoothSocket`) is
not part of the repository; each library function is embedded from its documented
behaviour and says so in its doc comment.
-/

namespace BleCryptoUtils

/-! ## QByteArray operations used by the source -/

/-- The call `QByteArray::left(n)`: the first `n` bytes (the whole array when shorter). -/
def left (a : List Nat) (n : Nat) : List Nat := a.take n

/-- The call `QByteArray::right(n)`: the last `n` bytes (the whole array when shorter). -/
def right (a : List Nat) (n : Nat) : List Nat := a.drop (a.length - n)

/-- The call `QByteArray::mid(pos, len)`: `len` bytes from index `pos`. -/
def mid (a : List Nat) (pos len : Nat) : List Nat := (a.drop pos).take len

/-- The call `QByteArray::replace(pos, len, after)` for `pos` within the array:
the `len` bytes at `pos` are replaced by `after`. -/
def replace (a : List Nat) (pos len : Nat) (after : List Nat) : List Nat :=
  a.take pos ++ after ++ a.drop (pos + len)

/-- The constructor `QByteArray(size, ch)`. -/
def filled (size ch : Nat) : List Nat := List.replicate size ch

/-! ## OpenSSL AES (FIPS-197), the cipher behind `AES_encrypt`

The state is kept as the 16 bytes of the block in input order, so that byte
`r + 4 * c` is row `r`, column `c` of the FIPS-197 state. -/

/-- The byte at index `i` of a buffer, as an `unsigned char`. -/
def byteAt (s : List Nat) (i : Nat) : Nat := s.getD i 0 % 256

/-- The AES substitution table. -/
def sbox : List Nat :=
  [
   99, 124, 119, 123, 242, 107, 111, 197, 48, 1, 103, 43, 254, 215, 171, 118,
   202, 130, 201, 125, 250, 89, 71, 240, 173, 212, 162, 175, 156, 164, 114, 192,
   183, 253, 147, 38, 54, 63, 247, 204, 52, 165, 229, 241, 113, 216, 49, 21,
   4, 199, 35, 195, 24, 150, 5, 154, 7, 18, 128, 226, 235, 39, 178, 117,
   9, 131, 44, 26, 27, 110, 90, 160, 82, 59, 214, 179, 41, 227, 47, 132,
   83, 209, 0, 237, 32, 252, 177, 91, 106, 203, 190, 57, 74, 76, 88, 207,
   208, 239, 170, 251, 67, 77, 51, 133, 69, 249, 2, 127, 80, 60, 159, 168,
   81, 163, 64, 143, 146, 157, 56, 245, 188, 182, 218, 33, 16, 255, 243, 210,
   205, 12, 19, 236, 95, 151, 68, 23, 196, 167, 126, 61, 100, 93, 25, 115,
   96, 129, 79, 220, 34, 42, 144, 136, 70, 238, 184, 20, 222, 94, 11, 219,
   224, 50, 58, 10, 73, 6, 36, 92, 194, 211, 172, 98, 145, 149, 228, 121,
   231, 200, 55, 109, 141, 213, 78, 169, 108, 86, 244, 234, 101, 122, 174, 8,
   186, 120, 37, 46, 28, 166, 180, 198, 232, 221, 116, 31, 75, 189, 139, 138,
   112, 62, 181, 102, 72, 3, 246, 14, 97, 53, 87, 185, 134, 193, 29, 158,
   225, 248, 152, 17, 105, 217, 142, 148, 155, 30, 135, 233, 206, 85, 40, 223,
   140, 161, 137, 13, 191, 230, 66, 104, 65, 153, 45, 15, 176, 84, 187, 22
  ]

/-- SubBytes on one byte. -/
def subByte (b : Nat) : Nat := sbox.getD (b % 256) 0

/-- Multiplication by `x` in GF(2^8) modulo `x^8 + x^4 + x^3 + x + 1`. -/
def xtime (b : Nat) : Nat :=
  let d := 2 * (b % 256)
  if d < 256 then d else (d ^^^ 27) % 256

/-- AddRoundKey: bytewise exclusive or of state and round key. -/
def addRoundKey (s k : List Nat) : List Nat :=
  (List.range 16).map fun i => byteAt s i ^^^ byteAt k i

/-- SubBytes on the whole state. -/
def subBytes (s : List Nat) : List Nat :=
  (List.range 16).map fun i => subByte (byteAt s i)

/-- ShiftRows: row `r` is rotated left by `r` columns. -/
def shiftRows (s : List Nat) : List Nat :=
  [0, 5, 10, 15, 4, 9, 14, 3, 8, 13, 2, 7, 12, 1, 6, 11].map (byteAt s)

/-- MixColumns on one column `(a0, a1, a2, a3)`. -/
def mixColumn (a0 a1 a2 a3 : Nat) : List Nat :=
  [ xtime a0 ^^^ (xtime a1 ^^^ a1) ^^^ a2 ^^^ a3,
    a0 ^^^ xtime a1 ^^^ (xtime a2 ^^^ a2) ^^^ a3,
    a0 ^^^ a1 ^^^ xtime a2 ^^^ (xtime a3 ^^^ a3),
    (xtime a0 ^^^ a0) ^^^ a1 ^^^ a2 ^^^ xtime a3 ]

/-- MixColumns on the whole state. -/
def mixColumns (s : List Nat) : List Nat :=
  (List.range 4).flatMap fun c =>
    mixColumn (byteAt s (4 * c)) (byteAt s (4 * c + 1)) (byteAt s (4 * c + 2))
      (byteAt s (4 * c + 3))

/-- One step of the AES-128 key schedule: the round key after `k`, with round
constant `rcon`. -/
def nextRoundKey (k : List Nat) (rcon : Nat) : List Nat :=
  let w0 := [ byteAt k 0 ^^^ subByte (byteAt k 13) ^^^ rcon,
              byteAt k 1 ^^^ subByte (byteAt k 14),
              byteAt k 2 ^^^ subByte (byteAt k 15),
              byteAt k 3 ^^^ subByte (byteAt k 12) ]
  let w1 := (List.range 4).map fun i => byteAt k (4 + i) ^^^ byteAt w0 i
  let w2 := (List.range 4).map fun i => byteAt k (8 + i) ^^^ byteAt w1 i
  let w3 := (List.range 4).map fun i => byteAt k (12 + i) ^^^ byteAt w2 i
  w0 ++ w1 ++ w2 ++ w3

/-- The round constants of the AES-128 key schedule. -/
def rcons : List Nat := [1, 2, 4, 8, 16, 32, 64, 128, 27, 54]

/-- The eleven round keys of AES-128, the first being the cipher key itself. -/
def expandKey (userKey : List Nat) : List (List Nat) :=
  (rcons.foldl (fun (acc : List (List Nat) × List Nat) rc =>
      let k := nextRoundKey acc.2 rc
      (k :: acc.1, k)) ([userKey], userKey)).1.reverse

/-- OpenSSL's `AES_KEY`: the expanded round keys and the number of rounds. -/
structure AES_KEY where
  rd_key : List (List Nat)
  rounds : Nat
deriving DecidableEq, Repr

/-- OpenSSL's `AES_set_encrypt_key(userKey, bits, &key)` for a non-null `userKey`
and `key`: the return code and the key schedule written to `key`.  The return
code is `-2` unless `bits` is 128, 192 or 256; only the 128-bit schedule, the one
the program asks for, is expanded here. -/
def AES_set_encrypt_key (userKey : List Nat) (bits : Nat) : Int × AES_KEY :=
  if bits = 128 then (0, { rd_key := expandKey userKey, rounds := 10 })
  else if bits = 192 ∨ bits = 256 then (0, { rd_key := [], rounds := bits / 32 + 6 })
  else (-2, { rd_key := [], rounds := 0 })

/-- A full AES round. -/
def aesRound (s rk : List Nat) : List Nat :=
  addRoundKey (mixColumns (shiftRows (subBytes s))) rk

/-- The last AES round, which has no MixColumns. -/
def finalRound (s rk : List Nat) : List Nat :=
  addRoundKey (shiftRows (subBytes s)) rk

/-- OpenSSL's `AES_encrypt(in, out, &key)`: the 16 bytes written to `out`. -/
def AES_encrypt (input : List Nat) (key : AES_KEY) : List Nat :=
  let s0 := addRoundKey input (key.rd_key.getD 0 [])
  let s := ((key.rd_key.drop 1).take (key.rounds - 1)).foldl aesRound s0
  finalRound s (key.rd_key.getD key.rounds [])

/-! ## `BleCryptoUtils::e` and `BleCryptoUtils::ah` -/

/-- `BleCryptoUtils::e` (BleCryptoUtils.cpp, lines 55-81). -/
def e (key data : List Nat) : List Nat :=
  if key.length ≠ 16 ∨ data.length ≠ 16 then []
  else
    let reversedKey := key.reverse
    let reversedData := data.reverse
    let (rc, aesKey) := AES_set_encrypt_key reversedKey 128
    if rc ≠ 0 then []
    else
      let out := AES_encrypt reversedData aesKey
      let result := out.take 16
      result.reverse

/-- `BleCryptoUtils::ah` (BleCryptoUtils.cpp, lines 83-100). -/
def ah (k r : List Nat) : List Nat :=
  if r.length < 3 then []
  else
    let rPadded := replace (filled 16 0) 0 3 (left r 3)
    let encrypted := e k rPadded
    if encrypted.isEmpty then [] else left encrypted 3

/-! ## OpenSSL AES decryption, the cipher behind `AES_cbc_encrypt` -/

/-- The inverse of the AES substitution table. -/
def invSbox : List Nat :=
  [
   82, 9, 106, 213, 48, 54, 165, 56, 191, 64, 163, 158, 129, 243, 215, 251,
   124, 227, 57, 130, 155, 47, 255, 135, 52, 142, 67, 68, 196, 222, 233, 203,
   84, 123, 148, 50, 166, 194, 35, 61, 238, 76, 149, 11, 66, 250, 195, 78,
   8, 46, 161, 102, 40, 217, 36, 178, 118, 91, 162, 73, 109, 139, 209, 37,
   114, 248, 246, 100, 134, 104, 152, 22, 212, 164, 92, 204, 93, 101, 182, 146,
   108, 112, 72, 80, 253, 237, 185, 218, 94, 21, 70, 87, 167, 141, 157, 132,
   144, 216, 171, 0, 140, 188, 211, 10, 247, 228, 88, 5, 184, 179, 69, 6,
   208, 44, 30, 143, 202, 63, 15, 2, 193, 175, 189, 3, 1, 19, 138, 107,
   58, 145, 17, 65, 79, 103, 220, 234, 151, 242, 207, 206, 240, 180, 230, 115,
   150, 172, 116, 34, 231, 173, 53, 133, 226, 249, 55, 232, 28, 117, 223, 110,
   71, 241, 26, 113, 29, 41, 197, 137, 111, 183, 98, 14, 170, 24, 190, 27,
   252, 86, 62, 75, 198, 210, 121, 32, 154, 219, 192, 254, 120, 205, 90, 244,
   31, 221, 168, 51, 136, 7, 199, 49, 177, 18, 16, 89, 39, 128, 236, 95,
   96, 81, 127, 169, 25, 181, 74, 13, 45, 229, 122, 159, 147, 201, 156, 239,
   160, 224, 59, 77, 174, 42, 245, 176, 200, 235, 187, 60, 131, 83, 153, 97,
   23, 43, 4, 126, 186, 119, 214, 38, 225, 105, 20, 99, 85, 33, 12, 125
  ]

/-- InvSubBytes on one byte. -/
def invSubByte (b : Nat) : Nat := invSbox.getD (b % 256) 0

/-- InvSubBytes on the whole state. -/
def invSubBytes (s : List Nat) : List Nat :=
  (List.range 16).map fun i => invSubByte (byteAt s i)

/-- InvShiftRows: row `r` is rotated right by `r` columns. -/
def invShiftRows (s : List Nat) : List Nat :=
  [0, 13, 10, 7, 4, 1, 14, 11, 8, 5, 2, 15, 12, 9, 6, 3].map (byteAt s)

/-- Multiplication by 9 in GF(2^8). -/
def mul9 (a : Nat) : Nat := xtime (xtime (xtime a)) ^^^ a

/-- Multiplication by 11 in GF(2^8). -/
def mul11 (a : Nat) : Nat := xtime (xtime (xtime a)) ^^^ xtime a ^^^ a

/-- Multiplication by 13 in GF(2^8). -/
def mul13 (a : Nat) : Nat := xtime (xtime (xtime a)) ^^^ xtime (xtime a) ^^^ a

/-- Multiplication by 14 in GF(2^8). -/
def mul14 (a : Nat) : Nat := xtime (xtime (xtime a)) ^^^ xtime (xtime a) ^^^ xtime a

/-- InvMixColumns on one column `(b0, b1, b2, b3)`. -/
def invMixColumn (b0 b1 b2 b3 : Nat) : List Nat :=
  [ mul14 b0 ^^^ mul11 b1 ^^^ mul13 b2 ^^^ mul9 b3,
    mul9 b0 ^^^ mul14 b1 ^^^ mul11 b2 ^^^ mul13 b3,
    mul13 b0 ^^^ mul9 b1 ^^^ mul14 b2 ^^^ mul11 b3,
    mul11 b0 ^^^ mul13 b1 ^^^ mul9 b2 ^^^ mul14 b3 ]

/-- InvMixColumns on the whole state. -/
def invMixColumns (s : List Nat) : List Nat :=
  (List.range 4).flatMap fun c =>
    invMixColumn (byteAt s (4 * c)) (byteAt s (4 * c + 1)) (byteAt s (4 * c + 2))
      (byteAt s (4 * c + 3))

/-- A full round of the inverse cipher (FIPS-197, 5.3). -/
def invRound (s rk : List Nat) : List Nat :=
  invMixColumns (addRoundKey (invSubBytes (invShiftRows s)) rk)

/-- The last round of the inverse cipher, which has no InvMixColumns. -/
def invFinalRound (s rk : List Nat) : List Nat :=
  addRoundKey (invSubBytes (invShiftRows s)) rk

/-- OpenSSL's `AES_set_decrypt_key(userKey, bits, &key)` for a non-null `userKey`
and `key`: the return code and the key schedule written to `key`, which holds
the round keys in the order the inverse cipher uses them, last round key first.
The return code is `-2` unless `bits` is 128, 192 or 256; only the 128-bit
schedule, the one the program asks for, is expanded here. -/
def AES_set_decrypt_key (userKey : List Nat) (bits : Nat) : Int × AES_KEY :=
  if bits = 128 then (0, { rd_key := (expandKey userKey).reverse, rounds := 10 })
  else if bits = 192 ∨ bits = 256 then (0, { rd_key := [], rounds := bits / 32 + 6 })
  else (-2, { rd_key := [], rounds := 0 })

/-- OpenSSL's `AES_decrypt(in, out, &key)`: the 16 bytes written to `out`. -/
def AES_decrypt (input : List Nat) (key : AES_KEY) : List Nat :=
  let s0 := addRoundKey input (key.rd_key.getD 0 [])
  let s := ((key.rd_key.drop 1).take (key.rounds - 1)).foldl invRound s0
  invFinalRound s (key.rd_key.getD key.rounds [])

/-- The bytewise exclusive or of two 16-byte buffers. -/
def xorBlock (a b : List Nat) : List Nat :=
  (List.range 16).map fun i => byteAt a i ^^^ byteAt b i

/-- The value of OpenSSL's `AES_DECRYPT`. -/
def AES_DECRYPT : Nat := 0

/-- The value of OpenSSL's `AES_ENCRYPT`. -/
def AES_ENCRYPT : Nat := 1

/-- The block loop of `AES_cbc_encrypt` over `blocks` whole blocks of `input`:
the output written and the chaining value left in `ivec`.  When decrypting, each
output block is the decrypted input block XORed with the chaining value, which
then becomes that input block; when encrypting, each output block is the
encryption of the input block XORed with the chaining value, and becomes the
next chaining value. -/
def cbcBlocks (key : AES_KEY) (enc : Nat) : Nat → List Nat → List Nat → List Nat × List Nat
  | 0, _, ivec => ([], ivec)
  | blocks + 1, input, ivec =>
    let block := input.take 16
    if enc = AES_DECRYPT then
      let out := xorBlock (AES_decrypt block key) ivec
      let rest := cbcBlocks key enc blocks (input.drop 16) ((List.range 16).map (byteAt block))
      (out ++ rest.1, rest.2)
    else
      let out := AES_encrypt (xorBlock block ivec) key
      let rest := cbcBlocks key enc blocks (input.drop 16) out
      (out ++ rest.1, rest.2)

/-- OpenSSL's `AES_cbc_encrypt(in, out, length, &key, ivec, enc)` for a `length`
that is a multiple of 16, as in the program's call: the bytes written to `out`
and the value left in `ivec`. -/
def AES_cbc_encrypt (input : List Nat) (length : Nat) (key : AES_KEY) (ivec : List Nat)
    (enc : Nat) : List Nat × List Nat :=
  cbcBlocks key enc (length / 16) input ivec

/-! ## `BleCryptoUtils::decryptLastBytes` -/

/-- `BleCryptoUtils::decryptLastBytes` (BleCryptoUtils.cpp, lines 102-128). -/
def decryptLastBytes (data key : List Nat) : List Nat :=
  if data.length < 16 ∨ key.length ≠ 16 then []
  else
    let block := right data 16
    let (rc, aesKey) := AES_set_decrypt_key key 128
    if rc ≠ 0 then []
    else
      let iv := filled 16 0
      let (out, _) := AES_cbc_encrypt block 16 aesKey iv AES_DECRYPT
      let result := out.take 16
      result

/-! ## QString operations used by `verifyRPA` -/

/-- The call `QString::split(sep)` with the default `Qt::KeepEmptyParts`: the
pieces between the separators, empty pieces included, so that a text without a
separator (the empty text too) gives one piece. -/
def split (sep : Char) : List Char → List (List Char)
  | [] => [[]]
  | c :: cs =>
    if c = sep then [] :: split sep cs
    else
      match split sep cs with
      | [] => [[c]]
      | g :: gs => (c :: g) :: gs

/-- The test `QChar::isSpace`: the ASCII white space characters, U+0085, U+00A0
and the Unicode separators. -/
def isSpace (c : Char) : Bool :=
  let u := c.toNat
  u = 32 || (9 ≤ u && u ≤ 13) || u = 133 || u = 160 || u = 5760 ||
    (8192 ≤ u && u ≤ 8202) || u = 8232 || u = 8233 || u = 8239 || u = 8287 || u = 12288

/-- The call `QString::trimmed()`: white space removed from both ends. -/
def trimmed (s : List Char) : List Char :=
  ((s.dropWhile isSpace).reverse.dropWhile isSpace).reverse

/-- The value of a character read as a digit (`0-9`, then the letters of either
case from ten on), if it is one. -/
def digitValue (c : Char) : Option Nat :=
  let u := c.toNat
  if 48 ≤ u ∧ u ≤ 57 then some (u - 48)
  else if 97 ≤ u ∧ u ≤ 122 then some (u - 87)
  else if 65 ≤ u ∧ u ≤ 90 then some (u - 55)
  else none

/-- The digits of a text read in `base`, most significant first; `none` when a
character is not a digit of that base. -/
def parseDigits (base : Nat) : List Char → Nat → Option Nat
  | [], acc => some acc
  | c :: cs, acc =>
    match digitValue c with
    | some d => if d < base then parseDigits base cs (acc * base + d) else none
    | none => none

/-- An optional sign in front of a number: whether it is a minus sign (`-`, or
U+2212), and the rest. -/
def stripSign (t : List Char) : Bool × List Char :=
  match t with
  | '-' :: r => (true, r)
  | '−' :: r => (true, r)
  | '+' :: r => (false, r)
  | _ => (false, t)

/-- An optional `0x` or `0X` in front of the digits of a base 16 number. -/
def stripHexMark (base : Nat) (u : List Char) : List Char :=
  match u with
  | '0' :: x :: r => if base = 16 ∧ (x = 'x' ∨ x = 'X') then r else u
  | _ => u

/-- The call `QString::toInt(&ok, base)` for `2 ≤ base ≤ 36`, after Qt's
documentation: white space at both ends is ignored, then come an optional sign,
for base 16 an optional `0x`, and one or more digits of the base; the value has
to fit a 32-bit `int`.  The result is the value and `ok`; a failed conversion
gives `(0, false)`.  Qt versions differ on characters outside ASCII (which white
space is ignored, whether U+2212 is a minus sign); the conversion is embedded
with the most accepting reading, so that a text it rejects is rejected by each
of them. -/
def toInt (s : List Char) (base : Nat) : Int × Bool :=
  let t := trimmed s
  let (negative, u) := stripSign t
  let digits := stripHexMark base u
  if digits.isEmpty then (0, false)
  else
    match parseDigits base digits 0 with
    | none => (0, false)
    | some n =>
      let v : Int := if negative then -(n : Int) else (n : Int)
      if -2147483648 ≤ v ∧ v ≤ 2147483647 then (v, true) else (0, false)

/-- The conversion `static_cast<char>(v)` of an `int`, as the byte stored. -/
def castChar (v : Int) : Nat := (v % 256).toNat

/-! ## `BleCryptoUtils::verifyRPA` -/

/-- The loop of `verifyRPA` (lines 29-36) over the parts still to be read, in the
order the loop reads them: each part's value is appended to `rpa` and the loop
gives up (`none`) at the first part `toInt` does not accept. -/
def appendOctets : List (List Char) → List Nat → Option (List Nat)
  | [], rpa => some rpa
  | part :: rest, rpa =>
    let (v, ok) := toInt part 16
    let rpa1 := rpa ++ [castChar v]
    if !ok then none else appendOctets rest rpa1

/-- `BleCryptoUtils::verifyRPA` (BleCryptoUtils.cpp, lines 14-48). -/
def verifyRPA (address : List Char) (irk : List Nat) : Bool :=
  if address.isEmpty ∨ irk.isEmpty ∨ irk.length ≠ 16 then false
  else
    let parts := split ':' address
    if parts.length ≠ 6 then false
    else
      match appendOctets parts.reverse [] with
      | none => false
      | some rpa =>
        if rpa.length ≠ 6 then false
        else
          let prand := mid rpa 3 3
          let hash := left rpa 3
          let computedHash := ah irk prand
          hash == computedHash

/-! ## Address texts, for stating the properties of `verifyRPA` -/

/-- A character is a hexadecimal digit. -/
def isHexDigit (c : Char) : Bool :=
  match digitValue c with
  | some d => decide (d < 16)
  | none => false

/-- The value of the two-digit hexadecimal octet written `c d`. -/
def octetValue (c d : Char) : Nat :=
  16 * (digitValue c).getD 0 + (digitValue d).getD 0

/-- The groups of a text joined by `:`. -/
def joinColon : List (List Char) → List Char
  | [] => []
  | [g] => g
  | g :: g1 :: gs => g ++ ':' :: joinColon (g1 :: gs)

/-- The hexadecimal digit for `n < 16`, in upper or lower case. -/
def hexDigit (upper : Bool) (n : Nat) : Char :=
  if n < 10 then Char.ofNat (48 + n)
  else if upper then Char.ofNat (55 + n) else Char.ofNat (87 + n)

/-- A byte written as a two-digit hexadecimal octet. -/
def hexOctet (upper : Bool) (b : Nat) : List Char :=
  [hexDigit upper (b / 16), hexDigit upper (b % 16)]

/-- The text of a 6-byte address given in wire order: the bytes in reverse
order, each a two-digit octet, joined by `:`. -/
def addressText (upper : Bool) (wire : List Nat) : List Char :=
  joinColon (wire.reverse.map (hexOctet upper))

/-- A group is one octet: exactly two hexadecimal digits. -/
def isOctetText (g : List Char) : Bool :=
  match g with
  | [c, d] => isHexDigit c && isHexDigit d
  | _ => false

/-- A text is six colon-separated two-digit hexadecimal octets. -/
def isSixOctetText (address : List Char) : Bool :=
  (split ':' address).length = 6 && (split ':' address).all isOctetText

/-- Bit `j` of byte `i` of a byte string flipped. -/
def flipBit (a : List Nat) (i j : Nat) : List Nat :=
  a.set i (a.getD i 0 ^^^ 2 ^ j)

/-- A character `toInt` can accept in base 16: a hexadecimal digit, a sign (`+`,
`-` or U+2212), the `x` of the `0x` mark, or white space. -/
def isNumberChar (c : Char) : Bool :=
  isHexDigit c || c = '+' || c = '-' || c = '−' || c = 'x' || c = 'X' || isSpace c

/-- Single-block AES-128 encryption (FIPS-197) of `block` under `key`. -/
def aes128Encrypt (key block : List Nat) : List Nat :=
  AES_encrypt block { rd_key := expandKey key, rounds := 10 }

/-- Single-block AES-128 decryption (FIPS-197) of `block` under `key`. -/
def aes128Decrypt (key block : List Nat) : List Nat :=
  AES_decrypt block { rd_key := (expandKey key).reverse, rounds := 10 }

/-- A byte string is a block: 16 bytes, each below 256. -/
def IsBlock (s : List Nat) : Prop := s.length = 16 ∧ ∀ b ∈ s, b < 256

instance (s : List Nat) : Decidable (IsBlock s) := by
  unfold IsBlock
  infer_instance

end BleCryptoUtils

namespace QtAACPTransport

/-! ## The data of `QtAACPTransport` -/

/-- `AACPTransport::ControlCommandIdentifier` (aacptransport.h, lines 14-53). -/
inductive ControlCommandIdentifier where
  | MIC_MODE
  | BUTTON_SEND_MODE
  | VOICE_TRIGGER
  | SINGLE_CLICK_MODE
  | DOUBLE_CLICK_MODE
  | CLICK_HOLD_MODE
  | DOUBLE_CLICK_INTERVAL
  | CLICK_HOLD_INTERVAL
  | LISTENING_MODE_CONFIGS
  | ONE_BUD_ANC_MODE
  | CROWN_ROTATION_DIRECTION
  | LISTENING_MODE
  | AUTO_ANSWER_MODE
  | CHIME_VOLUME
  | VOLUME_SWIPE_INTERVAL
  | CALL_MANAGEMENT_CONFIG
  | VOLUME_SWIPE_MODE
  | ADAPTIVE_VOLUME_CONFIG
  | SOFTWARE_MUTE_CONFIG
  | CONVERSATION_DETECT_CONFIG
  | SSL
  | HEARING_AID
  | AUTO_ANC_STRENGTH
  | HPS_GAIN_SWIPE
  | HRM_STATE
  | IN_CASE_TONE_CONFIG
  | SIRI_MULTITONE_CONFIG
  | HEARING_ASSIST_CONFIG
  | ALLOW_OFF_OPTION
  | STEM_CONFIG
  | SLEEP_DETECTION_CONFIG
  | ALLOW_AUTO_CONNECT
  | EAR_DETECTION_CONFIG
  | AUTOMATIC_CONNECTION_CONFIG
  | OWNS_CONNECTION
  | PPE_TOGGLE_CONFIG
  | PPE_CAP_LEVEL_CONFIG
deriving DecidableEq, Repr

/-- The `quint8` value of an identifier, which is what `QMap` orders its keys by. -/
def ControlCommandIdentifier.tag : ControlCommandIdentifier → Nat
  | .MIC_MODE => 1
  | .BUTTON_SEND_MODE => 5
  | .VOICE_TRIGGER => 18
  | .SINGLE_CLICK_MODE => 20
  | .DOUBLE_CLICK_MODE => 21
  | .CLICK_HOLD_MODE => 22
  | .DOUBLE_CLICK_INTERVAL => 23
  | .CLICK_HOLD_INTERVAL => 24
  | .LISTENING_MODE_CONFIGS => 26
  | .ONE_BUD_ANC_MODE => 27
  | .CROWN_ROTATION_DIRECTION => 28
  | .LISTENING_MODE => 13
  | .AUTO_ANSWER_MODE => 30
  | .CHIME_VOLUME => 31
  | .VOLUME_SWIPE_INTERVAL => 35
  | .CALL_MANAGEMENT_CONFIG => 36
  | .VOLUME_SWIPE_MODE => 37
  | .ADAPTIVE_VOLUME_CONFIG => 38
  | .SOFTWARE_MUTE_CONFIG => 39
  | .CONVERSATION_DETECT_CONFIG => 40
  | .SSL => 41
  | .HEARING_AID => 44
  | .AUTO_ANC_STRENGTH => 46
  | .HPS_GAIN_SWIPE => 47
  | .HRM_STATE => 48
  | .IN_CASE_TONE_CONFIG => 49
  | .SIRI_MULTITONE_CONFIG => 50
  | .HEARING_ASSIST_CONFIG => 51
  | .ALLOW_OFF_OPTION => 52
  | .STEM_CONFIG => 57
  | .SLEEP_DETECTION_CONFIG => 53
  | .ALLOW_AUTO_CONNECT => 54
  | .EAR_DETECTION_CONFIG => 10
  | .AUTOMATIC_CONNECTION_CONFIG => 32
  | .OWNS_CONNECTION => 6
  | .PPE_TOGGLE_CONFIG => 55
  | .PPE_CAP_LEVEL_CONFIG => 56

/-- `AACPTransport::ControlCommandStatus` (aacptransport.h, lines 55-59). -/
structure ControlCommandStatus where
  identifier : ControlCommandIdentifier
  value : List Nat
deriving DecidableEq, Repr

/-- `QBluetoothDeviceInfo`, as far as the transport reads it: name and address. -/
structure DeviceInfo where
  name : String
  address : String
deriving DecidableEq, Repr

/-- `QBluetoothSocket::SocketState`. -/
inductive SocketState where
  | UnconnectedState
  | ServiceLookupState
  | ConnectingState
  | ConnectedState
  | BoundState
  | ClosingState
  | ListeningState
deriving DecidableEq, Repr

/-- The signals of `QBluetoothSocket` that `setupSession` connects to handlers. -/
inductive Signal where
  | connected
  | readyRead
  | disconnected
  | errorOccurred
deriving DecidableEq, Repr

/-- The service `setupSession` connects to. -/
def serviceUuid : String := "74ec2172-0bad-4d01-8f77-997b2be0722a"

/-- A `QBluetoothSocket` object.  `id` stands for the object's identity (its
address on the heap); `attached` says that its signals are connected to the
transport's handlers; `isOpen` and `state` are what `QIODevice::isOpen()` and
`QBluetoothSocket::state()` report; `target` is the last `connectToService`
request; `inbound` are the bytes `readAll()` would return; `written` are the
payloads passed to `write()`; `closed` and `deleted` record that `close()` and
`deleteLater()` have been called. -/
structure Socket where
  id : Nat
  attached : Bool
  isOpen : Bool
  state : SocketState
  target : Option (String × String)
  inbound : List Nat
  written : List (List Nat)
  closed : Bool
  deleted : Bool
deriving DecidableEq, Repr

/-- What the transport does that its consumer or the event loop can observe. -/
inductive Effect where
  | connectedCallback (cb : Nat)
  | packetCallback (cb : Nat) (data : List Nat)
  | disconnectedSignal
  | connectToService (socket : Nat) (address : String) (uuid : String)
  | timerStarted (msec : Nat)
deriving DecidableEq, Repr

/-- The members of `QtAACPTransport` (qt_aacptransport.h, lines 42-50) together
with the part of the world they refer to.  `m_socket` holds the socket object the
pointer refers to (`none` for `nullptr`); `retired` are the socket objects the
transport has let go of; `nextSocketId` is the identity the next `new
QBluetoothSocket` gets; `timers` counts the pending `QTimer::singleShot` timers,
which all run the same lambda; `effects` lists the observable effects so far,
oldest first.  A callback is `none` for an empty `std::function` and otherwise
carries a name for the function stored. -/
structure Transport where
  m_deviceInfo : DeviceInfo
  m_socket : Option Socket
  m_packetCallback : Option Nat
  m_connectedCallback : Option Nat
  m_retryAttempts : Int
  m_retryCount : Int
  m_controlCommandStatus : List (ControlCommandIdentifier × List Nat)
  retired : List Socket
  nextSocketId : Nat
  timers : Nat
  effects : List Effect
deriving DecidableEq, Repr

/-- A transport as its constructor leaves it. -/
def fresh : Transport :=
  { m_deviceInfo := { name := "", address := "00:00:00:00:00:00" }
    m_socket := none
    m_packetCallback := none
    m_connectedCallback := none
    m_retryAttempts := 3
    m_retryCount := 0
    m_controlCommandStatus := []
    retired := []
    nextSocketId := 0
    timers := 0
    effects := [] }

/-! ## QBluetoothSocket and QMap operations used by the source -/

/-- The constructor `new QBluetoothSocket(L2capProtocol, this)`: an unconnected,
closed socket with no signal connected. -/
def Socket.create (id : Nat) : Socket :=
  { id := id, attached := false, isOpen := false, state := .UnconnectedState,
    target := none, inbound := [], written := [], closed := false, deleted := false }

/-- The call `QBluetoothSocket::close()`: nothing happens to a socket in
`UnconnectedState`; any other socket stops being open and ends unconnected. -/
def Socket.close (s : Socket) : Socket :=
  if s.state = .UnconnectedState then { s with closed := true }
  else { s with isOpen := false, state := .UnconnectedState, closed := true }

/-- The call `QMap::insert(key, value)` on the map's entries, which are kept in
key order with one entry per key: the value of an existing key is replaced. -/
def qmapInsert (key : ControlCommandIdentifier) (value : List Nat) :
    List (ControlCommandIdentifier × List Nat) → List (ControlCommandIdentifier × List Nat)
  | [] => [(key, value)]
  | (k, v) :: rest =>
    if key.tag < k.tag then (key, value) :: (k, v) :: rest
    else if key.tag = k.tag then (key, value) :: rest
    else (k, v) :: qmapInsert key value rest

/-- The call `QMap::contains(key)`. -/
def qmapContains (key : ControlCommandIdentifier)
    (m : List (ControlCommandIdentifier × List Nat)) : Bool :=
  m.any fun kv => kv.1.tag = key.tag

/-- The call `QMap::value(key)`: the value stored for `key`, or a
default-constructed (empty) `QByteArray`. -/
def qmapValue (key : ControlCommandIdentifier)
    (m : List (ControlCommandIdentifier × List Nat)) : List Nat :=
  match m.find? fun kv => kv.1.tag = key.tag with
  | some kv => kv.2
  | none => []

/-! ## The member functions of `QtAACPTransport` -/

/-- `QtAACPTransport::cleanupSocket` (qt_aacptransport.cpp, lines 142-151). -/
def cleanupSocket (t : Transport) : Transport :=
  match t.m_socket with
  | some s =>
    let s1 := { s with attached := false }
    let s2 := s1.close
    let s3 := { s2 with deleted := true }
    { t with m_socket := none, retired := s3 :: t.retired }
  | none => t

/-- `QtAACPTransport::setupSession` (lines 19-35).  The outcome of the connection
attempt is not part of the call: the socket reports it later through its
signals. -/
def setupSession (t : Transport) (deviceInfo : DeviceInfo) : Transport :=
  let t1 := { t with m_deviceInfo := deviceInfo, m_retryCount := 0 }
  let t2 := cleanupSocket t1
  let s := Socket.create t2.nextSocketId
  let s1 := { s with attached := true }
  let s2 := { s1 with target := some (deviceInfo.address, serviceUuid),
                      state := .ServiceLookupState }
  { t2 with
    m_socket := some s2
    nextSocketId := t2.nextSocketId + 1
    effects := t2.effects ++ [.connectToService s.id deviceInfo.address serviceUuid] }

/-- `QtAACPTransport::disconnectFromDevice` (lines 37-41). -/
def disconnectFromDevice (t : Transport) : Transport :=
  let t1 := cleanupSocket t
  { t1 with effects := t1.effects ++ [.disconnectedSignal] }

/-- `QtAACPTransport::sendPacket` (lines 43-52): the return value and the state
after the call. -/
def sendPacket (t : Transport) (packet : List Nat) : Bool × Transport :=
  match t.m_socket with
  | some s =>
    if s.isOpen then
      (true, { t with m_socket := some { s with written := s.written ++ [packet] } })
    else (false, t)
  | none => (false, t)

/-- `QtAACPTransport::setPacketCallback` (lines 54-57). -/
def setPacketCallback (t : Transport) (callback : Option Nat) : Transport :=
  { t with m_packetCallback := callback }

/-- `QtAACPTransport::setConnectedCallback` (lines 59-62). -/
def setConnectedCallback (t : Transport) (callback : Option Nat) : Transport :=
  { t with m_connectedCallback := callback }

/-- `QtAACPTransport::isConnected` (lines 64-67). -/
def isConnected (t : Transport) : Bool :=
  match t.m_socket with
  | some s => s.isOpen && s.state = .ConnectedState
  | none => false

/-- `QtAACPTransport::address` (lines 69-72). -/
def address (t : Transport) : String := t.m_deviceInfo.address

/-- `QtAACPTransport::setRetryAttempts` (lines 74-77). -/
def setRetryAttempts (t : Transport) (attempts : Int) : Transport :=
  { t with m_retryAttempts := attempts }

/-- `QtAACPTransport::controlCommandStatuses` (lines 79-87). -/
def controlCommandStatuses (t : Transport) : List ControlCommandStatus :=
  t.m_controlCommandStatus.map fun kv => { identifier := kv.1, value := kv.2 }

/-- `QtAACPTransport::controlCommandStatus` (lines 89-96). -/
def controlCommandStatus (t : Transport) (identifier : ControlCommandIdentifier) :
    Option ControlCommandStatus :=
  if qmapContains identifier t.m_controlCommandStatus then
    some { identifier := identifier, value := qmapValue identifier t.m_controlCommandStatus }
  else none

/-- `QtAACPTransport::setControlCommandStatus` (lines 98-101). -/
def setControlCommandStatus (t : Transport) (identifier : ControlCommandIdentifier)
    (value : List Nat) : Transport :=
  { t with m_controlCommandStatus := qmapInsert identifier value t.m_controlCommandStatus }

/-- `QtAACPTransport::clearControlCommandStatuses` (lines 103-106). -/
def clearControlCommandStatuses (t : Transport) : Transport :=
  { t with m_controlCommandStatus := [] }

/-- `QtAACPTransport::handleConnected` (lines 108-116). -/
def handleConnected (t : Transport) : Transport :=
  let t1 := { t with m_retryCount := 0 }
  match t1.m_connectedCallback with
  | some cb => { t1 with effects := t1.effects ++ [.connectedCallback cb] }
  | none => t1

/-- `QtAACPTransport::handleReadyRead` (lines 118-128).  The handler runs only
when a socket connected to it emits `readyRead`, and then `m_socket` is that
socket (`attached_socket_is_current`); the last case, a null `m_socket`, is
there to make the function total. -/
def handleReadyRead (t : Transport) : Transport :=
  match t.m_packetCallback with
  | none => t
  | some cb =>
    match t.m_socket with
    | some s =>
      let data := s.inbound
      { t with
        m_socket := some { s with inbound := [] }
        effects := t.effects ++ [.packetCallback cb data] }
    | none => t

/-- `QtAACPTransport::handleDisconnected` (lines 130-134). -/
def handleDisconnected (t : Transport) : Transport :=
  { t with effects := t.effects ++ [.disconnectedSignal] }

/-- `QtAACPTransport::scheduleReconnect` (lines 153-165).  The timer started
here runs `setupSession(m_deviceInfo)` when it expires, see `timerExpired`. -/
def scheduleReconnect (t : Transport) : Transport :=
  if t.m_retryCount ≥ t.m_retryAttempts then t
  else
    let t1 := { t with m_retryCount := t.m_retryCount + 1 }
    { t1 with timers := t1.timers + 1, effects := t1.effects ++ [.timerStarted 1500] }

/-- `QtAACPTransport::handleError` (lines 136-140). -/
def handleError (t : Transport) : Transport :=
  scheduleReconnect t

/-- The lambda of `scheduleReconnect` (lines 163-164), run when one of the
pending single-shot timers expires.  The source keeps no handle to a timer and
never stops one: a timer goes away only by expiring. -/
def timerExpired (t : Transport) : Transport :=
  if t.timers = 0 then t
  else
    let t1 := { t with timers := t.timers - 1 }
    setupSession t1 t1.m_deviceInfo

/-! ## The event loop -/

/-- The socket object with identity `id`, among the one `m_socket` points to and
those let go of. -/
def findSocket (t : Transport) (id : Nat) : Option Socket :=
  (t.m_socket.toList ++ t.retired).find? fun s => s.id = id

/-- The handler that `setupSession` (lines 28-32) connects to a signal. -/
def handler (sig : Signal) (t : Transport) : Transport :=
  match sig with
  | .connected => handleConnected t
  | .readyRead => handleReadyRead t
  | .disconnected => handleDisconnected t
  | .errorOccurred => handleError t

/-- The socket object `id` emits `sig`: the handler runs if that socket's signals
are connected to the transport, and nothing happens otherwise. -/
def socketSignal (t : Transport) (id : Nat) (sig : Signal) : Transport :=
  match findSocket t id with
  | some s => if s.attached then handler sig t else t
  | none => t

/-- A change `f` made to the socket object `id` by the Bluetooth stack. -/
def updateSocket (t : Transport) (id : Nat) (f : Socket → Socket) : Transport :=
  { t with
    m_socket := t.m_socket.map fun s => if s.id = id then f s else s
    retired := t.retired.map fun s => if s.id = id then f s else s }

/-- What can happen to a transport: the calls of its consumer, and what the
event loop delivers.  `socketStatus` is the Bluetooth stack changing a socket's
open mode and state (a socket is opened when its connection attempt starts, in
`ConnectingState`, before it emits `connected`), `socketData` is bytes arriving
on a socket, `socketSignal` is a socket emitting a signal, and `timerExpired` is
a pending single-shot timer expiring. -/
inductive Event where
  | setupSession (deviceInfo : DeviceInfo)
  | disconnectFromDevice
  | sendPacket (packet : List Nat)
  | setPacketCallback (callback : Option Nat)
  | setConnectedCallback (callback : Option Nat)
  | setRetryAttempts (attempts : Int)
  | setControlCommandStatus (identifier : ControlCommandIdentifier) (value : List Nat)
  | clearControlCommandStatuses
  | socketStatus (id : Nat) (isOpen : Bool) (state : SocketState)
  | socketData (id : Nat) (bytes : List Nat)
  | socketSignal (id : Nat) (sig : Signal)
  | timerExpired
deriving DecidableEq, Repr

/-- The state after one event. -/
def step (t : Transport) : Event → Transport
  | .setupSession d => setupSession t d
  | .disconnectFromDevice => disconnectFromDevice t
  | .sendPacket p => (sendPacket t p).2
  | .setPacketCallback cb => setPacketCallback t cb
  | .setConnectedCallback cb => setConnectedCallback t cb
  | .setRetryAttempts n => setRetryAttempts t n
  | .setControlCommandStatus i v => setControlCommandStatus t i v
  | .clearControlCommandStatuses => clearControlCommandStatuses t
  | .socketStatus id o st => updateSocket t id fun s => { s with isOpen := o, state := st }
  | .socketData id bytes =>
    updateSocket t id fun s => { s with inbound := s.inbound ++ bytes }
  | .socketSignal id sig => socketSignal t id sig
  | .timerExpired => timerExpired t

/-- The state after a sequence of events, first event first. -/
def run (t : Transport) (events : List Event) : Transport :=
  events.foldl step t

/-- What holds of the sockets in every state a transport can reach: a socket let
go of is detached, closed and scheduled for deletion, every socket was created
before `nextSocketId`, and no socket let go of is the one `m_socket` points to. -/
def Inv (t : Transport) : Prop :=
  (∀ r ∈ t.retired,
    r.attached = false ∧ r.closed = true ∧ r.deleted = true ∧ r.id < t.nextSocketId) ∧
  (∀ s ∈ t.m_socket, s.id < t.nextSocketId ∧ ∀ r ∈ t.retired, r.id ≠ s.id)

instance (t : Transport) : Decidable (Inv t) := by
  unfold Inv
  infer_instance

/-- The events of `n` rounds of failed reconnection: in round `k` the socket
created last, which is socket `k`, reports an error, and then the retry timer
expires. -/
def failedRounds (n : Nat) : List Event :=
  (List.range n).flatMap fun k => [.socketSignal k .errorOccurred, .timerExpired]

/-- The identifier with a given `quint8` value, if there is one. -/
def ControlCommandIdentifier.ofTag : Nat → Option ControlCommandIdentifier
  | 1 => some .MIC_MODE
  | 5 => some .BUTTON_SEND_MODE
  | 18 => some .VOICE_TRIGGER
  | 20 => some .SINGLE_CLICK_MODE
  | 21 => some .DOUBLE_CLICK_MODE
  | 22 => some .CLICK_HOLD_MODE
  | 23 => some .DOUBLE_CLICK_INTERVAL
  | 24 => some .CLICK_HOLD_INTERVAL
  | 26 => some .LISTENING_MODE_CONFIGS
  | 27 => some .ONE_BUD_ANC_MODE
  | 28 => some .CROWN_ROTATION_DIRECTION
  | 13 => some .LISTENING_MODE
  | 30 => some .AUTO_ANSWER_MODE
  | 31 => some .CHIME_VOLUME
  | 35 => some .VOLUME_SWIPE_INTERVAL
  | 36 => some .CALL_MANAGEMENT_CONFIG
  | 37 => some .VOLUME_SWIPE_MODE
  | 38 => some .ADAPTIVE_VOLUME_CONFIG
  | 39 => some .SOFTWARE_MUTE_CONFIG
  | 40 => some .CONVERSATION_DETECT_CONFIG
  | 41 => some .SSL
  | 44 => some .HEARING_AID
  | 46 => some .AUTO_ANC_STRENGTH
  | 47 => some .HPS_GAIN_SWIPE
  | 48 => some .HRM_STATE
  | 49 => some .IN_CASE_TONE_CONFIG
  | 50 => some .SIRI_MULTITONE_CONFIG
  | 51 => some .HEARING_ASSIST_CONFIG
  | 52 => some .ALLOW_OFF_OPTION
  | 57 => some .STEM_CONFIG
  | 53 => some .SLEEP_DETECTION_CONFIG
  | 54 => some .ALLOW_AUTO_CONNECT
  | 10 => some .EAR_DETECTION_CONFIG
  | 32 => some .AUTOMATIC_CONNECTION_CONFIG
  | 6 => some .OWNS_CONNECTION
  | 55 => some .PPE_TOGGLE_CONFIG
  | 56 => some .PPE_CAP_LEVEL_CONFIG
  | _ => none

/-- The effect of one event on "the value last set for `i` since the last
clear": a set for `i` replaces it, a clear removes it. -/
def lastSetStep (i : ControlCommandIdentifier) (acc : Option (List Nat)) (ev : Event) :
    Option (List Nat) :=
  match ev with
  | .setControlCommandStatus j v => if j = i then some v else acc
  | .clearControlCommandStatuses => none
  | _ => acc

/-- The value of the last `setControlCommandStatus` for `i` since the last
`clearControlCommandStatuses` in a sequence of events, if there is one. -/
def lastSet (i : ControlCommandIdentifier) (events : List Event) : Option (List Nat) :=
  events.foldl (lastSetStep i) none

/-- The effect of one event on "the descriptor of the most recent
`setupSession` call of the consumer". -/
def lastSetupStep (acc : Option DeviceInfo) (ev : Event) : Option DeviceInfo :=
  match ev with
  | .setupSession d => some d
  | _ => acc

/-- The descriptor passed to the most recent `setupSession` call of the consumer
in a sequence of events, if there is one. -/
def lastSetup (events : List Event) : Option DeviceInfo :=
  events.foldl lastSetupStep none

end QtAACPTransport

namespace AACPTransport

/-! ## The Windows transport wrapper, `src/windows/transport/aacp_transport_win.cpp` -/

/-- `AACP_CHANNEL_TARGET` (AacpTransportPublic.h, lines 18-21). -/
inductive AACP_CHANNEL_TARGET where
  | AacpChannelPrimary
  | AacpChannelSecondary
deriving DecidableEq, Repr

/-- The value of an enumerator of `AACP_CHANNEL_TARGET`. -/
def AACP_CHANNEL_TARGET.value : AACP_CHANNEL_TARGET → Nat
  | .AacpChannelPrimary => 0
  | .AacpChannelSecondary => 1

/-- The four bytes of a 32-bit value in memory, least significant byte first
(the byte order of the processors Windows runs on). -/
def le32 (v : Nat) : List Nat :=
  [v % 256, v / 256 % 256, v / 65536 % 256, v / 16777216 % 256]

/-- The offset of `AACP_RW_REQUEST::Channel` (AacpTransportPublic.h, lines 36-41,
under `#pragma pack(push, 1)`; an enumeration takes 4 bytes). -/
def offsetChannel : Nat := 0

/-- The offset of `AACP_RW_REQUEST::TimeoutMs`. -/
def offsetTimeoutMs : Nat := offsetChannel + 4

/-- The offset of `AACP_RW_REQUEST::PayloadLength`. -/
def offsetPayloadLength : Nat := offsetTimeoutMs + 4

/-- The offset of `AACP_RW_REQUEST::Payload`. -/
def offsetPayload : Nat := offsetPayloadLength + 4

/-- The value of `sizeof(AACP_RW_REQUEST)`: the three 32-bit members and the one
byte of `UCHAR Payload[1]`, with no padding. -/
def sizeofRwRequest : Nat := offsetPayload + 1

/-- The Windows macro `CTL_CODE(DeviceType, Function, Method, Access)`. -/
def CTL_CODE (deviceType function method access : Nat) : Nat :=
  deviceType * 65536 + access * 16384 + function * 4 + method

/-- `IOCTL_AACP_WRITE` (AacpTransportPublic.h, line 49), with `METHOD_IN_DIRECT = 1`
and `FILE_WRITE_DATA = 2`. -/
def IOCTL_AACP_WRITE : Nat := CTL_CODE 32816 2051 1 2

/-- Bytes stored into a buffer from `offset` on, as by a member assignment or
`memcpy`, for a destination that lies within the buffer. -/
def store (buffer : List Nat) (offset : Nat) (bytes : List Nat) : List Nat :=
  buffer.take offset ++ bytes ++ buffer.drop (offset + bytes.length)

/-- A call of `DeviceIoControl`: the control code, the `inSize` bytes at
`inBuffer`, and the size of the output buffer. -/
structure IoctlCall where
  code : Nat
  inBuffer : List Nat
  inSize : Nat
  outSize : Nat
deriving DecidableEq, Repr

/-- `AACPTransport::SendIoctl` (aacp_transport_win.cpp, lines 28-33).
`deviceHandle_` is `none` for `INVALID_HANDLE_VALUE`; `deviceIoControl` is the
answer of the system to a call.  The result is the return value and the call
made, if one is made. -/
def SendIoctl (deviceHandle_ : Option Nat) (deviceIoControl : IoctlCall → Bool) (code : Nat)
    (inBuffer : List Nat) (inSize outSize : Nat) : Bool × Option IoctlCall :=
  match deviceHandle_ with
  | none => (false, none)
  | some _ =>
    let call : IoctlCall :=
      { code := code, inBuffer := inBuffer.take inSize, inSize := inSize, outSize := outSize }
    (deviceIoControl call, some call)

/-- `AACPTransport::Write` (aacp_transport_win.cpp, lines 50-61).  The buffer is
a `std::vector<uint8_t>` of `requestSize` zero bytes into which the header
members and the payload are stored; `static_cast<ULONG>` and
`static_cast<DWORD>` keep the low 32 bits. -/
def Write (deviceHandle_ : Option Nat) (deviceIoControl : IoctlCall → Bool)
    (channel : AACP_CHANNEL_TARGET) (payload : List Nat) (timeoutMs : Nat) :
    Bool × Option IoctlCall :=
  let requestSize := sizeofRwRequest + payload.length
  let buffer0 := List.replicate requestSize 0
  let buffer1 := store buffer0 offsetChannel (le32 channel.value)
  let buffer2 := store buffer1 offsetTimeoutMs (le32 timeoutMs)
  let buffer3 := store buffer2 offsetPayloadLength (le32 (payload.length % 4294967296))
  let buffer4 := store buffer3 offsetPayload payload
  SendIoctl deviceHandle_ deviceIoControl IOCTL_AACP_WRITE buffer4
    (buffer4.length % 4294967296) 0

/-- The value of `STATUS_SUCCESS`. -/
def STATUS_SUCCESS : Nat := 0

/-- The value of `STATUS_BUFFER_TOO_SMALL`. -/
def STATUS_BUFFER_TOO_SMALL : Nat := 3221225507

/-- `AacpHandleWrite` of the driver (AacpTransportDriver.c, lines 88-96): the
status the request is completed with, given the length of its input buffer. -/
def AacpHandleWrite (inputBufferLength : Nat) : Nat :=
  if inputBufferLength < sizeofRwRequest then STATUS_BUFFER_TOO_SMALL else STATUS_SUCCESS

end AACPTransport

/-! # Theorems -/

namespace BleCryptoUtils

/-! ## The cipher -/

/-- The model of OpenSSL's AES reproduces the AES-128 example of FIPS-197,
appendix C.1. -/
theorem aes128Encrypt_fips197 :
    aes128Encrypt (List.range 16)
        [0, 17, 34, 51, 68, 85, 102, 119, 136, 153, 170, 187, 204, 221, 238, 255]
      = [105, 196, 224, 216, 106, 123, 4, 48, 216, 205, 183, 128, 112, 180, 197, 90] := by
  decide!

theorem addRoundKey_length (s k : List Nat) : (addRoundKey s k).length = 16 := by
  simp [addRoundKey]

theorem byteAt_lt (s : List Nat) (i : Nat) : byteAt s i < 256 :=
  Nat.mod_lt _ (by decide)

theorem addRoundKey_lt (s k : List Nat) : ∀ b ∈ addRoundKey s k, b < 256 := by
  intro b hb
  simp only [addRoundKey, List.mem_map] at hb
  obtain ⟨i, _, rfl⟩ := hb
  exact Nat.xor_lt_two_pow (n := 8) (byteAt_lt s i) (byteAt_lt k i)

theorem AES_encrypt_length (input : List Nat) (key : AES_KEY) :
    (AES_encrypt input key).length = 16 := by
  simp [AES_encrypt, finalRound, addRoundKey_length]

theorem AES_encrypt_lt (input : List Nat) (key : AES_KEY) :
    ∀ b ∈ AES_encrypt input key, b < 256 := by
  simp only [AES_encrypt, finalRound]
  exact addRoundKey_lt _ _

theorem AES_set_encrypt_key_128 (userKey : List Nat) :
    AES_set_encrypt_key userKey 128 = (0, { rd_key := expandKey userKey, rounds := 10 }) := by
  simp [AES_set_encrypt_key]

/-! ## `e` -/

theorem e_of_length (key data : List Nat) (hk : key.length = 16) (hd : data.length = 16) :
    e key data = (aes128Encrypt key.reverse data.reverse).reverse := by
  have h : (AES_encrypt data.reverse { rd_key := expandKey key.reverse, rounds := 10 }).length
      = 16 := AES_encrypt_length _ _
  simp only [e, hk, hd, AES_set_encrypt_key_128, aes128Encrypt]
  simp [List.take_of_length_le (Nat.le_of_eq h)]

theorem e_of_bad_length (key data : List Nat) (h : key.length ≠ 16 ∨ data.length ≠ 16) :
    e key data = [] := by
  simp only [e]
  rw [if_pos h]

theorem e_length (key data : List Nat) (hk : key.length = 16) (hd : data.length = 16) :
    (e key data).length = 16 := by
  rw [e_of_length key data hk hd, List.length_reverse]
  exact AES_encrypt_length _ _

theorem e_lt (key data : List Nat) : ∀ b ∈ e key data, b < 256 := by
  intro b hb
  by_cases h : key.length ≠ 16 ∨ data.length ≠ 16
  · rw [e_of_bad_length key data h] at hb
    cases hb
  · have hk : key.length = 16 := by
      by_contra hk
      exact h (Or.inl hk)
    have hd : data.length = 16 := by
      by_contra hd
      exact h (Or.inr hd)
    rw [e_of_length key data hk hd, List.mem_reverse] at hb
    exact AES_encrypt_lt _ _ b hb

/-- C3.  `e key data` is the empty byte string exactly when `key` or `data` is
not 16 bytes long; for a 16-byte key and a 16-byte block it is the 16-byte value
`reverse (AES-128 (reverse key) (reverse data))`. -/
theorem e_spec (key data : List Nat) :
    (e key data = [] ↔ (key.length ≠ 16 ∨ data.length ≠ 16)) ∧
    (key.length = 16 → data.length = 16 →
      e key data = (aes128Encrypt key.reverse data.reverse).reverse ∧
      (e key data).length = 16) := by
  refine ⟨⟨fun h => ?_, e_of_bad_length key data⟩, fun hk hd =>
    ⟨e_of_length key data hk hd, e_length key data hk hd⟩⟩
  by_contra hn
  have hk : key.length = 16 := by
    by_contra hk
    exact hn (Or.inl hk)
  have hd : data.length = 16 := by
    by_contra hd
    exact hn (Or.inr hd)
  have hl := e_length key data hk hd
  rw [h] at hl
  cases hl

/-- The statement `e_spec` applied to the key `0, 1, .., 15` and the block of
FIPS-197, appendix C.1, and to a 15-byte key. -/
theorem e_spec_witness :
    (List.range 16).length = 16 ∧ (List.replicate 16 7).length = 16 ∧
    (e (List.range 16) (List.replicate 16 7)
        = (aes128Encrypt (List.range 16).reverse (List.replicate 16 7).reverse).reverse ∧
      (e (List.range 16) (List.replicate 16 7)).length = 16) ∧
    e (List.range 15) (List.replicate 16 7) = [] :=
  ⟨by decide, by decide,
    (e_spec (List.range 16) (List.replicate 16 7)).2 (by decide) (by decide),
    (e_spec (List.range 15) (List.replicate 16 7)).1.2 (Or.inl (by decide))⟩

/-! ## `ah` -/

theorem rPadded_eq (r : List Nat) :
    replace (filled 16 0) 0 3 (left r 3) = r.take 3 ++ List.replicate 13 0 := by
  simp [replace, filled, left]

theorem ah_of_length (k r : List Nat) (hr : 3 ≤ r.length) (hk : k.length = 16) :
    ah k r = (e k (r.take 3 ++ List.replicate 13 0)).take 3 := by
  have hb : (r.take 3 ++ List.replicate 13 0).length = 16 := by
    simp [List.length_take, Nat.min_eq_left hr]
  have hl := e_length k _ hk hb
  have hne : e k (r.take 3 ++ List.replicate 13 0) ≠ [] := by
    intro h
    rw [h] at hl
    cases hl
  simp only [ah, rPadded_eq]
  rw [if_neg (Nat.not_lt.mpr hr)]
  simp only [left, List.isEmpty_iff]
  rw [if_neg hne]

theorem ah_of_short (k r : List Nat) (hr : r.length < 3) : ah k r = [] := by
  simp only [ah]
  rw [if_pos hr]

theorem ah_of_bad_key (k r : List Nat) (hk : k.length ≠ 16) : ah k r = [] := by
  simp only [ah, rPadded_eq]
  split
  · rfl
  · rw [e_of_bad_length k _ (Or.inl hk)]
    rfl

theorem ah_length (k r : List Nat) (hr : 3 ≤ r.length) (hk : k.length = 16) :
    (ah k r).length = 3 := by
  have hb : (r.take 3 ++ List.replicate 13 0).length = 16 := by
    simp [List.length_take, Nat.min_eq_left hr]
  rw [ah_of_length k r hr hk, List.length_take, e_length k _ hk hb]
  rfl

theorem ah_lt (k r : List Nat) : ∀ b ∈ ah k r, b < 256 := by
  intro b hb
  simp only [ah] at hb
  simp only [left] at hb
  split at hb
  · cases hb
  · split at hb
    · cases hb
    · exact e_lt _ _ b (List.mem_of_mem_take hb)

/-- The hash `ah` reproduces the sample data of the Bluetooth Core Specification
(IRK `ec0234a3 57c8ad05 341010a6 0a397d9b`, `prand = 708194`, hash `0dfbaa`), with
each value given least significant byte first. -/
theorem ah_bluetooth_sample :
    ah [155, 125, 57, 10, 166, 16, 16, 52, 5, 173, 200, 87, 163, 52, 2, 236] [148, 129, 112]
      = [170, 251, 13] := by
  decide!

/-- C4.  For `|r| ≥ 3` and `|k| = 16`, `ah k r` is the first 3 bytes of `e k B`,
where `B` is the 16-byte block made of the first 3 bytes of `r` followed by 13
zero bytes, so that it has 3 bytes and does not depend on the bytes of `r` past
the third; for `|r| < 3` or `|k| ≠ 16`, `ah k r` is the empty byte string. -/
theorem ah_spec (k r : List Nat) :
    (3 ≤ r.length → k.length = 16 →
      ah k r = (e k (r.take 3 ++ List.replicate 13 0)).take 3 ∧
      (r.take 3 ++ List.replicate 13 0).length = 16 ∧
      (ah k r).length = 3 ∧
      ah k r = ah k (r.take 3)) ∧
    (r.length < 3 ∨ k.length ≠ 16 → ah k r = []) := by
  refine ⟨fun hr hk => ⟨ah_of_length k r hr hk, ?_, ah_length k r hr hk, ?_⟩, fun h => ?_⟩
  · simp [List.length_take, Nat.min_eq_left hr]
  · have h3 : 3 ≤ (r.take 3).length := by
      simp [List.length_take, Nat.min_eq_left hr]
    rw [ah_of_length k r hr hk, ah_of_length k (r.take 3) h3 hk, List.take_take]
    rfl
  · rcases h with h | h
    · exact ah_of_short k r h
    · exact ah_of_bad_key k r h

/-- The statement `ah_spec` applied to a 5-byte `r` under a 16-byte key, and to a
2-byte `r`. -/
theorem ah_spec_witness :
    3 ≤ [1, 2, 3, 4, 5].length ∧ (List.replicate 16 0).length = 16 ∧
    (ah (List.replicate 16 0) [1, 2, 3, 4, 5]
        = (e (List.replicate 16 0) ([1, 2, 3, 4, 5].take 3 ++ List.replicate 13 0)).take 3 ∧
      ([1, 2, 3, 4, 5].take 3 ++ List.replicate 13 0).length = 16 ∧
      (ah (List.replicate 16 0) [1, 2, 3, 4, 5]).length = 3 ∧
      ah (List.replicate 16 0) [1, 2, 3, 4, 5]
        = ah (List.replicate 16 0) ([1, 2, 3, 4, 5].take 3)) ∧
    ah (List.replicate 16 0) [1, 2] = [] :=
  ⟨by decide, by decide,
    (ah_spec (List.replicate 16 0) [1, 2, 3, 4, 5]).1 (by decide) (by decide),
    (ah_spec (List.replicate 16 0) [1, 2]).2 (Or.inl (by decide))⟩


/-! ## `verifyRPA` on well-formed address texts -/

/-- The 22 hexadecimal digits. -/
theorem isHexDigit_mem (c : Char) (h : isHexDigit c = true) :
    c ∈ "0123456789abcdefABCDEF".toList := by
  have hc : c = Char.ofNat c.toNat := (Char.ofNat_toNat c).symm
  have hr : (48 ≤ c.toNat ∧ c.toNat ≤ 57) ∨ (97 ≤ c.toNat ∧ c.toNat ≤ 102) ∨
      (65 ≤ c.toNat ∧ c.toNat ≤ 70) := by
    simp only [isHexDigit, digitValue] at h
    split_ifs at h with h1 h2 h3
    · exact Or.inl h1
    · simp only [decide_eq_true_eq] at h
      omega
    · simp only [decide_eq_true_eq] at h
      omega
  generalize c.toNat = n at hc hr
  subst hc
  rcases hr with ⟨h1, h2⟩ | ⟨h1, h2⟩ | ⟨h1, h2⟩ <;> interval_cases n <;> decide


theorem toInt_octet_mem :
    ∀ c ∈ "0123456789abcdefABCDEF".toList, ∀ d ∈ "0123456789abcdefABCDEF".toList,
      toInt [c, d] 16 = (((octetValue c d : Nat) : Int), true) ∧ octetValue c d < 256 ∧
        c ≠ ':' ∧ d ≠ ':' := by
  decide!

theorem toInt_octet (c d : Char) (hc : isHexDigit c = true) (hd : isHexDigit d = true) :
    toInt [c, d] 16 = (((octetValue c d : Nat) : Int), true) :=
  (toInt_octet_mem c (isHexDigit_mem c hc) d (isHexDigit_mem d hd)).1

theorem octetValue_lt (c d : Char) (hc : isHexDigit c = true) (hd : isHexDigit d = true) :
    octetValue c d < 256 :=
  (toInt_octet_mem c (isHexDigit_mem c hc) d (isHexDigit_mem d hd)).2.1

theorem isHexDigit_ne_colon (c : Char) (hc : isHexDigit c = true) : c ≠ ':' := by
  rintro rfl
  exact absurd hc (by decide)

theorem castChar_natCast (n : Nat) (h : n < 256) : castChar (n : Int) = n := by
  simp only [castChar]
  omega

theorem split_cons_sep (sep : Char) (cs : List Char) :
    split sep (sep :: cs) = [] :: split sep cs := by
  simp [split]

theorem split_ne_nil (sep : Char) (cs : List Char) : split sep cs ≠ [] := by
  induction cs with
  | nil => simp [split]
  | cons c cs ih =>
    simp only [split]
    split
    · simp
    · split
      · simp
      · simp

theorem split_cons_ne (sep c : Char) (cs : List Char) (h : c ≠ sep) :
    split sep (c :: cs) = (c :: (split sep cs).headD []) :: (split sep cs).tail := by
  have hne := split_ne_nil sep cs
  simp only [split, if_neg h]
  cases hs : split sep cs with
  | nil => exact absurd hs hne
  | cons g gs => rfl

theorem split_octet (c d : Char) (hc : isHexDigit c = true) (hd : isHexDigit d = true) :
    split ':' [c, d] = [[c, d]] := by
  rw [split_cons_ne _ _ _ (isHexDigit_ne_colon c hc), split_cons_ne _ _ _ (isHexDigit_ne_colon d hd)]
  rfl

theorem split_octet_cons (c d : Char) (rest : List Char) (hc : isHexDigit c = true)
    (hd : isHexDigit d = true) :
    split ':' (c :: d :: ':' :: rest) = [c, d] :: split ':' rest := by
  rw [split_cons_ne _ _ _ (isHexDigit_ne_colon c hc), split_cons_ne _ _ _ (isHexDigit_ne_colon d hd),
    split_cons_sep]
  rfl

/-- The text of six two-digit octets `t0:t1:t2:t3:t4:t5`. -/
theorem verifyRPA_octets (key : List Nat) (c0 d0 c1 d1 c2 d2 c3 d3 c4 d4 c5 d5 : Char)
    (hk : key.length = 16)
    (h : ∀ c ∈ [c0, d0, c1, d1, c2, d2, c3, d3, c4, d4, c5, d5], isHexDigit c = true) :
    verifyRPA (joinColon [[c0, d0], [c1, d1], [c2, d2], [c3, d3], [c4, d4], [c5, d5]]) key
      = decide ([octetValue c5 d5, octetValue c4 d4, octetValue c3 d3]
          = ah key [octetValue c2 d2, octetValue c1 d1, octetValue c0 d0]) := by
  have a0 := h c0 (by simp)
  have b0 := h d0 (by simp)
  have a1 := h c1 (by simp)
  have b1 := h d1 (by simp)
  have a2 := h c2 (by simp)
  have b2 := h d2 (by simp)
  have a3 := h c3 (by simp)
  have b3 := h d3 (by simp)
  have a4 := h c4 (by simp)
  have b4 := h d4 (by simp)
  have a5 := h c5 (by simp)
  have b5 := h d5 (by simp)
  have hs : split ':' (joinColon [[c0, d0], [c1, d1], [c2, d2], [c3, d3], [c4, d4], [c5, d5]])
      = [[c0, d0], [c1, d1], [c2, d2], [c3, d3], [c4, d4], [c5, d5]] := by
    simp only [joinColon, List.cons_append, List.nil_append]
    rw [split_octet_cons _ _ _ a0 b0, split_octet_cons _ _ _ a1 b1, split_octet_cons _ _ _ a2 b2,
      split_octet_cons _ _ _ a3 b3, split_octet_cons _ _ _ a4 b4, split_octet _ _ a5 b5]
  have hkne : key ≠ [] := by
    intro hn
    rw [hn] at hk
    cases hk
  have hl : appendOctets [[c5, d5], [c4, d4], [c3, d3], [c2, d2], [c1, d1], [c0, d0]] []
      = some [octetValue c5 d5, octetValue c4 d4, octetValue c3 d3, octetValue c2 d2,
          octetValue c1 d1, octetValue c0 d0] := by
    simp only [appendOctets, toInt_octet _ _ a0 b0, toInt_octet _ _ a1 b1, toInt_octet _ _ a2 b2,
      toInt_octet _ _ a3 b3, toInt_octet _ _ a4 b4, toInt_octet _ _ a5 b5,
      castChar_natCast _ (octetValue_lt _ _ a0 b0), castChar_natCast _ (octetValue_lt _ _ a1 b1),
      castChar_natCast _ (octetValue_lt _ _ a2 b2), castChar_natCast _ (octetValue_lt _ _ a3 b3),
      castChar_natCast _ (octetValue_lt _ _ a4 b4), castChar_natCast _ (octetValue_lt _ _ a5 b5)]
    rfl
  unfold verifyRPA
  rw [hs]
  have hne : ¬ ((joinColon [[c0, d0], [c1, d1], [c2, d2], [c3, d3], [c4, d4], [c5, d5]]).isEmpty
      = true ∨ key.isEmpty = true ∨ key.length ≠ 16) := by
    simp [joinColon, hkne, hk]
  rw [if_neg hne]
  simp only [List.length_cons, List.length_nil, List.reverse_cons, List.reverse_nil,
    List.nil_append, List.cons_append, hl]
  simp only [mid, left, List.drop_succ_cons, List.drop_zero, List.take_succ_cons, List.take_zero,
    List.take_nil]
  simp only [Nat.reduceAdd, ne_eq, not_true_eq_false, ↓reduceIte]
  exact Bool.beq_eq_decide_eq _ _


theorem flipBit_ne (a b c : Nat) (i j : Nat) (hi : i < 3) :
    flipBit [a, b, c] i j ≠ [a, b, c] := by
  have hx : ∀ x : Nat, x ^^^ 2 ^ j ≠ x := by
    intro x h
    have h0 : x ^^^ 2 ^ j = x ^^^ 0 := by rw [Nat.xor_zero]; exact h
    have h1 := Nat.xor_right_injective h0
    exact absurd h1 (Nat.pos_iff_ne_zero.mp (Nat.two_pow_pos j))
  intro h
  interval_cases i
  · simp only [flipBit, List.getD_cons_zero, List.set_cons_zero, List.cons.injEq] at h
    exact hx a h.1
  · simp only [flipBit, List.getD_cons_succ, List.getD_cons_zero, List.set_cons_succ,
      List.set_cons_zero, List.cons.injEq] at h
    exact hx b h.2.1
  · simp only [flipBit, List.getD_cons_succ, List.getD_cons_zero, List.set_cons_succ,
      List.set_cons_zero, List.cons.injEq] at h
    exact hx c h.2.2.1

/-- C1.  For a 16-byte key and a text `t0:t1:t2:t3:t4:t5` of six two-digit
hexadecimal octets, `verifyRPA` returns true if and only if the bytes
`(t5, t4, t3)` equal `ah key (t2, t1, t0)`; and when it returns true, every text
of six two-digit octets with the same `t0, t1, t2` whose `(t5, t4, t3)` differ
from the accepted ones by one flipped bit is rejected. -/
theorem verifyRPA_spec (key : List Nat) (c0 d0 c1 d1 c2 d2 c3 d3 c4 d4 c5 d5 : Char)
    (hk : key.length = 16)
    (h : ∀ c ∈ [c0, d0, c1, d1, c2, d2, c3, d3, c4, d4, c5, d5], isHexDigit c = true) :
    (verifyRPA (joinColon [[c0, d0], [c1, d1], [c2, d2], [c3, d3], [c4, d4], [c5, d5]]) key
        = true ↔
      [octetValue c5 d5, octetValue c4 d4, octetValue c3 d3]
        = ah key [octetValue c2 d2, octetValue c1 d1, octetValue c0 d0]) ∧
    (verifyRPA (joinColon [[c0, d0], [c1, d1], [c2, d2], [c3, d3], [c4, d4], [c5, d5]]) key
        = true →
      ∀ (x3 y3 x4 y4 x5 y5 : Char) (i j : Nat),
        (∀ c ∈ [x3, y3, x4, y4, x5, y5], isHexDigit c = true) → i < 3 → j < 8 →
        [octetValue x5 y5, octetValue x4 y4, octetValue x3 y3]
          = flipBit [octetValue c5 d5, octetValue c4 d4, octetValue c3 d3] i j →
        verifyRPA (joinColon [[c0, d0], [c1, d1], [c2, d2], [x3, y3], [x4, y4], [x5, y5]]) key
          = false) := by
  have hv := verifyRPA_octets key c0 d0 c1 d1 c2 d2 c3 d3 c4 d4 c5 d5 hk h
  refine ⟨by rw [hv, decide_eq_true_eq], ?_⟩
  intro hacc x3 y3 x4 y4 x5 y5 i j hx hi _ hflip
  rw [hv, decide_eq_true_eq] at hacc
  have h2 : ∀ c ∈ [c0, d0, c1, d1, c2, d2, x3, y3, x4, y4, x5, y5], isHexDigit c = true := by
    intro c hc
    simp only [List.mem_cons, List.mem_singleton, List.not_mem_nil, or_false] at hc
    rcases hc with rfl | rfl | rfl | rfl | rfl | rfl | rfl | rfl | rfl | rfl | rfl | rfl
    · exact h _ (by simp)
    · exact h _ (by simp)
    · exact h _ (by simp)
    · exact h _ (by simp)
    · exact h _ (by simp)
    · exact h _ (by simp)
    · exact hx _ (by simp)
    · exact hx _ (by simp)
    · exact hx _ (by simp)
    · exact hx _ (by simp)
    · exact hx _ (by simp)
    · exact hx _ (by simp)
  rw [verifyRPA_octets key c0 d0 c1 d1 c2 d2 x3 y3 x4 y4 x5 y5 hk h2, decide_eq_false_iff_not,
    hflip, ← hacc]
  exact flipBit_ne _ _ _ i j hi

/-- The statement `verifyRPA_spec` applied to the all-zero key and the text
`03:02:01:4F:FE:15`, whose hash octets are `ah key (01, 02, 03)`: the text is
accepted, and `03:02:01:4F:FE:14`, with the lowest bit of the first hash byte
flipped, is rejected. -/
theorem verifyRPA_spec_witness :
    (List.replicate 16 0).length = 16 ∧
    (∀ c ∈ ['0', '3', '0', '2', '0', '1', '4', 'F', 'F', 'E', '1', '5'], isHexDigit c = true) ∧
    verifyRPA "03:02:01:4F:FE:15".toList (List.replicate 16 0) = true ∧
    verifyRPA "03:02:01:4F:FE:14".toList (List.replicate 16 0) = false :=
  have hs := verifyRPA_spec (List.replicate 16 0) '0' '3' '0' '2' '0' '1' '4' 'F' 'F' 'E' '1' '5'
    (by decide) (by decide)
  have hacc : verifyRPA "03:02:01:4F:FE:15".toList (List.replicate 16 0) = true :=
    hs.1.2 (by decide!)
  ⟨by decide, by decide, hacc,
    hs.2 hacc '4' 'F' 'F' 'E' '1' '4' 0 0 (by decide) (by decide) (by decide) (by decide)⟩

/-! ## Addresses built from `ah` -/

theorem hexOctet_facts :
    ∀ upper : Bool, ∀ b < 256,
      isHexDigit (hexDigit upper (b / 16)) = true ∧ isHexDigit (hexDigit upper (b % 16)) = true ∧
        octetValue (hexDigit upper (b / 16)) (hexDigit upper (b % 16)) = b := by
  decide!

/-- C2.  For a 16-byte key and a 3-byte `prand`, the value `h = ah key prand`
(a function of `key` and `prand`) has 3 bytes, and `verifyRPA` accepts under the
same key the text made of the six bytes `h[0], h[1], h[2], prand[0], prand[1],
prand[2]` in reverse order, each written as a two-digit hexadecimal octet (in
either case), joined by `:`. -/
theorem verifyRPA_accepts_ah (key prand : List Nat) (upper : Bool) (hk : key.length = 16)
    (hp : prand.length = 3) (hb : ∀ b ∈ prand, b < 256) :
    (ah key prand).length = 3 ∧ (∀ b ∈ ah key prand, b < 256) ∧
    verifyRPA (addressText upper (ah key prand ++ prand)) key = true := by
  have hl := ah_length key prand (Nat.le_of_eq hp.symm) hk
  have hlt := ah_lt key prand
  refine ⟨hl, hlt, ?_⟩
  obtain ⟨p0, p1, p2, rfl⟩ : ∃ p0 p1 p2, prand = [p0, p1, p2] := by
    match prand, hp with
    | [a, b, c], _ => exact ⟨a, b, c, rfl⟩
  generalize hh : ah key [p0, p1, p2] = hash at hl hlt
  obtain ⟨h0, h1, h2, rfl⟩ : ∃ h0 h1 h2, hash = [h0, h1, h2] := by
    match hash, hl with
    | [a, b, c], _ => exact ⟨a, b, c, rfl⟩
  have f0 := hexOctet_facts upper p0 (hb p0 (by simp))
  have f1 := hexOctet_facts upper p1 (hb p1 (by simp))
  have f2 := hexOctet_facts upper p2 (hb p2 (by simp))
  have g0 := hexOctet_facts upper h0 (hlt h0 (by simp))
  have g1 := hexOctet_facts upper h1 (hlt h1 (by simp))
  have g2 := hexOctet_facts upper h2 (hlt h2 (by simp))
  have hall : ∀ c ∈ [hexDigit upper (p2 / 16), hexDigit upper (p2 % 16),
      hexDigit upper (p1 / 16), hexDigit upper (p1 % 16),
      hexDigit upper (p0 / 16), hexDigit upper (p0 % 16),
      hexDigit upper (h2 / 16), hexDigit upper (h2 % 16),
      hexDigit upper (h1 / 16), hexDigit upper (h1 % 16),
      hexDigit upper (h0 / 16), hexDigit upper (h0 % 16)], isHexDigit c = true := by
    intro c hc
    simp only [List.mem_cons, List.mem_singleton, List.not_mem_nil, or_false] at hc
    rcases hc with rfl | rfl | rfl | rfl | rfl | rfl | rfl | rfl | rfl | rfl | rfl | rfl
    · exact f2.1
    · exact f2.2.1
    · exact f1.1
    · exact f1.2.1
    · exact f0.1
    · exact f0.2.1
    · exact g2.1
    · exact g2.2.1
    · exact g1.1
    · exact g1.2.1
    · exact g0.1
    · exact g0.2.1
  have htext : addressText upper ([h0, h1, h2] ++ [p0, p1, p2])
      = joinColon [[hexDigit upper (p2 / 16), hexDigit upper (p2 % 16)],
          [hexDigit upper (p1 / 16), hexDigit upper (p1 % 16)],
          [hexDigit upper (p0 / 16), hexDigit upper (p0 % 16)],
          [hexDigit upper (h2 / 16), hexDigit upper (h2 % 16)],
          [hexDigit upper (h1 / 16), hexDigit upper (h1 % 16)],
          [hexDigit upper (h0 / 16), hexDigit upper (h0 % 16)]] := by
    simp [addressText, hexOctet]
  rw [htext, verifyRPA_octets key _ _ _ _ _ _ _ _ _ _ _ _ hk hall, decide_eq_true_eq,
    f0.2.2, f1.2.2, f2.2.2, g0.2.2, g1.2.2, g2.2.2, hh]

/-- The statement `verifyRPA_accepts_ah` applied to the all-zero key and
`prand = (01, 02, 03)`. -/
theorem verifyRPA_accepts_ah_witness :
    (List.replicate 16 0).length = 16 ∧ [1, 2, 3].length = 3 ∧ (∀ b ∈ [1, 2, 3], b < 256) ∧
    (ah (List.replicate 16 0) [1, 2, 3]).length = 3 ∧
    (∀ b ∈ ah (List.replicate 16 0) [1, 2, 3], b < 256) ∧
    verifyRPA (addressText true (ah (List.replicate 16 0) [1, 2, 3] ++ [1, 2, 3]))
      (List.replicate 16 0) = true :=
  ⟨by decide, by decide, by decide,
    verifyRPA_accepts_ah (List.replicate 16 0) [1, 2, 3] true (by decide) (by decide) (by decide)⟩

/-- The address text of the witness above is `03:02:01:4F:FE:15`. -/
theorem addressText_example :
    addressText true (ah (List.replicate 16 0) [1, 2, 3] ++ [1, 2, 3])
      = "03:02:01:4F:FE:15".toList := by
  decide!

/-! ## What `verifyRPA` rejects -/

theorem mem_dropWhile_of_not (p : Char → Bool) (c : Char) (l : List Char) (hc : c ∈ l)
    (hp : p c = false) : c ∈ l.dropWhile p := by
  induction l with
  | nil => cases hc
  | cons a l ih =>
    rw [List.dropWhile_cons]
    split
    · rename_i ha
      rcases List.mem_cons.mp hc with rfl | hl
      · rw [hp] at ha
        cases ha
      · exact ih hl
    · exact hc

theorem mem_trimmed (c : Char) (s : List Char) (hc : c ∈ s) (hs : isSpace c = false) :
    c ∈ trimmed s := by
  unfold trimmed
  rw [List.mem_reverse]
  apply mem_dropWhile_of_not _ _ _ _ hs
  rw [List.mem_reverse]
  exact mem_dropWhile_of_not _ _ _ hc hs

theorem mem_stripSign (c : Char) (t : List Char) (hc : c ∈ t) (h1 : c ≠ '-') (h2 : c ≠ '+')
    (h3 : c ≠ '−') : c ∈ (stripSign t).2 := by
  unfold stripSign
  split
  · rcases List.mem_cons.mp hc with rfl | h
    · exact absurd rfl h1
    · exact h
  · rcases List.mem_cons.mp hc with rfl | h
    · exact absurd rfl h3
    · exact h
  · rcases List.mem_cons.mp hc with rfl | h
    · exact absurd rfl h2
    · exact h
  · exact hc

theorem mem_stripHexMark (c : Char) (base : Nat) (u : List Char) (hc : c ∈ u) (h0 : c ≠ '0')
    (h1 : c ≠ 'x') (h2 : c ≠ 'X') : c ∈ stripHexMark base u := by
  unfold stripHexMark
  split
  · rename_i x r
    split
    · rename_i hx
      rcases List.mem_cons.mp hc with rfl | h
      · exact absurd rfl h0
      · rcases List.mem_cons.mp h with rfl | h
        · rcases hx.2 with hx | hx
          · exact absurd hx h1
          · exact absurd hx h2
        · exact h
    · exact hc
  · exact hc

theorem parseDigits_none (digits : List Char) (acc : Nat)
    (h : ∃ c ∈ digits, isHexDigit c = false) : parseDigits 16 digits acc = none := by
  induction digits generalizing acc with
  | nil =>
    obtain ⟨c, hc, _⟩ := h
    cases hc
  | cons a l ih =>
    obtain ⟨c, hc, hd⟩ := h
    unfold parseDigits
    rcases List.mem_cons.mp hc with rfl | hl
    · unfold isHexDigit at hd
      cases hv : digitValue c with
      | none => rfl
      | some d =>
        rw [hv] at hd
        simp only [decide_eq_false_iff_not] at hd
        simp only [if_neg hd]
    · cases hv : digitValue a with
      | none => rfl
      | some d =>
        simp only
        split
        · exact ih _ ⟨c, hl, hd⟩
        · rfl

theorem toInt_of_parse_none (g : List Char)
    (h : parseDigits 16 (stripHexMark 16 (stripSign (trimmed g)).2) 0 = none) :
    (toInt g 16).2 = false := by
  simp only [toInt, h]
  split <;> rfl

/-- The conversion fails on a group holding a character that is neither a
hexadecimal digit, a sign (`+`, `-`, U+2212), `x` or `X`, nor white space. -/
theorem toInt_of_bad_char (g : List Char) (h : ∃ c ∈ g, isNumberChar c = false) :
    (toInt g 16).2 = false := by
  obtain ⟨c, hc, hn⟩ := h
  simp only [isNumberChar, Bool.or_eq_false_iff, decide_eq_false_iff_not] at hn
  obtain ⟨⟨⟨⟨⟨⟨hhex, hplus⟩, hminus⟩, hminus2⟩, hx⟩, hX⟩, hsp⟩ := hn
  have h0 : c ≠ '0' := by
    rintro rfl
    exact absurd hhex (by decide)
  apply toInt_of_parse_none
  apply parseDigits_none
  exact ⟨c, mem_stripHexMark c 16 _
    (mem_stripSign c _ (mem_trimmed c g hc hsp) hminus hplus hminus2) h0 hx hX, hhex⟩

theorem toInt_nil : (toInt [] 16).2 = false := by decide

theorem appendOctets_none (parts : List (List Char)) (rpa : List Nat)
    (h : ∃ g ∈ parts, (toInt g 16).2 = false) : appendOctets parts rpa = none := by
  induction parts generalizing rpa with
  | nil =>
    obtain ⟨g, hg, _⟩ := h
    cases hg
  | cons p ps ih =>
    obtain ⟨g, hg, hf⟩ := h
    unfold appendOctets
    rcases List.mem_cons.mp hg with rfl | hl
    · simp [hf]
    · simp only
      split
      · rfl
      · exact ih _ ⟨g, hl, hf⟩

/-- C5 (amended).  `verifyRPA` returns false whenever the key length is not 16,
or the text does not split at `:` into exactly six groups, or some group is not
accepted by the base 16 conversion `toInt`: in particular an empty group, and a
group holding a character that is neither a hexadecimal digit, a sign (`+`, `-`,
U+2212), `x` or `X`, nor white space. -/
theorem verifyRPA_rejects (address : List Char) (key : List Nat)
    (h : key.length ≠ 16 ∨ (split ':' address).length ≠ 6 ∨
      ∃ g ∈ split ':' address,
        (toInt g 16).2 = false ∨ g = [] ∨ ∃ c ∈ g, isNumberChar c = false) :
    verifyRPA address key = false := by
  unfold verifyRPA
  split
  · rfl
  · rcases h with hk | hn | ⟨g, hg, hbad⟩
    · rename_i hne
      exact absurd (Or.inr (Or.inr hk)) hne
    · simp only [if_pos hn]
    · have hf : (toInt g 16).2 = false := by
        rcases hbad with hf | rfl | hc
        · exact hf
        · exact toInt_nil
        · exact toInt_of_bad_char g hc
      simp only
      split
      · rfl
      · rw [appendOctets_none _ _ ⟨g, List.mem_reverse.mpr hg, hf⟩]

/-- The statement `verifyRPA_rejects` applied to a 15-byte key, to a text of
five groups, to a text with an empty group and to a text with the group `1G`. -/
theorem verifyRPA_rejects_witness :
    verifyRPA "03:02:01:4F:FE:15".toList (List.replicate 15 0) = false ∧
    verifyRPA "03:02:01:4F:FE".toList (List.replicate 16 0) = false ∧
    verifyRPA "03:02:01:4F::15".toList (List.replicate 16 0) = false ∧
    verifyRPA "03:02:01:4F:FE:1G".toList (List.replicate 16 0) = false :=
  ⟨verifyRPA_rejects _ _ (Or.inl (by decide)),
    verifyRPA_rejects _ _ (Or.inr (Or.inl (by decide))),
    verifyRPA_rejects _ _ (Or.inr (Or.inr ⟨[], by decide, Or.inr (Or.inl rfl)⟩)),
    verifyRPA_rejects _ _ (Or.inr (Or.inr ⟨['1', 'G'], by decide,
      Or.inr (Or.inr ⟨'G', by decide, by decide⟩)⟩))⟩

/-- C5 as stated fails: under the all-zero key `verifyRPA` accepts `3:2:1:4F:FE:15`
(one-digit groups) and `103:02:01:4F:FE:15` (a three-digit group, of which the
low eight bits are kept), neither of which is six two-digit hexadecimal octets. -/
theorem verifyRPA_accepts_malformed :
    isSixOctetText "3:2:1:4F:FE:15".toList = false ∧
    verifyRPA "3:2:1:4F:FE:15".toList (List.replicate 16 0) = true ∧
    isSixOctetText "103:02:01:4F:FE:15".toList = false ∧
    verifyRPA "103:02:01:4F:FE:15".toList (List.replicate 16 0) = true := by
  decide!

end BleCryptoUtils

namespace QtAACPTransport

/-! ## The sockets of a reachable state -/

theorem inv_fresh : Inv fresh := by
  constructor
  · intro r hr
    cases hr
  · intro s hs
    cases hs

theorem inv_cleanupSocket (t : Transport) (h : Inv t) :
    Inv (cleanupSocket t) ∧ (cleanupSocket t).m_socket = none ∧
      (cleanupSocket t).nextSocketId = t.nextSocketId := by
  unfold cleanupSocket
  cases hs : t.m_socket with
  | none => exact ⟨h, hs, rfl⟩
  | some s =>
    refine ⟨⟨?_, ?_⟩, rfl, rfl⟩
    · intro r hr
      rcases List.mem_cons.mp hr with rfl | hr
      · have hid := (h.2 s hs).1
        refine ⟨?_, ?_, rfl, ?_⟩
        · unfold Socket.close
          split <;> rfl
        · unfold Socket.close
          split <;> rfl
        · unfold Socket.close
          split <;> exact hid
      · exact h.1 r hr
    · intro s' hs'
      cases hs'

theorem inv_setupSession (t : Transport) (d : DeviceInfo) (h : Inv t) :
    Inv (setupSession t d) := by
  have hc := inv_cleanupSocket { t with m_deviceInfo := d, m_retryCount := 0 } h
  obtain ⟨⟨h1, _⟩, _, hn⟩ := hc
  unfold setupSession
  constructor
  · intro r hr
    obtain ⟨a, b, c, e⟩ := h1 r hr
    exact ⟨a, b, c, Nat.lt_succ_of_lt e⟩
  · intro s hs
    simp only [Option.mem_def, Option.some.injEq] at hs
    subst hs
    refine ⟨Nat.lt_succ_self _, ?_⟩
    intro r hr
    exact Nat.ne_of_lt (h1 r hr).2.2.2

theorem inv_updateSocket (t : Transport) (id : Nat) (f : Socket → Socket)
    (hf : ∀ s, (f s).id = s.id ∧ (f s).attached = s.attached ∧ (f s).closed = s.closed ∧
      (f s).deleted = s.deleted) (h : Inv t) : Inv (updateSocket t id f) := by
  have hg : ∀ s : Socket, (if s.id = id then f s else s).id = s.id ∧
      (if s.id = id then f s else s).attached = s.attached ∧
      (if s.id = id then f s else s).closed = s.closed ∧
      (if s.id = id then f s else s).deleted = s.deleted := by
    intro s
    split
    · exact hf s
    · exact ⟨rfl, rfl, rfl, rfl⟩
  have hr : ∀ r ∈ (updateSocket t id f).retired, ∃ r0 ∈ t.retired,
      r.id = r0.id ∧ r.attached = r0.attached ∧ r.closed = r0.closed ∧ r.deleted = r0.deleted := by
    intro r hr
    simp only [updateSocket, List.mem_map] at hr
    obtain ⟨r0, hr0, rfl⟩ := hr
    exact ⟨r0, hr0, hg r0⟩
  constructor
  · intro r hmem
    obtain ⟨r0, hr0, e1, e2, e3, e4⟩ := hr r hmem
    obtain ⟨a, b, c, e⟩ := h.1 r0 hr0
    exact ⟨e2.trans a, e3.trans b, e4.trans c, e1 ▸ e⟩
  · intro s hs
    simp only [updateSocket, Option.mem_def, Option.map_eq_some'] at hs
    obtain ⟨s0, hs0, rfl⟩ := hs
    obtain ⟨a, b⟩ := h.2 s0 hs0
    rw [(hg s0).1]
    refine ⟨a, ?_⟩
    intro r hmem
    obtain ⟨r0, hr0, e1, _⟩ := hr r hmem
    rw [e1]
    exact b r0 hr0

theorem inv_handler (t : Transport) (sig : Signal) (h : Inv t) : Inv (handler sig t) := by
  cases sig with
  | connected =>
    simp only [handler, handleConnected]
    split <;> exact h
  | readyRead =>
    simp only [handler, handleReadyRead]
    split
    · exact h
    · split
      · rename_i s hs
        refine ⟨h.1, ?_⟩
        intro s' hs'
        simp only [Option.mem_def, Option.some.injEq] at hs'
        subst hs'
        exact h.2 s hs
      · exact h
  | disconnected => exact h
  | errorOccurred =>
    simp only [handler, handleError, scheduleReconnect]
    split <;> exact h

theorem inv_step (t : Transport) (ev : Event) (h : Inv t) : Inv (step t ev) := by
  cases ev with
  | setupSession d => exact inv_setupSession t d h
  | disconnectFromDevice => exact (inv_cleanupSocket t h).1
  | sendPacket p =>
    simp only [step, sendPacket]
    split
    · rename_i s hs
      split
      · refine ⟨h.1, ?_⟩
        intro s' hs'
        simp only [Option.mem_def, Option.some.injEq] at hs'
        subst hs'
        exact h.2 s hs
      · exact h
    · exact h
  | setPacketCallback cb => exact h
  | setConnectedCallback cb => exact h
  | setRetryAttempts n => exact h
  | setControlCommandStatus i v => exact h
  | clearControlCommandStatuses => exact h
  | socketStatus id o st =>
    exact inv_updateSocket t id _ (fun s => ⟨rfl, rfl, rfl, rfl⟩) h
  | socketData id bytes =>
    exact inv_updateSocket t id _ (fun s => ⟨rfl, rfl, rfl, rfl⟩) h
  | socketSignal id sig =>
    simp only [step, socketSignal]
    split
    · split
      · exact inv_handler t sig h
      · exact h
    · exact h
  | timerExpired =>
    simp only [step, timerExpired]
    split
    · exact h
    · exact inv_setupSession _ _ h

theorem inv_run (t : Transport) (events : List Event) (h : Inv t) : Inv (run t events) := by
  induction events generalizing t with
  | nil => exact h
  | cons ev evs ih => exact ih (step t ev) (inv_step t ev h)

theorem findSocket_retired (t : Transport) (h : Inv t) (r : Socket) (hr : r ∈ t.retired) :
    ∃ r1 ∈ t.retired, findSocket t r.id = some r1 := by
  unfold findSocket
  have hfind : ∃ r1 ∈ t.retired, t.retired.find? (fun s => decide (s.id = r.id)) = some r1 := by
    cases hf : t.retired.find? (fun s => decide (s.id = r.id)) with
    | none =>
      have := List.find?_eq_none.mp hf r hr
      simp at this
    | some r1 => exact ⟨r1, List.mem_of_find?_eq_some hf, rfl⟩
  cases hs : t.m_socket with
  | none => simpa using hfind
  | some s =>
    have hne : ¬ s.id = r.id := fun e => (h.2 s hs).2 r hr e.symm
    simpa [List.find?_cons, hne] using hfind

/-- A socket whose signals reach a handler is the socket `m_socket` points to: a
signal of a socket the transport has let go of changes nothing. -/
theorem attached_socket_is_current (t : Transport) (h : Inv t) (r : Socket)
    (hr : r ∈ t.retired) (sig : Signal) : socketSignal t r.id sig = t := by
  obtain ⟨r1, hr1, hf⟩ := findSocket_retired t h r hr
  simp only [socketSignal, hf, (h.1 r1 hr1).1]
  rfl

/-! ## `setupSession` and the channels it supersedes -/

theorem findSocket_current (t : Transport) (s : Socket) (hs : t.m_socket = some s) :
    findSocket t s.id = some s := by
  simp [findSocket, hs, List.find?_cons]

theorem setupSession_socket (u : Transport) (d : DeviceInfo) :
    (setupSession u d).m_socket = some
      { id := u.nextSocketId, attached := true, isOpen := false, state := .ServiceLookupState,
        target := some (d.address, serviceUuid), inbound := [], written := [], closed := false,
        deleted := false } ∧
    (setupSession u d).nextSocketId = u.nextSocketId + 1 ∧
    (setupSession u d).m_deviceInfo = d ∧
    (setupSession u d).m_retryCount = 0 ∧
    (setupSession u d).timers = u.timers := by
  unfold setupSession cleanupSocket
  cases u.m_socket <;> exact ⟨rfl, rfl, rfl, rfl, rfl⟩

theorem setupSession_cleanup_first (u : Transport) (d : DeviceInfo) :
    (cleanupSocket { u with m_deviceInfo := d, m_retryCount := 0 }).m_socket = none ∧
    (setupSession u d).retired
      = (cleanupSocket { u with m_deviceInfo := d, m_retryCount := 0 }).retired := by
  unfold setupSession cleanupSocket
  cases u.m_socket <;> exact ⟨rfl, rfl⟩

theorem stale_data_ignored (t : Transport) (h : Inv t) (r : Socket) (hr : r ∈ t.retired)
    (bytes : List Nat) :
    (run t [.socketData r.id bytes, .socketSignal r.id .readyRead]).effects = t.effects := by
  have h1 : Inv (step t (.socketData r.id bytes)) := inv_step t _ h
  have hmem : ({ r with inbound := r.inbound ++ bytes } : Socket)
      ∈ (step t (.socketData r.id bytes)).retired := by
    simp only [step, updateSocket]
    exact List.mem_map.mpr ⟨r, hr, by simp⟩
  have h2 := attached_socket_is_current _ h1 _ hmem .readyRead
  simp only [run, List.foldl_cons, List.foldl_nil]
  show (socketSignal (step t (.socketData r.id bytes)) r.id .readyRead).effects = t.effects
  rw [h2]
  rfl

theorem handleConnected_eq (t : Transport) :
    handleConnected t =
      { t with
        m_retryCount := 0
        effects := t.effects ++
          (match t.m_connectedCallback with
           | some cb => [Effect.connectedCallback cb]
           | none => []) } := by
  cases h : t.m_connectedCallback <;> simp [handleConnected, h]

theorem mem_retired_cleanupSocket (t : Transport) (r : Socket) (hr : r ∈ t.retired) :
    r ∈ (cleanupSocket t).retired := by
  unfold cleanupSocket
  cases t.m_socket with
  | none => exact hr
  | some s => exact List.mem_cons_of_mem _ hr

theorem mem_retired_setupSession (t : Transport) (d : DeviceInfo) (r : Socket)
    (hr : r ∈ t.retired) : r ∈ (setupSession t d).retired := by
  rw [(setupSession_cleanup_first t d).2]
  exact mem_retired_cleanupSocket _ r hr

theorem retired_id_step (t : Transport) (ev : Event) (id : Nat)
    (h : ∃ r ∈ t.retired, r.id = id) : ∃ r ∈ (step t ev).retired, r.id = id := by
  obtain ⟨r, hr, hid⟩ := h
  have hupd : ∀ f : Socket → Socket, (∀ s, (f s).id = s.id) →
      ∃ r1 ∈ (updateSocket t id f).retired, r1.id = id := by
    intro f hf
    refine ⟨if r.id = id then f r else r, ?_, ?_⟩
    · simp only [updateSocket]
      exact List.mem_map.mpr ⟨r, hr, rfl⟩
    · rw [if_pos hid, hf]
      exact hid
  cases ev with
  | setupSession d => exact ⟨r, mem_retired_setupSession t d r hr, hid⟩
  | disconnectFromDevice => exact ⟨r, mem_retired_cleanupSocket t r hr, hid⟩
  | sendPacket p =>
    refine ⟨r, ?_, hid⟩
    simp only [step, sendPacket]
    split
    · split <;> exact hr
    · exact hr
  | setPacketCallback cb => exact ⟨r, hr, hid⟩
  | setConnectedCallback cb => exact ⟨r, hr, hid⟩
  | setRetryAttempts n => exact ⟨r, hr, hid⟩
  | setControlCommandStatus i v => exact ⟨r, hr, hid⟩
  | clearControlCommandStatuses => exact ⟨r, hr, hid⟩
  | socketStatus id1 o st =>
    by_cases he : id1 = id
    · subst he
      exact hupd _ (fun _ => rfl)
    · refine ⟨r, ?_, hid⟩
      simp only [step, updateSocket]
      exact List.mem_map.mpr ⟨r, hr, by rw [if_neg (by rw [hid]; exact fun e => he e.symm)]⟩
  | socketData id1 bytes =>
    by_cases he : id1 = id
    · subst he
      exact hupd _ (fun _ => rfl)
    · refine ⟨r, ?_, hid⟩
      simp only [step, updateSocket]
      exact List.mem_map.mpr ⟨r, hr, by rw [if_neg (by rw [hid]; exact fun e => he e.symm)]⟩
  | socketSignal id1 sig =>
    refine ⟨r, ?_, hid⟩
    simp only [step, socketSignal]
    have hh : r ∈ (handler sig t).retired := by
      cases sig with
      | connected =>
        rw [handler, handleConnected_eq]
        exact hr
      | readyRead =>
        simp only [handler, handleReadyRead]
        split
        · exact hr
        · split <;> exact hr
      | disconnected => exact hr
      | errorOccurred =>
        simp only [handler, handleError, scheduleReconnect]
        split <;> exact hr
    split
    · split
      · exact hh
      · exact hr
    · exact hr
  | timerExpired =>
    refine ⟨r, ?_, hid⟩
    simp only [step, timerExpired]
    split
    · exact hr
    · exact mem_retired_setupSession _ _ r hr

theorem retired_id_run (t : Transport) (events : List Event) (id : Nat)
    (h : ∃ r ∈ t.retired, r.id = id) : ∃ r ∈ (run t events).retired, r.id = id := by
  induction events generalizing t with
  | nil => exact h
  | cons ev evs ih => exact ih (step t ev) (retired_id_step t ev id h)

theorem setupSession_many (u : Transport) (h : Inv u) (d : DeviceInfo) (ds : List DeviceInfo) :
    Inv ((d :: ds).foldl setupSession u) ∧
    ∃ s, ((d :: ds).foldl setupSession u).m_socket = some s ∧ s.attached = true ∧
      s.closed = false ∧ s.id + 1 = ((d :: ds).foldl setupSession u).nextSocketId ∧
      s.target = some (((d :: ds).getLast (List.cons_ne_nil d ds)).address, serviceUuid) := by
  induction ds generalizing u d with
  | nil =>
    refine ⟨inv_setupSession u d h, ?_⟩
    obtain ⟨hs, hn, _⟩ := setupSession_socket u d
    exact ⟨_, hs, rfl, rfl, hn.symm, rfl⟩
  | cons d1 ds ih =>
    have := ih (setupSession u d) (inv_setupSession u d h) d1
    simpa [List.getLast_cons] using this

/-! ## Every socket created is accounted for -/

theorem cleanupSocket_retires (u : Transport) (s0 : Socket) (hs : u.m_socket = some s0) :
    ∃ r ∈ (cleanupSocket u).retired, r.id = s0.id ∧ r.attached = false ∧ r.closed = true := by
  simp only [cleanupSocket, hs]
  refine ⟨_, List.mem_cons_self _ _, ?_, ?_, ?_⟩ <;>
    · unfold Socket.close
      split <;> rfl

theorem setupSession_lets_go (u : Transport) (d : DeviceInfo) (s0 : Socket)
    (hs : u.m_socket = some s0) : ∃ r ∈ (setupSession u d).retired, r.id = s0.id := by
  rw [(setupSession_cleanup_first u d).2]
  obtain ⟨r, hr, hid, _⟩ :=
    cleanupSocket_retires { u with m_deviceInfo := d, m_retryCount := 0 } s0 hs
  exact ⟨r, hr, hid⟩

theorem accounted_setupSession (t : Transport) (d : DeviceInfo)
    (h : ∀ id < t.nextSocketId,
      (∃ s, t.m_socket = some s ∧ s.id = id) ∨ ∃ r ∈ t.retired, r.id = id) :
    ∀ id < (setupSession t d).nextSocketId,
      (∃ s, (setupSession t d).m_socket = some s ∧ s.id = id) ∨
        ∃ r ∈ (setupSession t d).retired, r.id = id := by
  obtain ⟨hs, hn, _⟩ := setupSession_socket t d
  intro id hid
  rw [hn] at hid
  rcases Nat.lt_succ_iff_lt_or_eq.mp hid with hlt | heq
  · right
    rcases h id hlt with ⟨s0, hs0, e⟩ | ⟨r, hr, e⟩
    · rw [← e]
      exact setupSession_lets_go t d s0 hs0
    · exact ⟨r, mem_retired_setupSession t d r hr, e⟩
  · left
    exact ⟨_, hs, heq.symm⟩

theorem accounted_step (t : Transport) (ev : Event)
    (h : ∀ id < t.nextSocketId,
      (∃ s, t.m_socket = some s ∧ s.id = id) ∨ ∃ r ∈ t.retired, r.id = id) :
    ∀ id < (step t ev).nextSocketId,
      (∃ s, (step t ev).m_socket = some s ∧ s.id = id) ∨
        ∃ r ∈ (step t ev).retired, r.id = id := by
  have keep : (step t ev).nextSocketId = t.nextSocketId →
      (∀ s0, t.m_socket = some s0 → ∃ s, (step t ev).m_socket = some s ∧ s.id = s0.id) →
      ∀ id < (step t ev).nextSocketId,
        (∃ s, (step t ev).m_socket = some s ∧ s.id = id) ∨
          ∃ r ∈ (step t ev).retired, r.id = id := by
    intro hn hcur id hid
    rw [hn] at hid
    rcases h id hid with ⟨s0, hs0, e⟩ | hr
    · left
      rw [← e]
      exact hcur s0 hs0
    · right
      exact retired_id_step t ev id hr
  cases ev with
  | setupSession d => exact accounted_setupSession t d h
  | disconnectFromDevice =>
    intro id hid
    have hn : (disconnectFromDevice t).nextSocketId = t.nextSocketId := by
      unfold disconnectFromDevice cleanupSocket
      cases t.m_socket <;> rfl
    have hid1 : id < t.nextSocketId := hn ▸ hid
    right
    rcases h id hid1 with ⟨s0, hs0, e⟩ | hr
    · obtain ⟨r, hr, e1, _⟩ := cleanupSocket_retires t s0 hs0
      exact ⟨r, hr, e1.trans e⟩
    · exact retired_id_step t .disconnectFromDevice id hr
  | sendPacket p =>
    refine keep ?_ ?_
    · simp only [step, sendPacket]
      split
      · split <;> rfl
      · rfl
    · intro s0 hs0
      simp only [step, sendPacket, hs0]
      split
      · exact ⟨_, rfl, rfl⟩
      · exact ⟨s0, hs0, rfl⟩
  | setPacketCallback cb => exact keep rfl fun s0 hs0 => ⟨s0, hs0, rfl⟩
  | setConnectedCallback cb => exact keep rfl fun s0 hs0 => ⟨s0, hs0, rfl⟩
  | setRetryAttempts n => exact keep rfl fun s0 hs0 => ⟨s0, hs0, rfl⟩
  | setControlCommandStatus i v => exact keep rfl fun s0 hs0 => ⟨s0, hs0, rfl⟩
  | clearControlCommandStatuses => exact keep rfl fun s0 hs0 => ⟨s0, hs0, rfl⟩
  | socketStatus id1 o st =>
    refine keep rfl ?_
    intro s0 hs0
    simp only [step, updateSocket, hs0, Option.map_some']
    refine ⟨_, rfl, ?_⟩
    split <;> rfl
  | socketData id1 bytes =>
    refine keep rfl ?_
    intro s0 hs0
    simp only [step, updateSocket, hs0, Option.map_some']
    refine ⟨_, rfl, ?_⟩
    split <;> rfl
  | socketSignal id1 sig =>
    have hh : (handler sig t).nextSocketId = t.nextSocketId ∧
        ∀ s0, t.m_socket = some s0 → ∃ s, (handler sig t).m_socket = some s ∧ s.id = s0.id := by
      cases sig with
      | connected =>
        rw [handler, handleConnected_eq]
        exact ⟨rfl, fun s0 hs0 => ⟨s0, hs0, rfl⟩⟩
      | readyRead =>
        simp only [handler, handleReadyRead]
        split
        · exact ⟨rfl, fun s0 hs0 => ⟨s0, hs0, rfl⟩⟩
        · split
          · rename_i s hs
            refine ⟨rfl, ?_⟩
            intro s0 hs0
            rw [hs] at hs0
            cases hs0
            exact ⟨_, rfl, rfl⟩
          · exact ⟨rfl, fun s0 hs0 => ⟨s0, hs0, rfl⟩⟩
      | disconnected => exact ⟨rfl, fun s0 hs0 => ⟨s0, hs0, rfl⟩⟩
      | errorOccurred =>
        simp only [handler, handleError, scheduleReconnect]
        split <;> exact ⟨rfl, fun s0 hs0 => ⟨s0, hs0, rfl⟩⟩
    refine keep ?_ ?_
    · simp only [step, socketSignal]
      split
      · split
        · exact hh.1
        · rfl
      · rfl
    · intro s0 hs0
      simp only [step, socketSignal]
      split
      · split
        · exact hh.2 s0 hs0
        · exact ⟨s0, hs0, rfl⟩
      · exact ⟨s0, hs0, rfl⟩
  | timerExpired =>
    simp only [step, timerExpired]
    split
    · exact h
    · exact accounted_setupSession _ _ h

theorem accounted_run (t : Transport) (events : List Event)
    (h : ∀ id < t.nextSocketId,
      (∃ s, t.m_socket = some s ∧ s.id = id) ∨ ∃ r ∈ t.retired, r.id = id) :
    ∀ id < (run t events).nextSocketId,
      (∃ s, (run t events).m_socket = some s ∧ s.id = id) ∨
        ∃ r ∈ (run t events).retired, r.id = id := by
  induction events generalizing t with
  | nil => exact h
  | cons ev evs ih => exact ih (step t ev) (accounted_step t ev h)

theorem accounted_fresh : ∀ id < fresh.nextSocketId,
    (∃ s, fresh.m_socket = some s ∧ s.id = id) ∨ ∃ r ∈ fresh.retired, r.id = id := by
  intro id hid
  cases hid

theorem setupSession_many_accounted (u : Transport) (ds : List DeviceInfo)
    (h : ∀ id < u.nextSocketId,
      (∃ s, u.m_socket = some s ∧ s.id = id) ∨ ∃ r ∈ u.retired, r.id = id) :
    (ds.foldl setupSession u).nextSocketId = u.nextSocketId + ds.length ∧
    ∀ id < (ds.foldl setupSession u).nextSocketId,
      (∃ s, (ds.foldl setupSession u).m_socket = some s ∧ s.id = id) ∨
        ∃ r ∈ (ds.foldl setupSession u).retired, r.id = id := by
  induction ds generalizing u with
  | nil => exact ⟨rfl, h⟩
  | cons d ds ih =>
    obtain ⟨a, b⟩ := ih (setupSession u d) (accounted_setupSession u d h)
    refine ⟨?_, b⟩
    rw [List.foldl_cons, a, (setupSession_socket u d).2.1, List.length_cons]
    omega

/-- C9.  After any history, a sequence of one or more `setupSession` calls leaves
the transport with exactly one channel, the one created by the last call: it is
attached, not closed, aimed at the last descriptor, and it is the newest socket,
each call having created one.  Every socket created earlier is among those the
transport has let go of, detached from the handlers and closed; data arriving on
such a superseded socket, then or after any further events, invokes no callback.
No socket let go of is attached, open for signals, or the current one.  Inside
each call the old socket is detached and closed, and `m_socket` is null, before
the new socket is created. -/
theorem setupSession_single_channel (history : List Event) (d : DeviceInfo)
    (ds : List DeviceInfo) :
    ∃ s, ((d :: ds).foldl setupSession (run fresh history)).m_socket = some s ∧
      s.attached = true ∧ s.closed = false ∧
      s.id + 1 = ((d :: ds).foldl setupSession (run fresh history)).nextSocketId ∧
      s.id = (run fresh history).nextSocketId + ds.length ∧
      s.target = some (((d :: ds).getLast (List.cons_ne_nil d ds)).address, serviceUuid) ∧
      (∀ id, id < s.id →
        (∃ r ∈ ((d :: ds).foldl setupSession (run fresh history)).retired,
          r.id = id ∧ r.attached = false ∧ r.closed = true) ∧
        ∀ (later : List Event) (bytes : List Nat),
          (run (run ((d :: ds).foldl setupSession (run fresh history)) later)
            [.socketData id bytes, .socketSignal id .readyRead]).effects
            = (run ((d :: ds).foldl setupSession (run fresh history)) later).effects) ∧
      (∀ r ∈ ((d :: ds).foldl setupSession (run fresh history)).retired,
        r.attached = false ∧ r.closed = true ∧ r.id ≠ s.id ∧
        ∀ (later : List Event) (bytes : List Nat),
          (run (run ((d :: ds).foldl setupSession (run fresh history)) later)
            [.socketData r.id bytes, .socketSignal r.id .readyRead]).effects
            = (run ((d :: ds).foldl setupSession (run fresh history)) later).effects) ∧
      (∀ (u : Transport) (d1 : DeviceInfo),
        (cleanupSocket { u with m_deviceInfo := d1, m_retryCount := 0 }).m_socket = none ∧
        (∀ s0, u.m_socket = some s0 →
          ∃ r ∈ (cleanupSocket { u with m_deviceInfo := d1, m_retryCount := 0 }).retired,
            r.id = s0.id ∧ r.attached = false ∧ r.closed = true) ∧
        (setupSession u d1).retired
          = (cleanupSocket { u with m_deviceInfo := d1, m_retryCount := 0 }).retired) := by
  obtain ⟨hinv, s, hs, ha, hc, hn, ht⟩ :=
    setupSession_many (run fresh history) (inv_run fresh history inv_fresh) d ds
  obtain ⟨hlen, hacc⟩ := setupSession_many_accounted (run fresh history) (d :: ds)
    (accounted_run fresh history accounted_fresh)
  have hstale : ∀ r ∈ ((d :: ds).foldl setupSession (run fresh history)).retired,
      ∀ (later : List Event) (bytes : List Nat),
        (run (run ((d :: ds).foldl setupSession (run fresh history)) later)
          [.socketData r.id bytes, .socketSignal r.id .readyRead]).effects
          = (run ((d :: ds).foldl setupSession (run fresh history)) later).effects := by
    intro r hr later bytes
    obtain ⟨r1, hr1, hid⟩ := retired_id_run _ later r.id ⟨r, hr, rfl⟩
    rw [← hid]
    exact stale_data_ignored _ (inv_run _ later hinv) r1 hr1 bytes
  refine ⟨s, hs, ha, hc, hn, ?_, ht, ?_, ?_, ?_⟩
  · rw [hlen, List.length_cons] at hn
    omega
  · intro id hid
    have hlt : id < ((d :: ds).foldl setupSession (run fresh history)).nextSocketId := by
      rw [← hn]
      omega
    rcases hacc id hlt with ⟨s1, hs1, e⟩ | ⟨r, hr, e⟩
    · rw [hs] at hs1
      cases hs1
      omega
    · obtain ⟨a, b, _, _⟩ := hinv.1 r hr
      refine ⟨⟨r, hr, e, a, b⟩, ?_⟩
      rw [← e]
      exact hstale r hr
  · intro r hr
    obtain ⟨a, b, _, _⟩ := hinv.1 r hr
    exact ⟨a, b, (hinv.2 s hs).2 r hr, hstale r hr⟩
  · intro u d1
    exact ⟨(setupSession_cleanup_first u d1).1,
      fun s0 hs0 => cleanupSocket_retires _ s0 hs0,
      (setupSession_cleanup_first u d1).2⟩

/-- The statement `setupSession_single_channel` for two calls in succession on a
fresh transport: socket 1, aimed at the second address, is the channel, and
socket 0 has been let go of, detached and closed. -/
theorem setupSession_single_channel_witness :
    (∃ s, (setupSession (setupSession fresh { name := "AirPods", address := "4A:1B:9C:00:11:22" })
        { name := "AirPods Pro", address := "4A:1B:9C:00:11:23" }).m_socket = some s ∧
      s.id = 1 ∧ s.target = some ("4A:1B:9C:00:11:23", serviceUuid)) ∧
    (∃ r ∈ (setupSession (setupSession fresh { name := "AirPods", address := "4A:1B:9C:00:11:22" })
        { name := "AirPods Pro", address := "4A:1B:9C:00:11:23" }).retired,
      r.id = 0 ∧ r.attached = false ∧ r.closed = true) := by
  obtain ⟨s, hs, _, _, _, hid, ht, hearlier, _⟩ := setupSession_single_channel []
    { name := "AirPods", address := "4A:1B:9C:00:11:22" }
    [{ name := "AirPods Pro", address := "4A:1B:9C:00:11:23" }]
  have hid1 : s.id = 1 := hid
  exact ⟨⟨s, hs, hid1, ht⟩, (hearlier 0 (by omega)).1⟩

/-! ## `handleConnected` and the retry counter -/

theorem scheduleReconnect_of_lt (t : Transport) (h : t.m_retryCount < t.m_retryAttempts) :
    scheduleReconnect t =
      { t with
        m_retryCount := t.m_retryCount + 1
        timers := t.timers + 1
        effects := t.effects ++ [Effect.timerStarted 1500] } := by
  unfold scheduleReconnect
  rw [if_neg (by omega)]

theorem scheduleReconnect_of_ge (t : Transport) (h : t.m_retryCount ≥ t.m_retryAttempts) :
    scheduleReconnect t = t := by
  unfold scheduleReconnect
  rw [if_pos h]

/-- C8.  Handling a successful connect sets the retry counter to zero whatever it
was, invokes the connected callback once if one is set and changes nothing else;
it is what the `connected` signal of the current socket runs; and with a ceiling
of at least 1, a channel error right after it starts a retry timer instead of
giving up. -/
theorem handleConnected_resets (t : Transport) :
    (handleConnected t).m_retryCount = 0 ∧
    handleConnected t =
      { t with
        m_retryCount := 0
        effects := t.effects ++
          (match t.m_connectedCallback with
           | some cb => [Effect.connectedCallback cb]
           | none => []) } ∧
    (∀ s, t.m_socket = some s → s.attached = true →
      step t (.socketSignal s.id .connected) = handleConnected t) ∧
    (1 ≤ t.m_retryAttempts →
      (handleError (handleConnected t)).m_retryCount = 1 ∧
      (handleError (handleConnected t)).timers = t.timers + 1 ∧
      (handleError (handleConnected t)).effects
        = (handleConnected t).effects ++ [Effect.timerStarted 1500]) := by
  refine ⟨?_, handleConnected_eq t, ?_, ?_⟩
  · rw [handleConnected_eq]
  · intro s hs ha
    simp only [step, socketSignal, findSocket_current t s hs, ha]
    rfl
  · intro hN
    have h0 : (handleConnected t).m_retryCount = 0 := by
      rw [handleConnected_eq]
    have hA : (handleConnected t).m_retryAttempts = t.m_retryAttempts := by
      rw [handleConnected_eq]
    have hT : (handleConnected t).timers = t.timers := by
      rw [handleConnected_eq]
    have hlt : (handleConnected t).m_retryCount < (handleConnected t).m_retryAttempts := by
      rw [h0, hA]
      omega
    unfold handleError
    rw [scheduleReconnect_of_lt _ hlt]
    refine ⟨?_, ?_, rfl⟩
    · show (handleConnected t).m_retryCount + 1 = 1
      rw [h0]
      rfl
    · show (handleConnected t).timers + 1 = t.timers + 1
      rw [hT]

/-- The statement `handleConnected_resets` applied to a transport whose two
retries have failed and whose socket then connects, under the default ceiling. -/
theorem handleConnected_resets_witness :
    (1 : Int) ≤ (run fresh [.setConnectedCallback (some 7),
        .setupSession { name := "AirPods", address := "4A:1B:9C:00:11:22" },
        .socketSignal 0 .errorOccurred, .socketSignal 0 .errorOccurred]).m_retryAttempts ∧
    (run fresh [.setConnectedCallback (some 7),
        .setupSession { name := "AirPods", address := "4A:1B:9C:00:11:22" },
        .socketSignal 0 .errorOccurred, .socketSignal 0 .errorOccurred]).m_retryCount = 2 ∧
    (handleError (handleConnected (run fresh [.setConnectedCallback (some 7),
        .setupSession { name := "AirPods", address := "4A:1B:9C:00:11:22" },
        .socketSignal 0 .errorOccurred, .socketSignal 0 .errorOccurred]))).m_retryCount = 1 :=
  ⟨by decide, by decide,
    ((handleConnected_resets _).2.2.2 (by decide)).1⟩

/-! ## The retry ceiling -/

theorem run_append (t : Transport) (a b : List Event) : run t (a ++ b) = run (run t a) b := by
  simp [run, List.foldl_append]

theorem failedRounds_succ (n : Nat) :
    failedRounds (n + 1)
      = failedRounds n ++ [.socketSignal n .errorOccurred, .timerExpired] := by
  simp [failedRounds, List.range_succ, List.flatMap_append]

/-- With a ceiling of at least 1, every round of a failed reconnection ends in
the state `setupSession` leaves: the retry counter is zero again. -/
theorem failedRounds_state (N : Int) (hN : 1 ≤ N) (d : DeviceInfo) (n : Nat) :
    (run (setRetryAttempts fresh N) (.setupSession d :: failedRounds n)).m_retryCount = 0 ∧
    (run (setRetryAttempts fresh N) (.setupSession d :: failedRounds n)).timers = 0 ∧
    (run (setRetryAttempts fresh N) (.setupSession d :: failedRounds n)).m_retryAttempts = N ∧
    (run (setRetryAttempts fresh N) (.setupSession d :: failedRounds n)).m_deviceInfo = d ∧
    (run (setRetryAttempts fresh N) (.setupSession d :: failedRounds n)).nextSocketId = n + 1 ∧
    ∃ s, (run (setRetryAttempts fresh N) (.setupSession d :: failedRounds n)).m_socket = some s ∧
      s.id = n ∧ s.attached = true := by
  induction n with
  | zero => exact ⟨rfl, rfl, rfl, rfl, rfl, _, rfl, rfl, rfl⟩
  | succ n ih =>
    rw [failedRounds_succ, ← List.cons_append, run_append]
    generalize run (setRetryAttempts fresh N) (.setupSession d :: failedRounds n) = t at ih
    obtain ⟨h0, hT, hA, hD, hI, s, hs, hid, hat⟩ := ih
    have hf := findSocket_current t s hs
    rw [hid] at hf
    have hlt : t.m_retryCount < t.m_retryAttempts := by
      rw [h0, hA]
      omega
    have he : step t (.socketSignal n .errorOccurred) = scheduleReconnect t := by
      simp only [step, socketSignal, hf, hat]
      rfl
    have hrun : run t [.socketSignal n .errorOccurred, .timerExpired]
        = timerExpired (scheduleReconnect t) := by
      simp only [run, List.foldl_cons, List.foldl_nil, he]
      rfl
    rw [hrun, scheduleReconnect_of_lt t hlt]
    have hne : ¬ (t.timers + 1 = 0) := by omega
    simp only [timerExpired, if_neg hne]
    obtain ⟨a, b, c, e, f⟩ := setupSession_socket
      { t with m_retryCount := t.m_retryCount + 1, timers := t.timers + 1 - 1,
               effects := t.effects ++ [Effect.timerStarted 1500] } t.m_deviceInfo
    refine ⟨e, ?_, ?_, ?_, ?_, _, a, ?_, rfl⟩
    · rw [f]
      show t.timers + 1 - 1 = 0
      omega
    · rw [← hA]
      unfold setupSession cleanupSocket
      cases t.m_socket <;> rfl
    · rw [c]
      exact hD
    · rw [b]
      show t.nextSocketId + 1 = n + 1 + 1
      rw [hI]
    · exact hI

/-- With a ceiling of at least 1, the error that follows any number of failed
rounds starts one more retry timer. -/
theorem retry_never_gives_up (N : Int) (hN : 1 ≤ N) (d : DeviceInfo) (n : Nat) :
    (run (setRetryAttempts fresh N)
      (.setupSession d :: failedRounds n ++ [.socketSignal n .errorOccurred])).timers = 1 := by
  rw [run_append]
  obtain ⟨h0, hT, hA, _, _, s, hs, hid, hat⟩ := failedRounds_state N hN d n
  generalize run (setRetryAttempts fresh N) (.setupSession d :: failedRounds n) = t at *
  have hf := findSocket_current t s hs
  rw [hid] at hf
  have hlt : t.m_retryCount < t.m_retryAttempts := by
    rw [h0, hA]
    omega
  have he : run t [.socketSignal n .errorOccurred] = scheduleReconnect t := by
    simp only [run, List.foldl_cons, List.foldl_nil, step, socketSignal, hf, hat]
    rfl
  rw [he, scheduleReconnect_of_lt t hlt]
  show t.timers + 1 = 1
  rw [hT]

/-- C6 fails on the code.  Under the default ceiling of 3, after `setupSession`
and three rounds of channel error and retry, the retry counter is 0 again, the
fourth consecutive channel error starts another retry timer, and after a fourth
round the transport has asked for five connections, four of them automatic. -/
theorem retry_ceiling_not_enforced :
    (run fresh (.setupSession { name := "AirPods", address := "4A:1B:9C:00:11:22" }
      :: failedRounds 3)).m_retryAttempts = 3 ∧
    (run fresh (.setupSession { name := "AirPods", address := "4A:1B:9C:00:11:22" }
      :: failedRounds 3)).m_retryCount = 0 ∧
    (run fresh (.setupSession { name := "AirPods", address := "4A:1B:9C:00:11:22" }
      :: failedRounds 3 ++ [.socketSignal 3 .errorOccurred])).timers = 1 ∧
    (run fresh (.setupSession { name := "AirPods", address := "4A:1B:9C:00:11:22" }
      :: failedRounds 3 ++ [.socketSignal 3 .errorOccurred])).effects.getLast?
        = some (Effect.timerStarted 1500) ∧
    ((run fresh (.setupSession { name := "AirPods", address := "4A:1B:9C:00:11:22" }
      :: failedRounds 4)).effects.filter fun e =>
        match e with
        | .connectToService _ _ _ => true
        | _ => false).length = 5 := by
  decide!

/-! ## Pending retry timers -/

theorem setupSession_retires (u : Transport) (d : DeviceInfo) (s0 : Socket)
    (hs : u.m_socket = some s0) :
    ∃ r ∈ (setupSession u d).retired, r.id = s0.id ∧ r.attached = false ∧ r.closed = true := by
  simp only [setupSession, cleanupSocket, hs]
  refine ⟨_, List.mem_cons_self _ _, ?_, ?_, ?_⟩ <;>
    · unfold Socket.close
      split <;> rfl

/-- C7 (amended).  A pending retry timer is cancelled neither by
`disconnectFromDevice` nor by a new `setupSession`: it stays pending, and its
expiry runs `setupSession` with the descriptor stored then.  After
`disconnectFromDevice` the expiry opens a channel to the stored descriptor; after
a new `setupSession` it lets go of the channel created by that call (detached and
closed) and opens the next socket to the same, most recent descriptor, with the
retry counter at zero. -/
theorem pending_timer_survives (t : Transport) (d : DeviceInfo) (h : 0 < t.timers) :
    (disconnectFromDevice t).timers = t.timers ∧
    (disconnectFromDevice t).m_socket = none ∧
    (setupSession t d).timers = t.timers ∧
    (∃ s, (timerExpired (disconnectFromDevice t)).m_socket = some s ∧ s.attached = true ∧
      s.target = some (t.m_deviceInfo.address, serviceUuid)) ∧
    (timerExpired (disconnectFromDevice t)).timers = t.timers - 1 ∧
    (∃ s0 s1, (setupSession t d).m_socket = some s0 ∧
      (timerExpired (setupSession t d)).m_socket = some s1 ∧
      s1.id = s0.id + 1 ∧ s1.attached = true ∧ s1.target = some (d.address, serviceUuid) ∧
      ∃ r ∈ (timerExpired (setupSession t d)).retired,
        r.id = s0.id ∧ r.attached = false ∧ r.closed = true) ∧
    (timerExpired (setupSession t d)).m_retryCount = 0 ∧
    (timerExpired (setupSession t d)).timers = t.timers - 1 := by
  have hne : ¬ (t.timers = 0) := by omega
  have hdt : (disconnectFromDevice t).timers = t.timers := by
    unfold disconnectFromDevice cleanupSocket
    cases t.m_socket <;> rfl
  have hds : (disconnectFromDevice t).m_socket = none := by
    unfold disconnectFromDevice cleanupSocket
    cases hs : t.m_socket <;> simp [hs]
  have hdd : (disconnectFromDevice t).m_deviceInfo = t.m_deviceInfo := by
    unfold disconnectFromDevice cleanupSocket
    cases t.m_socket <;> rfl
  obtain ⟨a, b, c, e, f⟩ := setupSession_socket t d
  have hne1 : ¬ ((disconnectFromDevice t).timers = 0) := by rw [hdt]; exact hne
  have hne2 : ¬ ((setupSession t d).timers = 0) := by rw [f]; exact hne
  refine ⟨hdt, hds, f, ?_, ?_, ?_, ?_, ?_⟩
  · simp only [timerExpired, if_neg hne1]
    obtain ⟨a1, _⟩ := setupSession_socket
      { disconnectFromDevice t with timers := (disconnectFromDevice t).timers - 1 }
      (disconnectFromDevice t).m_deviceInfo
    refine ⟨_, a1, rfl, ?_⟩
    show some ((disconnectFromDevice t).m_deviceInfo.address, serviceUuid) = _
    rw [hdd]
  · simp only [timerExpired, if_neg hne1]
    obtain ⟨_, _, _, _, f1⟩ := setupSession_socket
      { disconnectFromDevice t with timers := (disconnectFromDevice t).timers - 1 }
      (disconnectFromDevice t).m_deviceInfo
    rw [f1]
    show (disconnectFromDevice t).timers - 1 = t.timers - 1
    rw [hdt]
  · simp only [timerExpired, if_neg hne2]
    obtain ⟨a1, _⟩ := setupSession_socket
      { setupSession t d with timers := (setupSession t d).timers - 1 }
      (setupSession t d).m_deviceInfo
    refine ⟨_, _, a, a1, ?_, rfl, ?_, ?_⟩
    · show (setupSession t d).nextSocketId = t.nextSocketId + 1
      exact b
    · show some ((setupSession t d).m_deviceInfo.address, serviceUuid) = _
      rw [c]
    · exact setupSession_retires
        { setupSession t d with timers := (setupSession t d).timers - 1 } _ _ a
  · simp only [timerExpired, if_neg hne2]
    exact (setupSession_socket _ _).2.2.2.1
  · simp only [timerExpired, if_neg hne2]
    rw [(setupSession_socket _ _).2.2.2.2]
    show (setupSession t d).timers - 1 = t.timers - 1
    rw [f]

/-- The statement `pending_timer_survives` applied to the state after a first
`setupSession` and a channel error, which has one timer pending. -/
theorem pending_timer_survives_witness :
    0 < (run fresh [.setupSession { name := "AirPods", address := "4A:1B:9C:00:11:22" },
      .socketSignal 0 .errorOccurred]).timers ∧
    (∃ s, (timerExpired (disconnectFromDevice
        (run fresh [.setupSession { name := "AirPods", address := "4A:1B:9C:00:11:22" },
          .socketSignal 0 .errorOccurred]))).m_socket = some s ∧ s.attached = true ∧
      s.target = some ((run fresh
        [.setupSession { name := "AirPods", address := "4A:1B:9C:00:11:22" },
          .socketSignal 0 .errorOccurred]).m_deviceInfo.address, serviceUuid)) :=
  ⟨by decide,
    (pending_timer_survives _ { name := "Other", address := "00:11:22:33:44:55" }
      (by decide)).2.2.2.1⟩

/-- C7 as stated fails.  A channel error starts a timer; `disconnectFromDevice`
leaves it pending and the transport without a channel, and its expiry opens a
channel again.  Likewise a new `setupSession` leaves it pending, and its expiry
lets go of the socket that call created (socket 1) and makes socket 2 current. -/
theorem stale_timer_fires :
    (run fresh [.setupSession { name := "AirPods", address := "4A:1B:9C:00:11:22" },
      .socketSignal 0 .errorOccurred, .disconnectFromDevice]).timers = 1 ∧
    (run fresh [.setupSession { name := "AirPods", address := "4A:1B:9C:00:11:22" },
      .socketSignal 0 .errorOccurred, .disconnectFromDevice]).m_socket = none ∧
    ((run fresh [.setupSession { name := "AirPods", address := "4A:1B:9C:00:11:22" },
      .socketSignal 0 .errorOccurred, .disconnectFromDevice, .timerExpired]).m_socket.map
        fun s => (s.id, s.attached, s.target))
      = some (1, true, some ("4A:1B:9C:00:11:22", serviceUuid)) ∧
    ((run fresh [.setupSession { name := "AirPods", address := "4A:1B:9C:00:11:22" },
      .socketSignal 0 .errorOccurred,
      .setupSession { name := "Other", address := "00:11:22:33:44:55" }]).m_socket.map
        fun s => (s.id, s.attached)) = some (1, true) ∧
    ((run fresh [.setupSession { name := "AirPods", address := "4A:1B:9C:00:11:22" },
      .socketSignal 0 .errorOccurred,
      .setupSession { name := "Other", address := "00:11:22:33:44:55" },
      .timerExpired]).m_socket.map fun s => (s.id, s.attached)) = some (2, true) ∧
    ((run fresh [.setupSession { name := "AirPods", address := "4A:1B:9C:00:11:22" },
      .socketSignal 0 .errorOccurred,
      .setupSession { name := "Other", address := "00:11:22:33:44:55" },
      .timerExpired]).retired.map fun s => (s.id, s.attached, s.closed))
      = [(1, false, true), (0, false, true)] := by
  decide!

/-! ## `sendPacket` -/

/-- C10 (amended).  `sendPacket` returns true if and only if a channel exists and
is open, and then the state changes only in that the packet is handed to that
channel's `write`; otherwise it returns false and leaves the whole state as it
was.  In particular it returns false on a transport that holds no channel: one
never set up, and any transport after `disconnectFromDevice`. -/
theorem sendPacket_spec (t : Transport) (packet : List Nat) :
    ((sendPacket t packet).1 = true ↔ ∃ s, t.m_socket = some s ∧ s.isOpen = true) ∧
    (∀ s, t.m_socket = some s → s.isOpen = true →
      (sendPacket t packet).2
        = { t with m_socket := some { s with written := s.written ++ [packet] } }) ∧
    ((sendPacket t packet).1 = false → (sendPacket t packet).2 = t) ∧
    (sendPacket fresh packet).1 = false ∧
    (sendPacket (disconnectFromDevice t) packet).1 = false := by
  refine ⟨?_, ?_, ?_, rfl, ?_⟩
  · unfold sendPacket
    cases hs : t.m_socket with
    | none => simp
    | some s =>
      cases ho : s.isOpen <;> simp [ho]
  · intro s hs ho
    simp [sendPacket, hs, ho]
  · unfold sendPacket
    cases hs : t.m_socket with
    | none => simp
    | some s =>
      cases ho : s.isOpen <;> simp [ho]
  · unfold sendPacket disconnectFromDevice cleanupSocket
    cases hs : t.m_socket <;> simp [hs]

/-- The statement `sendPacket_spec` applied to a transport whose channel is
connected, and to the same transport with its channel not open. -/
theorem sendPacket_spec_witness :
    ((sendPacket (run fresh [.setupSession { name := "AirPods", address := "4A:1B:9C:00:11:22" },
        .socketStatus 0 true .ConnectedState, .socketSignal 0 .connected]) [4, 0, 4, 0]).2.m_socket.map
      fun s => s.written) = some [[4, 0, 4, 0]] ∧
    (sendPacket (run fresh [.setupSession { name := "AirPods", address := "4A:1B:9C:00:11:22" }])
        [4, 0, 4, 0]).2
      = run fresh [.setupSession { name := "AirPods", address := "4A:1B:9C:00:11:22" }] :=
  ⟨by
      rw [(sendPacket_spec _ [4, 0, 4, 0]).2.1 _ rfl rfl]
      rfl,
    (sendPacket_spec _ [4, 0, 4, 0]).2.2.1 (by decide)⟩

/-- C10 as stated fails.  After `setupSession`, once the socket is open for its
connection attempt (`ConnectingState`) and before any `connected` signal,
`isConnected` is false and yet `sendPacket` returns true and hands the packet to
the socket. -/
theorem sendPacket_before_connect :
    isConnected (run fresh [.setupSession { name := "AirPods", address := "4A:1B:9C:00:11:22" },
      .socketStatus 0 true .ConnectingState]) = false ∧
    (sendPacket (run fresh [.setupSession { name := "AirPods", address := "4A:1B:9C:00:11:22" },
      .socketStatus 0 true .ConnectingState]) [4, 0, 4, 0]).1 = true ∧
    ((sendPacket (run fresh [.setupSession { name := "AirPods", address := "4A:1B:9C:00:11:22" },
      .socketStatus 0 true .ConnectingState]) [4, 0, 4, 0]).2.m_socket.map fun s => s.written)
      = some [[4, 0, 4, 0]] := by
  decide!

end QtAACPTransport

namespace BleCryptoUtils

/-! ## The inverse cipher -/

theorem xor_mod_256 (a b : Nat) : (a ^^^ b) % 256 = a % 256 ^^^ b % 256 := by
  apply Nat.eq_of_testBit_eq
  intro i
  have h : (256 : Nat) = 2 ^ 8 := rfl
  rw [h]
  simp only [Nat.testBit_xor, Nat.testBit_mod_two_pow]
  cases decide (i < 8) <;> simp

theorem xtime_lt (b : Nat) : xtime b < 256 := by
  simp only [xtime]
  split
  · assumption
  · exact Nat.mod_lt _ (by decide)

theorem xtime_mod (b : Nat) : xtime (b % 256) = xtime b := by
  simp only [xtime, Nat.mod_mod]

theorem xtime_testBit_byte :
    ∀ b < 256, ∀ i < 8, (xtime b).testBit i
      = ((decide (1 ≤ i) && b.testBit (i - 1)) ^^ (b.testBit 7 && Nat.testBit 27 i)) := by
  decide!

theorem xtime_testBit (b i : Nat) :
    (xtime b).testBit i
      = (decide (i < 8) &&
          ((decide (1 ≤ i) && b.testBit (i - 1)) ^^ (b.testBit 7 && Nat.testBit 27 i))) := by
  by_cases hi : i < 8
  · have h256 : (256 : Nat) = 2 ^ 8 := rfl
    have h1 : (b % 256).testBit (i - 1) = b.testBit (i - 1) := by
      rw [h256, Nat.testBit_mod_two_pow]
      simp
      omega
    have h7 : (b % 256).testBit 7 = b.testBit 7 := by
      rw [h256, Nat.testBit_mod_two_pow]
      simp
    rw [← xtime_mod, xtime_testBit_byte (b % 256) (Nat.mod_lt _ (by decide)) i hi, h1, h7]
    simp [hi]
  · have hlt : xtime b < 2 ^ i :=
      Nat.lt_of_lt_of_le (xtime_lt b)
        (Nat.pow_le_pow_right (by decide) (Nat.le_of_not_lt hi) : 2 ^ 8 ≤ 2 ^ i)
    rw [Nat.testBit_lt_two_pow hlt]
    simp [hi]

theorem xtime_xor (a b : Nat) : xtime (a ^^^ b) = xtime a ^^^ xtime b := by
  apply Nat.eq_of_testBit_eq
  intro i
  simp only [Nat.testBit_xor, xtime_testBit]
  cases decide (i < 8) <;> cases decide (1 ≤ i) <;> cases a.testBit (i - 1) <;>
    cases b.testBit (i - 1) <;> cases a.testBit 7 <;> cases b.testBit 7 <;>
    cases Nat.testBit 27 i <;> rfl

theorem mul9_xor (a b : Nat) : mul9 (a ^^^ b) = mul9 a ^^^ mul9 b := by
  simp only [mul9, xtime_xor]
  ac_rfl

theorem mul11_xor (a b : Nat) : mul11 (a ^^^ b) = mul11 a ^^^ mul11 b := by
  simp only [mul11, xtime_xor]
  ac_rfl

theorem mul13_xor (a b : Nat) : mul13 (a ^^^ b) = mul13 a ^^^ mul13 b := by
  simp only [mul13, xtime_xor]
  ac_rfl

theorem mul14_xor (a b : Nat) : mul14 (a ^^^ b) = mul14 a ^^^ mul14 b := by
  simp only [mul14, xtime_xor]
  ac_rfl

/-- The four entries of the product of the InvMixColumns and MixColumns matrices,
on one byte: the diagonal entry is 1 and the others are 0. -/
theorem mix_entries :
    ∀ a < 256,
      mul14 (xtime a) ^^^ mul11 a ^^^ mul13 a ^^^ mul9 (xtime a) ^^^ mul9 a = a ∧
      mul14 (xtime a) ^^^ mul14 a ^^^ mul11 (xtime a) ^^^ mul13 a ^^^ mul9 a = 0 ∧
      mul14 a ^^^ mul11 (xtime a) ^^^ mul11 a ^^^ mul13 (xtime a) ^^^ mul9 a = 0 ∧
      mul14 a ^^^ mul11 a ^^^ mul13 (xtime a) ^^^ mul13 a ^^^ mul9 (xtime a) = 0 := by
  decide!

theorem invMixColumn_mixColumn (a0 a1 a2 a3 : Nat) (h0 : a0 < 256) (h1 : a1 < 256)
    (h2 : a2 < 256) (h3 : a3 < 256) :
    invMixColumn (xtime a0 ^^^ (xtime a1 ^^^ a1) ^^^ a2 ^^^ a3)
        (a0 ^^^ xtime a1 ^^^ (xtime a2 ^^^ a2) ^^^ a3)
        (a0 ^^^ a1 ^^^ xtime a2 ^^^ (xtime a3 ^^^ a3))
        ((xtime a0 ^^^ a0) ^^^ a1 ^^^ a2 ^^^ xtime a3)
      = [a0, a1, a2, a3] := by
  obtain ⟨p0, q0, r0, s0⟩ := mix_entries a0 h0
  obtain ⟨p1, q1, r1, s1⟩ := mix_entries a1 h1
  obtain ⟨p2, q2, r2, s2⟩ := mix_entries a2 h2
  obtain ⟨p3, q3, r3, s3⟩ := mix_entries a3 h3
  have c0 : mul14 (xtime a0 ^^^ (xtime a1 ^^^ a1) ^^^ a2 ^^^ a3)
      ^^^ mul11 (a0 ^^^ xtime a1 ^^^ (xtime a2 ^^^ a2) ^^^ a3)
      ^^^ mul13 (a0 ^^^ a1 ^^^ xtime a2 ^^^ (xtime a3 ^^^ a3))
      ^^^ mul9 ((xtime a0 ^^^ a0) ^^^ a1 ^^^ a2 ^^^ xtime a3) = a0 := by
    simp only [mul9_xor, mul11_xor, mul13_xor, mul14_xor]
    calc _ = (mul14 (xtime a0) ^^^ mul11 a0 ^^^ mul13 a0 ^^^ mul9 (xtime a0) ^^^ mul9 a0)
          ^^^ (mul14 (xtime a1) ^^^ mul14 a1 ^^^ mul11 (xtime a1) ^^^ mul13 a1 ^^^ mul9 a1)
          ^^^ (mul14 a2 ^^^ mul11 (xtime a2) ^^^ mul11 a2 ^^^ mul13 (xtime a2) ^^^ mul9 a2)
          ^^^ (mul14 a3 ^^^ mul11 a3 ^^^ mul13 (xtime a3) ^^^ mul13 a3 ^^^ mul9 (xtime a3)) := by
          ac_rfl
      _ = a0 := by rw [p0, q1, r2, s3]; simp
  have c1 : mul9 (xtime a0 ^^^ (xtime a1 ^^^ a1) ^^^ a2 ^^^ a3)
      ^^^ mul14 (a0 ^^^ xtime a1 ^^^ (xtime a2 ^^^ a2) ^^^ a3)
      ^^^ mul11 (a0 ^^^ a1 ^^^ xtime a2 ^^^ (xtime a3 ^^^ a3))
      ^^^ mul13 ((xtime a0 ^^^ a0) ^^^ a1 ^^^ a2 ^^^ xtime a3) = a1 := by
    simp only [mul9_xor, mul11_xor, mul13_xor, mul14_xor]
    calc _ = (mul14 (xtime a1) ^^^ mul11 a1 ^^^ mul13 a1 ^^^ mul9 (xtime a1) ^^^ mul9 a1)
          ^^^ (mul14 (xtime a2) ^^^ mul14 a2 ^^^ mul11 (xtime a2) ^^^ mul13 a2 ^^^ mul9 a2)
          ^^^ (mul14 a3 ^^^ mul11 (xtime a3) ^^^ mul11 a3 ^^^ mul13 (xtime a3) ^^^ mul9 a3)
          ^^^ (mul14 a0 ^^^ mul11 a0 ^^^ mul13 (xtime a0) ^^^ mul13 a0 ^^^ mul9 (xtime a0)) := by
          ac_rfl
      _ = a1 := by rw [p1, q2, r3, s0]; simp
  have c2 : mul13 (xtime a0 ^^^ (xtime a1 ^^^ a1) ^^^ a2 ^^^ a3)
      ^^^ mul9 (a0 ^^^ xtime a1 ^^^ (xtime a2 ^^^ a2) ^^^ a3)
      ^^^ mul14 (a0 ^^^ a1 ^^^ xtime a2 ^^^ (xtime a3 ^^^ a3))
      ^^^ mul11 ((xtime a0 ^^^ a0) ^^^ a1 ^^^ a2 ^^^ xtime a3) = a2 := by
    simp only [mul9_xor, mul11_xor, mul13_xor, mul14_xor]
    calc _ = (mul14 (xtime a2) ^^^ mul11 a2 ^^^ mul13 a2 ^^^ mul9 (xtime a2) ^^^ mul9 a2)
          ^^^ (mul14 (xtime a3) ^^^ mul14 a3 ^^^ mul11 (xtime a3) ^^^ mul13 a3 ^^^ mul9 a3)
          ^^^ (mul14 a0 ^^^ mul11 (xtime a0) ^^^ mul11 a0 ^^^ mul13 (xtime a0) ^^^ mul9 a0)
          ^^^ (mul14 a1 ^^^ mul11 a1 ^^^ mul13 (xtime a1) ^^^ mul13 a1 ^^^ mul9 (xtime a1)) := by
          ac_rfl
      _ = a2 := by rw [p2, q3, r0, s1]; simp
  have c3 : mul11 (xtime a0 ^^^ (xtime a1 ^^^ a1) ^^^ a2 ^^^ a3)
      ^^^ mul13 (a0 ^^^ xtime a1 ^^^ (xtime a2 ^^^ a2) ^^^ a3)
      ^^^ mul9 (a0 ^^^ a1 ^^^ xtime a2 ^^^ (xtime a3 ^^^ a3))
      ^^^ mul14 ((xtime a0 ^^^ a0) ^^^ a1 ^^^ a2 ^^^ xtime a3) = a3 := by
    simp only [mul9_xor, mul11_xor, mul13_xor, mul14_xor]
    calc _ = (mul14 (xtime a3) ^^^ mul11 a3 ^^^ mul13 a3 ^^^ mul9 (xtime a3) ^^^ mul9 a3)
          ^^^ (mul14 (xtime a0) ^^^ mul14 a0 ^^^ mul11 (xtime a0) ^^^ mul13 a0 ^^^ mul9 a0)
          ^^^ (mul14 a1 ^^^ mul11 (xtime a1) ^^^ mul11 a1 ^^^ mul13 (xtime a1) ^^^ mul9 a1)
          ^^^ (mul14 a2 ^^^ mul11 a2 ^^^ mul13 (xtime a2) ^^^ mul13 a2 ^^^ mul9 (xtime a2)) := by
          ac_rfl
      _ = a3 := by rw [p3, q0, r1, s2]; simp
  simp only [invMixColumn, c0, c1, c2, c3]

/-! ### The steps of the inverse cipher undo the steps of the cipher -/

theorem range16 : List.range 16 = [0, 1, 2, 3, 4, 5, 6, 7, 8, 9, 10, 11, 12, 13, 14, 15] := by
  decide

theorem range4 : List.range 4 = [0, 1, 2, 3] := by
  decide

theorem IsBlock.cases {s : List Nat} (h : IsBlock s) :
    ∃ x0 x1 x2 x3 x4 x5 x6 x7 x8 x9 x10 x11 x12 x13 x14 x15 : Nat,
      s = [x0, x1, x2, x3, x4, x5, x6, x7, x8, x9, x10, x11, x12, x13, x14, x15] ∧
      x0 < 256 ∧ x1 < 256 ∧ x2 < 256 ∧ x3 < 256 ∧ x4 < 256 ∧ x5 < 256 ∧ x6 < 256 ∧ x7 < 256 ∧
      x8 < 256 ∧ x9 < 256 ∧ x10 < 256 ∧ x11 < 256 ∧ x12 < 256 ∧ x13 < 256 ∧ x14 < 256 ∧
      x15 < 256 := by
  obtain ⟨hl, hb⟩ := h
  match s, hl with
  | [x0, x1, x2, x3, x4, x5, x6, x7, x8, x9, x10, x11, x12, x13, x14, x15], _ =>
    exact ⟨x0, x1, x2, x3, x4, x5, x6, x7, x8, x9, x10, x11, x12, x13, x14, x15, rfl,
      hb _ (by simp), hb _ (by simp), hb _ (by simp), hb _ (by simp), hb _ (by simp),
      hb _ (by simp), hb _ (by simp), hb _ (by simp), hb _ (by simp), hb _ (by simp),
      hb _ (by simp), hb _ (by simp), hb _ (by simp), hb _ (by simp), hb _ (by simp),
      hb _ (by simp)⟩

theorem subByte_facts : ∀ b < 256, subByte b < 256 ∧ invSubByte (subByte b) = b := by
  decide!

theorem isBlock_addRoundKey (s k : List Nat) : IsBlock (addRoundKey s k) :=
  ⟨addRoundKey_length s k, addRoundKey_lt s k⟩

theorem isBlock_shiftRows (s : List Nat) : IsBlock (shiftRows s) := by
  constructor
  · simp [shiftRows]
  · intro b hb
    simp only [shiftRows, List.mem_map] at hb
    obtain ⟨i, _, rfl⟩ := hb
    exact byteAt_lt s i

theorem isBlock_subBytes (s : List Nat) : IsBlock (subBytes s) := by
  constructor
  · simp [subBytes]
  · intro b hb
    simp only [subBytes, List.mem_map] at hb
    obtain ⟨i, _, rfl⟩ := hb
    exact (subByte_facts _ (byteAt_lt s i)).1

theorem isBlock_mixColumns (s : List Nat) : IsBlock (mixColumns s) := by
  have hx : ∀ a b : Nat, a < 256 → b < 256 → a ^^^ b < 256 := fun a b ha hb =>
    Nat.xor_lt_two_pow (n := 8) ha hb
  constructor
  · simp [mixColumns, mixColumn, range4]
  · intro b hb
    simp only [mixColumns, mixColumn, range4, List.flatMap_cons, List.flatMap_nil,
      List.append_nil, List.cons_append, List.nil_append, List.mem_cons, List.not_mem_nil,
      or_false] at hb
    rcases hb with rfl | rfl | rfl | rfl | rfl | rfl | rfl | rfl | rfl | rfl | rfl | rfl | rfl |
      rfl | rfl | rfl <;>
    repeat' (first | exact xtime_lt _ | exact byteAt_lt _ _ | apply hx)

theorem addRoundKey_cancel (s k : List Nat) (hs : IsBlock s) :
    addRoundKey (addRoundKey s k) k = s := by
  obtain ⟨x0, x1, x2, x3, x4, x5, x6, x7, x8, x9, x10, x11, x12, x13, x14, x15, rfl,
    h0, h1, h2, h3, h4, h5, h6, h7, h8, h9, h10, h11, h12, h13, h14, h15⟩ := hs.cases
  have hm : ∀ x y : Nat, x < 256 → ((x ^^^ y % 256) % 256) ^^^ y % 256 = x := by
    intro x y hx
    rw [Nat.mod_eq_of_lt (Nat.xor_lt_two_pow (n := 8) hx (Nat.mod_lt _ (by decide))),
      Nat.xor_assoc, Nat.xor_self, Nat.xor_zero]
  simp only [addRoundKey, range16, List.map_cons, List.map_nil, byteAt, List.getD_cons_succ,
    List.getD_cons_zero, Nat.mod_eq_of_lt, h0, h1, h2, h3, h4, h5, h6, h7, h8, h9, h10, h11,
    h12, h13, h14, h15, hm]

theorem invShiftRows_shiftRows (s : List Nat) (hs : IsBlock s) :
    invShiftRows (shiftRows s) = s := by
  obtain ⟨x0, x1, x2, x3, x4, x5, x6, x7, x8, x9, x10, x11, x12, x13, x14, x15, rfl,
    h0, h1, h2, h3, h4, h5, h6, h7, h8, h9, h10, h11, h12, h13, h14, h15⟩ := hs.cases
  simp only [invShiftRows, shiftRows, List.map_cons, List.map_nil, byteAt, List.getD_cons_succ,
    List.getD_cons_zero, Nat.mod_mod, Nat.mod_eq_of_lt, h0, h1, h2, h3, h4, h5, h6, h7, h8, h9,
    h10, h11, h12, h13, h14, h15]

theorem invSubBytes_subBytes (s : List Nat) (hs : IsBlock s) :
    invSubBytes (subBytes s) = s := by
  obtain ⟨x0, x1, x2, x3, x4, x5, x6, x7, x8, x9, x10, x11, x12, x13, x14, x15, rfl,
    h0, h1, h2, h3, h4, h5, h6, h7, h8, h9, h10, h11, h12, h13, h14, h15⟩ := hs.cases
  have hm : ∀ x : Nat, x < 256 → invSubByte (subByte x % 256) = x := by
    intro x hx
    rw [Nat.mod_eq_of_lt (subByte_facts x hx).1]
    exact (subByte_facts x hx).2
  simp only [invSubBytes, subBytes, range16, List.map_cons, List.map_nil, byteAt,
    List.getD_cons_succ, List.getD_cons_zero, Nat.mod_eq_of_lt, h0, h1, h2, h3, h4, h5, h6, h7,
    h8, h9, h10, h11, h12, h13, h14, h15, hm]

theorem invMixColumns_mixColumns (s : List Nat) (hs : IsBlock s) :
    invMixColumns (mixColumns s) = s := by
  obtain ⟨x0, x1, x2, x3, x4, x5, x6, x7, x8, x9, x10, x11, x12, x13, x14, x15, rfl,
    h0, h1, h2, h3, h4, h5, h6, h7, h8, h9, h10, h11, h12, h13, h14, h15⟩ := hs.cases
  have hx : ∀ a : Nat, xtime a % 256 = xtime a := fun a => Nat.mod_eq_of_lt (xtime_lt a)
  simp only [invMixColumns, mixColumns, mixColumn, range4, List.flatMap_cons, List.flatMap_nil,
    List.append_nil, List.cons_append, List.nil_append, byteAt, List.getD_cons_succ,
    List.getD_cons_zero, Nat.mul_zero, Nat.zero_add, Nat.mul_one, Nat.reduceMul, Nat.reduceAdd,
    xor_mod_256, hx, Nat.mod_eq_of_lt, h0, h1, h2, h3, h4, h5, h6, h7, h8, h9, h10, h11, h12,
    h13, h14, h15]
  rw [invMixColumn_mixColumn x0 x1 x2 x3 h0 h1 h2 h3,
    invMixColumn_mixColumn x4 x5 x6 x7 h4 h5 h6 h7,
    invMixColumn_mixColumn x8 x9 x10 x11 h8 h9 h10 h11,
    invMixColumn_mixColumn x12 x13 x14 x15 h12 h13 h14 h15]
  rfl

theorem invRound_undo (u k : List Nat) (hu : IsBlock u) :
    invRound (shiftRows (subBytes (addRoundKey (mixColumns u) k))) k = u := by
  unfold invRound
  rw [invShiftRows_shiftRows _ (isBlock_subBytes _),
    invSubBytes_subBytes _ (isBlock_addRoundKey _ _),
    addRoundKey_cancel _ _ (isBlock_mixColumns u), invMixColumns_mixColumns u hu]

theorem foldl_invRound (ks : List (List Nat)) (s : List Nat) :
    ks.reverse.foldl invRound (shiftRows (subBytes (ks.foldl aesRound s)))
      = shiftRows (subBytes s) := by
  induction ks generalizing s with
  | nil => rfl
  | cons k ks ih =>
    rw [List.foldl_cons, List.reverse_cons, List.foldl_append, ih (aesRound s k)]
    exact invRound_undo _ k (isBlock_shiftRows _)

theorem expandKey_eq (key : List Nat) :
    ∃ k1 k2 k3 k4 k5 k6 k7 k8 k9 k10 : List Nat,
      expandKey key = [key, k1, k2, k3, k4, k5, k6, k7, k8, k9, k10] :=
  ⟨_, _, _, _, _, _, _, _, _, _, rfl⟩

/-- AES-128 decryption inverts AES-128 encryption under the same key, on every
block of 16 bytes. -/
theorem aes128Decrypt_encrypt (key block : List Nat) (hb : IsBlock block) :
    aes128Decrypt key (aes128Encrypt key block) = block := by
  obtain ⟨k1, k2, k3, k4, k5, k6, k7, k8, k9, k10, hk⟩ := expandKey_eq key
  have henc : aes128Encrypt key block
      = addRoundKey (shiftRows (subBytes
          ([k1, k2, k3, k4, k5, k6, k7, k8, k9].foldl aesRound (addRoundKey block key)))) k10 := by
    simp only [aes128Encrypt, AES_encrypt, hk, finalRound]
    rfl
  have hdec : ∀ c, aes128Decrypt key c
      = invFinalRound ([k1, k2, k3, k4, k5, k6, k7, k8, k9].reverse.foldl invRound
          (addRoundKey c k10)) key := by
    intro c
    simp only [aes128Decrypt, AES_decrypt, hk]
    rfl
  rw [hdec, henc, addRoundKey_cancel _ _ (isBlock_shiftRows _), foldl_invRound]
  unfold invFinalRound
  rw [invShiftRows_shiftRows _ (isBlock_subBytes _),
    invSubBytes_subBytes _ (isBlock_addRoundKey _ _), addRoundKey_cancel _ _ hb]

/-! ## `decryptLastBytes` -/

/-- The model of OpenSSL's AES decryption reproduces the AES-128 example of
FIPS-197, appendix C.1. -/
theorem aes128Decrypt_fips197 :
    aes128Decrypt (List.range 16)
        [105, 196, 224, 216, 106, 123, 4, 48, 216, 205, 183, 128, 112, 180, 197, 90]
      = [0, 17, 34, 51, 68, 85, 102, 119, 136, 153, 170, 187, 204, 221, 238, 255] := by
  decide!

theorem isBlock_aes128Decrypt (key block : List Nat) : IsBlock (aes128Decrypt key block) := by
  simp only [aes128Decrypt, AES_decrypt, invFinalRound]
  exact isBlock_addRoundKey _ _

theorem isBlock_aes128Encrypt (key block : List Nat) : IsBlock (aes128Encrypt key block) := by
  simp only [aes128Encrypt, AES_encrypt, finalRound]
  exact isBlock_addRoundKey _ _

theorem xorBlock_zero (s : List Nat) (hs : IsBlock s) : xorBlock s (List.replicate 16 0) = s := by
  obtain ⟨x0, x1, x2, x3, x4, x5, x6, x7, x8, x9, x10, x11, x12, x13, x14, x15, rfl,
    h0, h1, h2, h3, h4, h5, h6, h7, h8, h9, h10, h11, h12, h13, h14, h15⟩ := hs.cases
  have hz : List.replicate 16 0 = [0, 0, 0, 0, 0, 0, 0, 0, 0, 0, 0, 0, 0, 0, 0, 0] := rfl
  simp only [xorBlock, range16, hz, List.map_cons, List.map_nil, byteAt, List.getD_cons_succ,
    List.getD_cons_zero, Nat.zero_mod, Nat.xor_zero, Nat.mod_eq_of_lt, h0, h1, h2, h3, h4, h5,
    h6, h7, h8, h9, h10, h11, h12, h13, h14, h15]

theorem decryptLastBytes_of_length (data key : List Nat) (hd : 16 ≤ data.length)
    (hk : key.length = 16) :
    decryptLastBytes data key
      = xorBlock (aes128Decrypt key (data.drop (data.length - 16))) (List.replicate 16 0) := by
  have hl : (data.drop (data.length - 16)).length = 16 := by
    rw [List.length_drop]
    omega
  have hne : ¬ (data.length < 16 ∨ key.length ≠ 16) := by
    intro h
    rcases h with h | h
    · omega
    · exact h hk
  have hx : ∀ a b : List Nat, (xorBlock a b).length = 16 := by
    intro a b
    simp [xorBlock]
  simp only [decryptLastBytes, if_neg hne, AES_set_decrypt_key, right, filled, AES_cbc_encrypt,
    AES_DECRYPT]
  simp only [↓reduceIte, ne_eq, not_true_eq_false, Nat.reduceDiv, cbcBlocks, AES_DECRYPT,
    List.append_nil, List.take_of_length_le (Nat.le_of_eq hl),
    List.take_of_length_le (Nat.le_of_eq (hx _ _)), aes128Decrypt]

theorem decryptLastBytes_of_bad_length (data key : List Nat)
    (h : data.length < 16 ∨ key.length ≠ 16) : decryptLastBytes data key = [] := by
  simp only [decryptLastBytes]
  rw [if_pos h]

theorem decryptLastBytes_eq (data key : List Nat) (hd : 16 ≤ data.length)
    (hk : key.length = 16) :
    decryptLastBytes data key = aes128Decrypt key (data.drop (data.length - 16)) := by
  rw [decryptLastBytes_of_length data key hd hk, xorBlock_zero _ (isBlock_aes128Decrypt _ _)]

/-- C12.  `decryptLastBytes data key` is the empty byte string exactly when
`|data| < 16` or `|key| ≠ 16`; otherwise it is the 16-byte AES-128 decryption,
under `key` as given, of the last 16 bytes of `data`, XORed with an all-zero IV
(which changes nothing), so that it is the same for every `data` with the same
last 16 bytes. -/
theorem decryptLastBytes_spec (data key : List Nat) :
    (decryptLastBytes data key = [] ↔ (data.length < 16 ∨ key.length ≠ 16)) ∧
    (16 ≤ data.length → key.length = 16 →
      decryptLastBytes data key
        = xorBlock (aes128Decrypt key (data.drop (data.length - 16))) (List.replicate 16 0) ∧
      decryptLastBytes data key = aes128Decrypt key (data.drop (data.length - 16)) ∧
      (decryptLastBytes data key).length = 16 ∧
      ∀ other : List Nat, 16 ≤ other.length →
        other.drop (other.length - 16) = data.drop (data.length - 16) →
        decryptLastBytes other key = decryptLastBytes data key) := by
  have hlen : 16 ≤ data.length → key.length = 16 → (decryptLastBytes data key).length = 16 := by
    intro hd hk
    rw [decryptLastBytes_eq data key hd hk]
    exact (isBlock_aes128Decrypt _ _).1
  refine ⟨⟨fun h => ?_, decryptLastBytes_of_bad_length data key⟩, fun hd hk =>
    ⟨decryptLastBytes_of_length data key hd hk, decryptLastBytes_eq data key hd hk,
      hlen hd hk, ?_⟩⟩
  · by_contra hn
    have hd : 16 ≤ data.length := by
      by_contra hd
      exact hn (Or.inl (Nat.lt_of_not_le hd))
    have hk : key.length = 16 := by
      by_contra hk
      exact hn (Or.inr hk)
    have hl := hlen hd hk
    rw [h] at hl
    cases hl
  · intro other ho heq
    rw [decryptLastBytes_eq other key ho hk, decryptLastBytes_eq data key hd hk, heq]

/-- The statement `decryptLastBytes_spec` applied to a 19-byte `data` whose last
16 bytes are an AES-128 ciphertext, and to a 15-byte `data`. -/
theorem decryptLastBytes_spec_witness :
    16 ≤ ([1, 2, 3] ++ aes128Encrypt (List.range 16) (List.replicate 16 7)).length ∧
    (List.range 16).length = 16 ∧
    (decryptLastBytes ([1, 2, 3] ++ aes128Encrypt (List.range 16) (List.replicate 16 7))
        (List.range 16)).length = 16 ∧
    decryptLastBytes (List.replicate 15 0) (List.range 16) = [] :=
  ⟨by simp [(isBlock_aes128Encrypt _ _).1], by decide,
    ((decryptLastBytes_spec _ (List.range 16)).2
      (by simp [(isBlock_aes128Encrypt _ _).1]) (by decide)).2.2.1,
    (decryptLastBytes_spec (List.replicate 15 0) (List.range 16)).1.2 (Or.inl (by decide))⟩

/-! ## `e` and `decryptLastBytes` together -/

theorem isBlock_reverse (b : List Nat) (hb : IsBlock b) : IsBlock b.reverse :=
  ⟨by rw [List.length_reverse]; exact hb.1, fun x hx => hb.2 x (List.mem_reverse.mp hx)⟩

/-- C19.  For a 16-byte key `k` and a 16-byte block `b`, `decryptLastBytes`
inverts `e` once the byte reversals of `e` are undone:
`decryptLastBytes (reverse (e k b)) (reverse k) = reverse b`.  That AES-128
decryption inverts AES-128 encryption is proved of the cipher embedded here
(`aes128Decrypt_encrypt`), not assumed. -/
theorem decryptLastBytes_reverse_e (k b : List Nat) (hk : k.length = 16) (hb : IsBlock b) :
    decryptLastBytes (e k b).reverse k.reverse = b.reverse := by
  have hl : (aes128Encrypt k.reverse b.reverse).length = 16 := (isBlock_aes128Encrypt _ _).1
  rw [e_of_length k b hk hb.1, List.reverse_reverse,
    decryptLastBytes_eq _ _ (Nat.le_of_eq hl.symm) (by rw [List.length_reverse]; exact hk),
    hl, Nat.sub_self, List.drop_zero]
  exact aes128Decrypt_encrypt _ _ (isBlock_reverse b hb)

/-- The statement `decryptLastBytes_reverse_e` applied to the key and block
`0, 1, .., 15`. -/
theorem decryptLastBytes_reverse_e_witness :
    (List.range 16).length = 16 ∧ IsBlock (List.range 16) ∧
    decryptLastBytes (e (List.range 16) (List.range 16)).reverse (List.range 16).reverse
      = (List.range 16).reverse :=
  ⟨by decide, ⟨by decide, by decide⟩,
    decryptLastBytes_reverse_e (List.range 16) (List.range 16) (by decide)
      ⟨by decide, by decide⟩⟩

/-- C13 (amended).  For a 16-byte key `k` and a 16-byte block `b`, the CBC
decryption path recovers the plaintext from the output of `e` once the byte
reversals inside `e` are undone:
`decryptLastBytes (reverse (e (reverse k) (reverse b))) k = b`. -/
theorem decryptLastBytes_undoes_e (k b : List Nat) (hk : k.length = 16) (hb : IsBlock b) :
    decryptLastBytes (e k.reverse b.reverse).reverse k = b := by
  have hl : (aes128Encrypt k b).length = 16 := (isBlock_aes128Encrypt _ _).1
  rw [e_of_length k.reverse b.reverse (by rw [List.length_reverse]; exact hk)
      (by rw [List.length_reverse]; exact hb.1),
    List.reverse_reverse, List.reverse_reverse, List.reverse_reverse,
    decryptLastBytes_eq _ _ (Nat.le_of_eq hl.symm) hk, hl, Nat.sub_self, List.drop_zero]
  exact aes128Decrypt_encrypt _ _ hb

/-- The statement `decryptLastBytes_undoes_e` applied to the all-zero key and
the block `0, 1, .., 15`. -/
theorem decryptLastBytes_undoes_e_witness :
    (List.replicate 16 0).length = 16 ∧ IsBlock (List.range 16) ∧
    decryptLastBytes (e (List.replicate 16 0).reverse (List.range 16).reverse).reverse
      (List.replicate 16 0) = List.range 16 :=
  ⟨by decide, ⟨by decide, by decide⟩,
    decryptLastBytes_undoes_e (List.replicate 16 0) (List.range 16) (by decide)
      ⟨by decide, by decide⟩⟩

/-- C13 as stated fails: for the key and block `0, 1, .., 15`,
`decryptLastBytes (e k b) k` is not `b`. -/
theorem decryptLastBytes_e_not_inverse :
    decryptLastBytes (e (List.range 16) (List.range 16)) (List.range 16)
      = [220, 114, 228, 1, 39, 255, 239, 236, 244, 47, 13, 118, 96, 209, 135, 146] ∧
    decryptLastBytes (e (List.range 16) (List.range 16)) (List.range 16) ≠ List.range 16 := by
  have h : decryptLastBytes (e (List.range 16) (List.range 16)) (List.range 16)
      = [220, 114, 228, 1, 39, 255, 239, 236, 244, 47, 13, 118, 96, 209, 135, 146] := by
    decide!
  refine ⟨h, ?_⟩
  rw [h]
  decide

end BleCryptoUtils

namespace QtAACPTransport

/-! ## The command-status map -/

theorem ofTag_tag (i : ControlCommandIdentifier) :
    ControlCommandIdentifier.ofTag i.tag = some i := by
  cases i <;> rfl

theorem tag_injective (i j : ControlCommandIdentifier) (h : i.tag = j.tag) : i = j := by
  have hi := ofTag_tag i
  rw [h, ofTag_tag j] at hi
  exact (Option.some.inj hi).symm

/-- The value the map holds for `i`: that of the first entry with the key `i`. -/
theorem controlCommandStatus_eq (t : Transport) (i : ControlCommandIdentifier) :
    controlCommandStatus t i
      = (t.m_controlCommandStatus.find? fun kv => kv.1.tag = i.tag).map
          fun kv => { identifier := i, value := kv.2 } := by
  unfold controlCommandStatus qmapContains qmapValue
  cases hf : t.m_controlCommandStatus.find? fun kv => decide (kv.1.tag = i.tag) with
  | none =>
    have hany : (t.m_controlCommandStatus.any fun kv => decide (kv.1.tag = i.tag)) = false := by
      rw [List.any_eq_false]
      intro x hx
      have := List.find?_eq_none.mp hf x hx
      simpa using this
    simp [hany]
  | some kv =>
    have hany : (t.m_controlCommandStatus.any fun kv => decide (kv.1.tag = i.tag)) = true := by
      rw [List.any_eq_true]
      exact ⟨kv, List.mem_of_find?_eq_some hf, List.find?_some (p := fun x : ControlCommandIdentifier × List Nat => decide (x.1.tag = i.tag)) hf⟩
    simp [hany]

theorem find_qmapInsert_same (i : ControlCommandIdentifier) (v : List Nat)
    (m : List (ControlCommandIdentifier × List Nat)) :
    (qmapInsert i v m).find? (fun kv => kv.1.tag = i.tag) = some (i, v) := by
  induction m with
  | nil => simp [qmapInsert]
  | cons kv rest ih =>
    obtain ⟨k, w⟩ := kv
    unfold qmapInsert
    split
    · simp
    · split
      · simp
      · rename_i h1 h2
        have hne : ¬ k.tag = i.tag := fun e => h2 e.symm
        simp [List.find?_cons, hne, ih]

theorem find_qmapInsert_other (i j : ControlCommandIdentifier) (v : List Nat)
    (m : List (ControlCommandIdentifier × List Nat)) (hij : j ≠ i) :
    (qmapInsert i v m).find? (fun kv => kv.1.tag = j.tag)
      = m.find? (fun kv => kv.1.tag = j.tag) := by
  have hne : ¬ i.tag = j.tag := fun e => hij (tag_injective i j e).symm
  induction m with
  | nil => simp [qmapInsert, hne]
  | cons kv rest ih =>
    obtain ⟨k, w⟩ := kv
    unfold qmapInsert
    split
    · simp [List.find?_cons, hne]
    · split
      · rename_i h1 h2
        have hk : ¬ k.tag = j.tag := fun e => hne (h2.trans e)
        simp [List.find?_cons, hne, hk]
      · by_cases hk : k.tag = j.tag
        · simp [List.find?_cons, hk]
        · simp [List.find?_cons, hk, ih]

/-- C14.  After `setControlCommandStatus i v`, `controlCommandStatus i` returns
the status `(i, v)`, whatever the map held before, and `controlCommandStatus j`
is unchanged for every identifier `j ≠ i`. -/
theorem setControlCommandStatus_spec (t : Transport) (i : ControlCommandIdentifier)
    (v : List Nat) :
    controlCommandStatus (setControlCommandStatus t i v) i
      = some { identifier := i, value := v } ∧
    ∀ j, j ≠ i →
      controlCommandStatus (setControlCommandStatus t i v) j = controlCommandStatus t j := by
  constructor
  · rw [controlCommandStatus_eq]
    simp only [setControlCommandStatus, find_qmapInsert_same]
    rfl
  · intro j hj
    rw [controlCommandStatus_eq, controlCommandStatus_eq]
    simp only [setControlCommandStatus, find_qmapInsert_other i j v _ hj]

/-- The statement `setControlCommandStatus_spec` applied to a map that holds
`MIC_MODE` and `LISTENING_MODE`, when `MIC_MODE` is set again. -/
theorem setControlCommandStatus_spec_witness :
    ControlCommandIdentifier.LISTENING_MODE ≠ ControlCommandIdentifier.MIC_MODE ∧
    controlCommandStatus (setControlCommandStatus (setControlCommandStatus
        (setControlCommandStatus fresh .MIC_MODE [0]) .LISTENING_MODE [2]) .MIC_MODE [1])
      .MIC_MODE = some { identifier := .MIC_MODE, value := [1] } ∧
    controlCommandStatus (setControlCommandStatus (setControlCommandStatus
        (setControlCommandStatus fresh .MIC_MODE [0]) .LISTENING_MODE [2]) .MIC_MODE [1])
      .LISTENING_MODE
      = controlCommandStatus (setControlCommandStatus
          (setControlCommandStatus fresh .MIC_MODE [0]) .LISTENING_MODE [2]) .LISTENING_MODE :=
  ⟨by decide, (setControlCommandStatus_spec _ .MIC_MODE [1]).1,
    (setControlCommandStatus_spec _ .MIC_MODE [1]).2 .LISTENING_MODE (by decide)⟩

/-- C15.  After `clearControlCommandStatuses`, `controlCommandStatus i` returns
none for every identifier `i` and `controlCommandStatuses` is the empty list; in
particular a value set before the clear is no longer returned. -/
theorem clearControlCommandStatuses_spec (t : Transport) :
    (∀ i, controlCommandStatus (clearControlCommandStatuses t) i = none) ∧
    controlCommandStatuses (clearControlCommandStatuses t) = [] ∧
    (∀ i v, controlCommandStatus (setControlCommandStatus t i v) i
        = some { identifier := i, value := v } ∧
      controlCommandStatus (clearControlCommandStatuses (setControlCommandStatus t i v)) i
        = none) := by
  refine ⟨fun i => rfl, rfl, fun i v => ⟨?_, rfl⟩⟩
  rw [controlCommandStatus_eq]
  simp only [setControlCommandStatus, find_qmapInsert_same]
  rfl

/-! ## The map over a run -/

theorem cleanupSocket_map (t : Transport) :
    (cleanupSocket t).m_controlCommandStatus = t.m_controlCommandStatus := by
  unfold cleanupSocket
  cases t.m_socket <;> rfl

theorem setupSession_map (t : Transport) (d : DeviceInfo) :
    (setupSession t d).m_controlCommandStatus = t.m_controlCommandStatus := by
  unfold setupSession cleanupSocket
  cases t.m_socket <;> rfl

theorem disconnectFromDevice_map (t : Transport) :
    (disconnectFromDevice t).m_controlCommandStatus = t.m_controlCommandStatus := by
  unfold disconnectFromDevice cleanupSocket
  cases t.m_socket <;> rfl

theorem handler_map (t : Transport) (sig : Signal) :
    (handler sig t).m_controlCommandStatus = t.m_controlCommandStatus := by
  cases sig with
  | connected => rw [handler, handleConnected_eq]
  | readyRead =>
    simp only [handler, handleReadyRead]
    split
    · rfl
    · split <;> rfl
  | disconnected => rfl
  | errorOccurred =>
    simp only [handler, handleError, scheduleReconnect]
    split <;> rfl

/-- Only `setControlCommandStatus` and `clearControlCommandStatuses` change the
command-status map. -/
theorem step_map (t : Transport) (ev : Event) :
    (step t ev).m_controlCommandStatus =
      match ev with
      | .setControlCommandStatus i v => qmapInsert i v t.m_controlCommandStatus
      | .clearControlCommandStatuses => []
      | _ => t.m_controlCommandStatus := by
  cases ev with
  | setupSession d => exact setupSession_map t d
  | disconnectFromDevice => exact disconnectFromDevice_map t
  | sendPacket p =>
    simp only [step, sendPacket]
    split
    · split <;> rfl
    · rfl
  | setPacketCallback cb => rfl
  | setConnectedCallback cb => rfl
  | setRetryAttempts n => rfl
  | setControlCommandStatus i v => rfl
  | clearControlCommandStatuses => rfl
  | socketStatus id o st => rfl
  | socketData id bytes => rfl
  | socketSignal id sig =>
    simp only [step, socketSignal]
    split
    · split
      · exact handler_map t sig
      · rfl
    · rfl
  | timerExpired =>
    simp only [step, timerExpired]
    split
    · rfl
    · exact setupSession_map _ _

theorem mem_qmapInsert (i : ControlCommandIdentifier) (v : List Nat)
    (m : List (ControlCommandIdentifier × List Nat)) (x : ControlCommandIdentifier × List Nat)
    (hx : x ∈ qmapInsert i v m) : x = (i, v) ∨ x ∈ m := by
  induction m with
  | nil =>
    simp only [qmapInsert, List.mem_singleton] at hx
    exact Or.inl hx
  | cons kv rest ih =>
    obtain ⟨k, w⟩ := kv
    unfold qmapInsert at hx
    split at hx
    · rcases List.mem_cons.mp hx with h | h
      · exact Or.inl h
      · exact Or.inr h
    · split at hx
      · rcases List.mem_cons.mp hx with h | h
        · exact Or.inl h
        · exact Or.inr (List.mem_cons_of_mem _ h)
      · rcases List.mem_cons.mp hx with h | h
        · exact Or.inr (h ▸ List.mem_cons_self _ _)
        · rcases ih h with h | h
          · exact Or.inl h
          · exact Or.inr (List.mem_cons_of_mem _ h)

theorem sorted_qmapInsert (i : ControlCommandIdentifier) (v : List Nat)
    (m : List (ControlCommandIdentifier × List Nat))
    (hm : m.Pairwise fun a b => a.1.tag < b.1.tag) :
    (qmapInsert i v m).Pairwise fun a b => a.1.tag < b.1.tag := by
  induction m with
  | nil => simp [qmapInsert]
  | cons kv rest ih =>
    obtain ⟨k, w⟩ := kv
    obtain ⟨hk, hrest⟩ := List.pairwise_cons.mp hm
    unfold qmapInsert
    split
    · rename_i hlt
      refine List.pairwise_cons.mpr ⟨?_, hm⟩
      intro x hx
      rcases List.mem_cons.mp hx with rfl | hx
      · exact hlt
      · exact Nat.lt_trans hlt (hk x hx)
    · split
      · rename_i h1 h2
        refine List.pairwise_cons.mpr ⟨?_, hrest⟩
        intro x hx
        show i.tag < x.1.tag
        rw [h2]
        exact hk x hx
      · rename_i h1 h2
        refine List.pairwise_cons.mpr ⟨?_, ih hrest⟩
        intro x hx
        rcases mem_qmapInsert i v rest x hx with rfl | hx
        · show k.tag < i.tag
          omega
        · exact hk x hx

theorem sorted_step (t : Transport) (ev : Event)
    (h : t.m_controlCommandStatus.Pairwise fun a b => a.1.tag < b.1.tag) :
    (step t ev).m_controlCommandStatus.Pairwise fun a b => a.1.tag < b.1.tag := by
  rw [step_map]
  cases ev <;> first | exact h | exact List.Pairwise.nil | exact sorted_qmapInsert _ _ _ h

theorem sorted_run (t : Transport) (events : List Event)
    (h : t.m_controlCommandStatus.Pairwise fun a b => a.1.tag < b.1.tag) :
    (run t events).m_controlCommandStatus.Pairwise fun a b => a.1.tag < b.1.tag := by
  induction events generalizing t with
  | nil => exact h
  | cons ev evs ih => exact ih (step t ev) (sorted_step t ev h)

/-- The value `controlCommandStatus` returns for `i`, if any. -/
theorem lookup_step (t : Transport) (ev : Event) (i : ControlCommandIdentifier) :
    (controlCommandStatus (step t ev) i).map (fun s => s.value)
      = lastSetStep i ((controlCommandStatus t i).map fun s => s.value) ev := by
  rw [controlCommandStatus_eq, controlCommandStatus_eq, step_map]
  cases ev with
  | setControlCommandStatus j v =>
    simp only [lastSetStep]
    by_cases hji : j = i
    · subst hji
      simp [find_qmapInsert_same]
    · rw [if_neg hji, find_qmapInsert_other j i v _ (fun e => hji e.symm)]
  | clearControlCommandStatuses => rfl
  | setupSession d => rfl
  | disconnectFromDevice => rfl
  | sendPacket p => rfl
  | setPacketCallback cb => rfl
  | setConnectedCallback cb => rfl
  | setRetryAttempts n => rfl
  | socketStatus id o st => rfl
  | socketData id bytes => rfl
  | socketSignal id sig => rfl
  | timerExpired => rfl

theorem lookup_run (t : Transport) (events : List Event) (i : ControlCommandIdentifier) :
    (controlCommandStatus (run t events) i).map (fun s => s.value)
      = events.foldl (lastSetStep i) ((controlCommandStatus t i).map fun s => s.value) := by
  induction events generalizing t with
  | nil => rfl
  | cons ev evs ih =>
    rw [List.foldl_cons, ← lookup_step]
    exact ih (step t ev)

theorem controlCommandStatus_identifier (t : Transport) (i : ControlCommandIdentifier)
    (s : ControlCommandStatus) (h : controlCommandStatus t i = some s) : s.identifier = i := by
  rw [controlCommandStatus_eq] at h
  cases hf : t.m_controlCommandStatus.find? fun kv => decide (kv.1.tag = i.tag) with
  | none =>
    rw [hf] at h
    cases h
  | some kv =>
    rw [hf] at h
    cases h
    rfl

theorem mem_statuses_iff (t : Transport)
    (h : t.m_controlCommandStatus.Pairwise fun a b => a.1.tag < b.1.tag)
    (i : ControlCommandIdentifier) (v : List Nat) :
    ({ identifier := i, value := v } : ControlCommandStatus) ∈ controlCommandStatuses t ↔
      controlCommandStatus t i = some { identifier := i, value := v } := by
  have hmem : ({ identifier := i, value := v } : ControlCommandStatus)
      ∈ controlCommandStatuses t ↔ (i, v) ∈ t.m_controlCommandStatus := by
    simp only [controlCommandStatuses, List.mem_map]
    constructor
    · rintro ⟨⟨k, w⟩, hkw, he⟩
      cases he
      exact hkw
    · intro hiv
      exact ⟨(i, v), hiv, rfl⟩
  rw [hmem, controlCommandStatus_eq]
  generalize t.m_controlCommandStatus = m at h
  induction m with
  | nil => simp
  | cons kv rest ih =>
    obtain ⟨k, w⟩ := kv
    obtain ⟨hk, hrest⟩ := List.pairwise_cons.mp h
    by_cases hki : k.tag = i.tag
    · have hkeq : k = i := tag_injective k i hki
      subst hkeq
      have hnot : ∀ u, (k, u) ∉ rest := by
        intro u hu
        exact Nat.lt_irrefl _ (hk (k, u) hu)
      simp only [List.find?_cons, decide_True, Option.map_some', Option.some.injEq,
        List.mem_cons, Prod.mk.injEq, true_and, ControlCommandStatus.mk.injEq]
      constructor
      · rintro (h1 | h1)
        · exact h1.symm
        · exact absurd h1 (hnot v)
      · intro h1
        exact Or.inl h1.symm
    · have hne : ¬ (i = k) := fun e => hki (by rw [e])
      simp only [List.find?_cons, hki, decide_False, List.mem_cons, Prod.mk.injEq, hne,
        false_and, false_or]
      exact ih hrest

/-- C16.  After any sequence of events from a fresh transport (in particular any
sequence of `setControlCommandStatus` and `clearControlCommandStatuses` calls),
the list `controlCommandStatuses` holds each identifier at most once; a pair
`(i, v)` occurs in it if and only if `controlCommandStatus i` returns `(i, v)`;
and `controlCommandStatus i` returns the value of the last set for `i` since the
last clear, or none if there is no such set. -/
theorem controlCommandStatuses_spec (events : List Event) :
    ((controlCommandStatuses (run fresh events)).map fun s => s.identifier).Nodup ∧
    (∀ i v, ({ identifier := i, value := v } : ControlCommandStatus)
        ∈ controlCommandStatuses (run fresh events) ↔
      controlCommandStatus (run fresh events) i = some { identifier := i, value := v }) ∧
    (∀ i, controlCommandStatus (run fresh events) i
      = (lastSet i events).map fun v => { identifier := i, value := v }) := by
  have hs := sorted_run fresh events List.Pairwise.nil
  refine ⟨?_, mem_statuses_iff _ hs, ?_⟩
  · simp only [controlCommandStatuses, List.map_map]
    rw [List.Nodup, List.pairwise_map]
    refine List.Pairwise.imp ?_ hs
    intro a b hab he
    simp only [Function.comp] at he
    rw [he] at hab
    exact Nat.lt_irrefl _ hab
  · intro i
    have hl := lookup_run fresh events i
    have h0 : (controlCommandStatus fresh i).map (fun s => s.value) = none := rfl
    rw [h0] at hl
    unfold lastSet
    rw [← hl]
    cases hc : controlCommandStatus (run fresh events) i with
    | none => rfl
    | some s =>
      have hid := controlCommandStatus_identifier _ i s hc
      cases s
      simp only at hid
      subst hid
      rfl

/-- C17 (amended).  Session teardown leaves the command-status map as it was:
`controlCommandStatus i` returns the same after `disconnectFromDevice`, after
`setupSession` (which tears down the previous channel) and after
`cleanupSocket` as before; only `clearControlCommandStatuses` empties the map. -/
theorem teardown_keeps_statuses (t : Transport) (d : DeviceInfo)
    (i : ControlCommandIdentifier) :
    controlCommandStatus (disconnectFromDevice t) i = controlCommandStatus t i ∧
    controlCommandStatus (setupSession t d) i = controlCommandStatus t i ∧
    controlCommandStatus (cleanupSocket t) i = controlCommandStatus t i ∧
    controlCommandStatuses (disconnectFromDevice t) = controlCommandStatuses t ∧
    controlCommandStatuses (setupSession t d) = controlCommandStatuses t ∧
    controlCommandStatus (clearControlCommandStatuses t) i = none := by
  simp only [controlCommandStatus, controlCommandStatuses, disconnectFromDevice_map,
    setupSession_map, cleanupSocket_map]
  exact ⟨trivial, trivial, trivial, trivial, trivial, rfl⟩

/-- C17 as stated fails: a status set before `setupSession` is still returned
after `disconnectFromDevice`, and after a second `setupSession`. -/
theorem statuses_survive_teardown :
    controlCommandStatus (run fresh [.setControlCommandStatus .MIC_MODE [1],
        .setupSession { name := "AirPods", address := "4A:1B:9C:00:11:22" },
        .disconnectFromDevice]) .MIC_MODE
      = some { identifier := .MIC_MODE, value := [1] } ∧
    controlCommandStatus (run fresh [
        .setupSession { name := "AirPods", address := "4A:1B:9C:00:11:22" },
        .setControlCommandStatus .MIC_MODE [1],
        .setupSession { name := "AirPods", address := "4A:1B:9C:00:11:22" }]) .MIC_MODE
      = some { identifier := .MIC_MODE, value := [1] } := by
  decide

/-! ## The descriptor a retry connects to -/

theorem setupSession_effects (t : Transport) (d : DeviceInfo) :
    (setupSession t d).effects
      = t.effects ++ [Effect.connectToService t.nextSocketId d.address serviceUuid] := by
  unfold setupSession cleanupSocket
  cases t.m_socket <;> rfl

/-- Only `setupSession` changes the stored descriptor. -/
theorem step_deviceInfo (t : Transport) (ev : Event) :
    (step t ev).m_deviceInfo = (lastSetupStep (some t.m_deviceInfo) ev).getD t.m_deviceInfo := by
  cases ev with
  | setupSession d => exact (setupSession_socket t d).2.2.1
  | disconnectFromDevice =>
    simp only [step, disconnectFromDevice, cleanupSocket, lastSetupStep]
    cases t.m_socket <;> rfl
  | sendPacket p =>
    simp only [step, sendPacket, lastSetupStep]
    split
    · split <;> rfl
    · rfl
  | setPacketCallback cb => rfl
  | setConnectedCallback cb => rfl
  | setRetryAttempts n => rfl
  | setControlCommandStatus i v => rfl
  | clearControlCommandStatuses => rfl
  | socketStatus id o st => rfl
  | socketData id bytes => rfl
  | socketSignal id sig =>
    simp only [step, socketSignal, lastSetupStep]
    have hh : (handler sig t).m_deviceInfo = t.m_deviceInfo := by
      cases sig with
      | connected => rw [handler, handleConnected_eq]
      | readyRead =>
        simp only [handler, handleReadyRead]
        split
        · rfl
        · split <;> rfl
      | disconnected => rfl
      | errorOccurred =>
        simp only [handler, handleError, scheduleReconnect]
        split <;> rfl
    split
    · split
      · exact hh
      · rfl
    · rfl
  | timerExpired =>
    simp only [step, timerExpired, lastSetupStep]
    split
    · rfl
    · exact (setupSession_socket _ _).2.2.1

theorem foldl_lastSetupStep_some (events : List Event) (d : DeviceInfo) :
    ∃ d1, events.foldl lastSetupStep (some d) = some d1 := by
  induction events generalizing d with
  | nil => exact ⟨d, rfl⟩
  | cons ev evs ih =>
    cases ev <;> exact ih _

/-- The stored descriptor after a run is that of the last `setupSession` in it,
or the one stored at the start. -/
theorem deviceInfo_run (t : Transport) (events : List Event) (acc : Option DeviceInfo)
    (hacc : acc.getD t.m_deviceInfo = t.m_deviceInfo) :
    (run t events).m_deviceInfo = (events.foldl lastSetupStep acc).getD t.m_deviceInfo := by
  induction events generalizing t acc with
  | nil => exact hacc.symm
  | cons ev evs ih =>
    have hstep := step_deviceInfo t ev
    cases ev with
    | setupSession d =>
      have h1 : (step t (.setupSession d)).m_deviceInfo = d := hstep
      have := ih (step t (.setupSession d)) (some d) (by rw [h1]; rfl)
      obtain ⟨d1, hd1⟩ := foldl_lastSetupStep_some evs d
      simp only [run, List.foldl_cons, lastSetupStep] at this ⊢
      rw [this, hd1]
      rfl
    | disconnectFromDevice | sendPacket _ | setPacketCallback _ | setConnectedCallback _
    | setRetryAttempts _ | setControlCommandStatus _ _ | clearControlCommandStatuses
    | socketStatus _ _ _ | socketData _ _ | socketSignal _ _ | timerExpired =>
      have h1 : (step t _).m_deviceInfo = t.m_deviceInfo := hstep
      have := ih (step t _) acc (by rw [h1]; exact hacc)
      simp only [run, List.foldl_cons, lastSetupStep] at this ⊢
      rw [this, h1]

theorem timerExpired_of_zero (t : Transport) (h : t.timers = 0) : timerExpired t = t := by
  unfold timerExpired
  rw [if_pos h]

theorem timerExpired_of_pos (t : Transport) (h : 0 < t.timers) :
    timerExpired t = setupSession { t with timers := t.timers - 1 } t.m_deviceInfo := by
  unfold timerExpired
  rw [if_neg (by omega)]

theorem run_timerExpired (t : Transport) (events : List Event) :
    run t (events ++ [.timerExpired]) = timerExpired (run t events) := by
  rw [run_append]
  rfl

/-- A transport that was never set up holds no socket and no timer. -/
theorem idle_run (t : Transport) (events : List Event)
    (ht : t.m_socket = none ∧ t.retired = [] ∧ t.timers = 0)
    (hn : events.foldl lastSetupStep none = none) :
    (run t events).m_socket = none ∧ (run t events).retired = [] ∧ (run t events).timers = 0 := by
  induction events generalizing t with
  | nil => exact ht
  | cons ev evs ih =>
    obtain ⟨h1, h2, h3⟩ := ht
    cases ev with
    | setupSession d =>
      obtain ⟨d1, hd1⟩ := foldl_lastSetupStep_some evs d
      simp only [List.foldl_cons, lastSetupStep] at hn
      rw [hd1] at hn
      cases hn
    | disconnectFromDevice =>
      refine ih (step t .disconnectFromDevice) ?_ hn
      have hc : cleanupSocket t = t := by
        simp only [cleanupSocket, h1]
      simp only [step, disconnectFromDevice, hc]
      exact ⟨h1, h2, h3⟩
    | sendPacket p =>
      refine ih (step t (.sendPacket p)) ?_ hn
      have hs : (sendPacket t p).2 = t := by
        simp only [sendPacket, h1]
      simp only [step, hs]
      exact ⟨h1, h2, h3⟩
    | setPacketCallback cb => exact ih (step t (.setPacketCallback cb)) ⟨h1, h2, h3⟩ hn
    | setConnectedCallback cb => exact ih (step t (.setConnectedCallback cb)) ⟨h1, h2, h3⟩ hn
    | setRetryAttempts n => exact ih (step t (.setRetryAttempts n)) ⟨h1, h2, h3⟩ hn
    | setControlCommandStatus i v =>
      exact ih (step t (.setControlCommandStatus i v)) ⟨h1, h2, h3⟩ hn
    | clearControlCommandStatuses =>
      exact ih (step t .clearControlCommandStatuses) ⟨h1, h2, h3⟩ hn
    | socketStatus id o st =>
      refine ih (step t (.socketStatus id o st)) ⟨?_, ?_, h3⟩ hn
      · simp only [step, updateSocket, h1, Option.map_none']
      · simp only [step, updateSocket, h2, List.map_nil]
    | socketData id bytes =>
      refine ih (step t (.socketData id bytes)) ⟨?_, ?_, h3⟩ hn
      · simp only [step, updateSocket, h1, Option.map_none']
      · simp only [step, updateSocket, h2, List.map_nil]
    | socketSignal id sig =>
      refine ih (step t (.socketSignal id sig)) ?_ hn
      have hf : findSocket t id = none := by
        simp [findSocket, h1, h2]
      have hs : step t (.socketSignal id sig) = t := by
        simp only [step, socketSignal, hf]
      rw [hs]
      exact ⟨h1, h2, h3⟩
    | timerExpired =>
      refine ih (step t .timerExpired) ?_ hn
      rw [show step t .timerExpired = timerExpired t from rfl, timerExpired_of_zero t h3]
      exact ⟨h1, h2, h3⟩

/-- C11.  In every run from a fresh transport: if the consumer has called
`setupSession`, the stored descriptor and `address()` are those of its most
recent call, and a retry timer that expires opens a channel to that descriptor
(never to an earlier one); if the consumer has not called `setupSession`, there
is no channel and no retry timer, and an expiry does nothing. -/
theorem retry_targets_last_descriptor (events : List Event) :
    (∀ d, lastSetup events = some d →
      (run fresh events).m_deviceInfo = d ∧
      address (run fresh events) = d.address ∧
      (0 < (run fresh events).timers →
        ∃ s, (run fresh (events ++ [.timerExpired])).m_socket = some s ∧
          s.attached = true ∧
          s.target = some (d.address, serviceUuid) ∧
          (run fresh (events ++ [.timerExpired])).effects
            = (run fresh events).effects ++ [Effect.connectToService s.id d.address serviceUuid] ∧
          (run fresh (events ++ [.timerExpired])).m_deviceInfo = d)) ∧
    (lastSetup events = none →
      (run fresh events).m_socket = none ∧ (run fresh events).timers = 0 ∧
      run fresh (events ++ [.timerExpired]) = run fresh events) := by
  constructor
  · intro d hd
    have hdev : (run fresh events).m_deviceInfo = d := by
      rw [deviceInfo_run fresh events none rfl]
      unfold lastSetup at hd
      rw [hd]
      rfl
    refine ⟨hdev, by rw [address, hdev], ?_⟩
    intro htim
    have hrun : run fresh (events ++ [.timerExpired])
        = setupSession { run fresh events with timers := (run fresh events).timers - 1 }
            (run fresh events).m_deviceInfo := by
      rw [run_timerExpired, timerExpired_of_pos _ htim]
    obtain ⟨a, b, c, e, f⟩ := setupSession_socket
      { run fresh events with timers := (run fresh events).timers - 1 }
      (run fresh events).m_deviceInfo
    rw [hrun]
    refine ⟨_, a, rfl, ?_, ?_, ?_⟩
    · show some ((run fresh events).m_deviceInfo.address, serviceUuid) = _
      rw [hdev]
    · rw [setupSession_effects, hdev]
    · rw [c, hdev]
  · intro hn
    obtain ⟨h1, _, h3⟩ := idle_run fresh events ⟨rfl, rfl, rfl⟩ hn
    refine ⟨h1, h3, ?_⟩
    rw [run_timerExpired, timerExpired_of_zero _ h3]

/-- The statement `retry_targets_last_descriptor` applied to a run in which the
consumer sets up one device, a channel error starts a retry timer, and the
consumer then sets up another device: the retry connects to the second one. -/
theorem retry_targets_last_descriptor_witness :
    lastSetup [.setupSession { name := "AirPods", address := "4A:1B:9C:00:11:22" },
        .socketSignal 0 .errorOccurred,
        .setupSession { name := "Other", address := "00:11:22:33:44:55" }]
      = some { name := "Other", address := "00:11:22:33:44:55" } ∧
    0 < (run fresh [.setupSession { name := "AirPods", address := "4A:1B:9C:00:11:22" },
        .socketSignal 0 .errorOccurred,
        .setupSession { name := "Other", address := "00:11:22:33:44:55" }]).timers ∧
    ∃ s, (run fresh ([.setupSession { name := "AirPods", address := "4A:1B:9C:00:11:22" },
        .socketSignal 0 .errorOccurred,
        .setupSession { name := "Other", address := "00:11:22:33:44:55" }]
          ++ [.timerExpired])).m_socket = some s ∧
      s.target = some ("00:11:22:33:44:55", serviceUuid) :=
  ⟨by decide, by decide,
    match ((retry_targets_last_descriptor _).1 { name := "Other", address := "00:11:22:33:44:55" }
      (by decide)).2.2 (by decide) with
    | ⟨s, hs, _, ht, _⟩ => ⟨s, hs, ht⟩⟩

end QtAACPTransport

namespace AACPTransport

/-! ## The request buffer of `Write` -/

theorem store_middle (before old after new : List Nat) (h : old.length = new.length) :
    store (before ++ old ++ after) before.length new = before ++ new ++ after := by
  have e : before ++ old ++ after = before ++ (old ++ after) := List.append_assoc _ _ _
  unfold store
  rw [e, List.take_left, ← h, List.drop_append, List.drop_left]

theorem le32_length (v : Nat) : (le32 v).length = 4 := rfl

theorem Write_buffer_eq (channel : AACP_CHANNEL_TARGET) (payload : List Nat) (timeoutMs : Nat) :
    store (store (store (store (List.replicate (sizeofRwRequest + payload.length) 0)
        offsetChannel (le32 channel.value)) offsetTimeoutMs (le32 timeoutMs))
        offsetPayloadLength (le32 (payload.length % 4294967296))) offsetPayload payload
      = le32 channel.value ++ le32 timeoutMs ++ le32 (payload.length % 4294967296)
          ++ payload ++ [0] := by
  have h0 : List.replicate (sizeofRwRequest + payload.length) 0
      = ([] : List Nat) ++ List.replicate 4 0
          ++ (List.replicate 4 0 ++ List.replicate 4 0 ++ List.replicate payload.length 0
              ++ [0]) := by
    have : sizeofRwRequest + payload.length = 4 + (4 + (4 + (payload.length + 1))) := by
      simp only [sizeofRwRequest, offsetPayload, offsetPayloadLength, offsetTimeoutMs,
        offsetChannel]
      omega
    rw [this, List.replicate_add, List.replicate_add, List.replicate_add, List.replicate_add]
    simp
  have s1 := store_middle [] (List.replicate 4 0) (List.replicate 4 0 ++ List.replicate 4 0
    ++ List.replicate payload.length 0 ++ [0]) (le32 channel.value) rfl
  rw [h0]
  have e1 : offsetChannel = ([] : List Nat).length := rfl
  rw [e1, s1]
  have s2 := store_middle (le32 channel.value) (List.replicate 4 0)
    (List.replicate 4 0 ++ List.replicate payload.length 0 ++ [0]) (le32 timeoutMs) rfl
  have e2 : offsetTimeoutMs = (le32 channel.value).length := rfl
  have r2 : [] ++ le32 channel.value ++ (List.replicate 4 0 ++ List.replicate 4 0
      ++ List.replicate payload.length 0 ++ [0])
      = le32 channel.value ++ List.replicate 4 0
        ++ (List.replicate 4 0 ++ List.replicate payload.length 0 ++ [0]) := by
    simp only [List.nil_append, List.append_assoc]
  rw [r2, e2, s2]
  have s3 := store_middle (le32 channel.value ++ le32 timeoutMs) (List.replicate 4 0)
    (List.replicate payload.length 0 ++ [0]) (le32 (payload.length % 4294967296)) rfl
  have e3 : offsetPayloadLength = (le32 channel.value ++ le32 timeoutMs).length := rfl
  have r3 : le32 channel.value ++ le32 timeoutMs
      ++ (List.replicate 4 0 ++ List.replicate payload.length 0 ++ [0])
      = le32 channel.value ++ le32 timeoutMs ++ List.replicate 4 0
        ++ (List.replicate payload.length 0 ++ [0]) := by
    simp only [List.append_assoc]
  rw [r3, e3, s3]
  have s4 := store_middle
    (le32 channel.value ++ le32 timeoutMs ++ le32 (payload.length % 4294967296))
    (List.replicate payload.length 0) [0] payload (List.length_replicate _ _)
  have e4 : offsetPayload
      = (le32 channel.value ++ le32 timeoutMs ++ le32 (payload.length % 4294967296)).length :=
    rfl
  have r4 : le32 channel.value ++ le32 timeoutMs ++ le32 (payload.length % 4294967296)
      ++ (List.replicate payload.length 0 ++ [0])
      = le32 channel.value ++ le32 timeoutMs ++ le32 (payload.length % 4294967296)
        ++ List.replicate payload.length 0 ++ [0] := by
    simp only [List.append_assoc]
  rw [r4, e4, s4]

/-- C18 (amended).  For every channel, timeout and payload of length `n` with
`13 + n < 2^32`, `Write` on an open device hands the driver the 12-byte header
(channel, timeout and `n`, each 32 bits, least significant byte first), then the
`n` payload bytes from offset 12, then one zero byte: `13 + n` bytes in all, which
is `sizeof(AACP_RW_REQUEST) + n` and a length the driver's `AacpHandleWrite`
accepts for every `n`.  Without an open device no request is made. -/
theorem Write_request (handle : Nat) (deviceIoControl : IoctlCall → Bool)
    (channel : AACP_CHANNEL_TARGET) (payload : List Nat) (timeoutMs : Nat)
    (hn : sizeofRwRequest + payload.length < 4294967296) :
    (Write (some handle) deviceIoControl channel payload timeoutMs).2
      = some { code := IOCTL_AACP_WRITE
               inBuffer := le32 channel.value ++ le32 timeoutMs ++ le32 payload.length
                 ++ payload ++ [0]
               inSize := 13 + payload.length
               outSize := 0 } ∧
    (le32 channel.value ++ le32 timeoutMs ++ le32 payload.length ++ payload ++ [0]).length
      = 13 + payload.length ∧
    ((le32 channel.value ++ le32 timeoutMs ++ le32 payload.length ++ payload ++ [0]).drop 12).take
      payload.length = payload ∧
    (le32 channel.value ++ le32 timeoutMs ++ le32 payload.length ++ payload ++ [0]).drop
      (12 + payload.length) = [0] ∧
    AacpHandleWrite (13 + payload.length) = STATUS_SUCCESS ∧
    (Write none deviceIoControl channel payload timeoutMs).2 = none := by
  have h13 : sizeofRwRequest = 13 := rfl
  rw [h13] at hn
  have hmod : payload.length % 4294967296 = payload.length := Nat.mod_eq_of_lt (by omega)
  have hlen : (le32 channel.value ++ le32 timeoutMs ++ le32 payload.length ++ payload
      ++ [0]).length = 13 + payload.length := by
    simp only [List.length_append, le32_length, List.length_singleton]
    omega
  have h12 : (le32 channel.value ++ le32 timeoutMs ++ le32 payload.length).length = 12 := rfl
  refine ⟨?_, hlen, ?_, ?_, ?_, rfl⟩
  · have hb := Write_buffer_eq channel payload timeoutMs
    rw [hmod] at hb
    simp only [Write, SendIoctl, hmod, hb, hlen]
    rw [Nat.mod_eq_of_lt (by omega), List.take_of_length_le (Nat.le_of_eq hlen)]
  · rw [List.append_assoc _ payload, ← h12, List.drop_left, List.take_left]
  · have : 12 + payload.length
        = ((le32 channel.value ++ le32 timeoutMs ++ le32 payload.length) ++ payload).length := by
      rw [List.length_append, h12]
    rw [this, List.drop_left]
  · unfold AacpHandleWrite
    rw [h13, if_neg (by omega)]

/-- The statement `Write_request` applied to a two-byte payload on the primary
channel with a timeout of 1000 ms. -/
theorem Write_request_witness :
    sizeofRwRequest + [170, 187].length < 4294967296 ∧
    (Write (some 1) (fun _ => true) .AacpChannelPrimary [170, 187] 1000).2
      = some { code := IOCTL_AACP_WRITE
               inBuffer := [0, 0, 0, 0, 232, 3, 0, 0, 2, 0, 0, 0, 170, 187, 0]
               inSize := 15
               outSize := 0 } :=
  ⟨by decide, (Write_request 1 (fun _ => true) .AacpChannelPrimary [170, 187] 1000
    (by decide)).1⟩

/-- C18 as stated fails: for a two-byte payload the request handed to the driver
has 15 bytes, not `12 + 2`, the last one being a zero byte after the payload;
and a request of exactly 12 bytes, the stated layout of an empty payload, is one
the driver rejects as too small. -/
theorem Write_request_has_extra_byte :
    ((Write (some 1) (fun _ => true) .AacpChannelPrimary [170, 187] 1000).2.map
        fun call => (call.inSize, call.inBuffer))
      = some (15, [0, 0, 0, 0, 232, 3, 0, 0, 2, 0, 0, 0, 170, 187, 0]) ∧
    ((Write (some 1) (fun _ => true) .AacpChannelPrimary [170, 187] 1000).2.map
        fun call => call.inSize) ≠ some (12 + 2) ∧
    sizeofRwRequest = 13 ∧
    AacpHandleWrite 12 = STATUS_BUFFER_TOO_SMALL := by
  decide

end AACPTransport
